import Mathlib

/-! # midll: a verification development

A shallow embedding of the parts of `midll` that its specification talks about,
followed by theorems relating the specification's sentences to the code.

* `include/midll/detail/pe_info.hpp`: the PE reader, over a byte-list model of
  `std::ifstream` as `library_info` configures it (every failed read raises).
* `include/midll/library_info.hpp`: format detection and the native-format check.
* `include/midll/detail/posix/shared_library_impl.hpp`,
  `include/midll/detail/windows/shared_library_impl.hpp` and
  `include/midll/shared_library.hpp`: the library handle, over an arbitrary
  platform loader.
* `include/midll/detail/aggressive_ptr_cast.hpp` and the functions of the header
  `import.hpp`: typed access to symbols and imported values.
-/

set_option autoImplicit false

namespace midll

/-! ## Build and host parameters -/

/-- The ways in which a call can end without returning: an exception raised by the
stream (`std::ios_base::failure`) and a failed `assert` (builds without `NDEBUG`). -/
inductive Fault where
  | ios_failure
  | assertion_failure
  deriving DecidableEq, Repr

/-- What the compilation target fixes for `pe_info.hpp`: `sizeof(long)` (the type of
`LONG_`, hence of `e_lfanew`), the width in bits of `std::size_t`, and whether
`NDEBUG` is defined (then `assert` expands to nothing). -/
structure Host where
  sizeof_long : Nat
  size_t_bits : Nat
  ndebug : Bool
  deriving DecidableEq, Repr

/-- Template argument `AddressOffsetT` of `pe_info`: `DWORD_` for `pe_info32`,
`ULONGLONG_` for `pe_info64`. -/
inductive AddressOffsetT where
  | dword
  | ulonglong
  deriving DecidableEq, Repr

/-- The value of `sizeof(AddressOffsetT)`. -/
def AddressOffsetT.sizeof : AddressOffsetT → Nat
  | .dword => 4
  | .ulonglong => 8

/-! ## The stream -/

/-- A `std::ifstream` opened in binary mode on a file with the given bytes, with
`exceptions(failbit | badbit | eofbit)` set as in the constructor of `library_info`:
`pos` is the get position. -/
structure ifstream where
  bytes : List UInt8
  pos : Nat
  deriving DecidableEq, Repr

/-- Conversion of a `std::size_t` value to the 64-bit signed `std::streamoff`. -/
def to_streamoff (n : Nat) : Int :=
  if n % 2 ^ 64 < 2 ^ 63 then ((n % 2 ^ 64 : Nat) : Int) else ((n % 2 ^ 64 : Nat) : Int) - 2 ^ 64

/-- The call `fs.seekg(off)`: a negative offset sets `failbit`, which raises; any other
offset (also one past the end of the file) becomes the get position. -/
def ifstream.seekg (fs : ifstream) (off : Int) : Except Fault ifstream :=
  if off < 0 then .error .ios_failure else .ok { fs with pos := off.toNat }

/-- The call `fs.read(buf, n)`: the `n` bytes at the get position, which advances; fewer
than `n` bytes left sets `eofbit | failbit`, which raises. -/
def ifstream.read (fs : ifstream) (n : Nat) : Except Fault (List UInt8 × ifstream) :=
  if fs.pos + n ≤ fs.bytes.length then
    .ok ((fs.bytes.drop fs.pos).take n, { fs with pos := fs.pos + n })
  else .error .ios_failure

/-- The call `std::getline(fs, s, delim)`: the bytes from the get position up to the first
`delim`, which is consumed and not stored; reaching the end of the file first sets
`eofbit`, which raises. -/
def ifstream.getline (fs : ifstream) (delim : UInt8) : Except Fault (List UInt8 × ifstream) :=
  let rest := fs.bytes.drop fs.pos
  if delim ∈ rest then
    .ok (rest.takeWhile (· ≠ delim),
         { fs with pos := fs.pos + (rest.takeWhile (· ≠ delim)).length + 1 })
  else .error .ios_failure

/-- The statement `assert(c)`. -/
def c_assert (host : Host) (c : Bool) : Except Fault Unit :=
  if host.ndebug || c then .ok () else .error .assertion_failure

/-! ## Raw field access (little-endian host, as `read_raw` copies bytes into structs) -/

/-- The unsigned value of a little-endian byte sequence. -/
def le_value : List UInt8 → Nat
  | [] => 0
  | b :: bs => b.toNat + 256 * le_value bs

/-- The unsigned field of `width` bytes at `offset` in a raw struct image. -/
def field (raw : List UInt8) (offset width : Nat) : Nat :=
  le_value ((raw.drop offset).take width)

/-- The two-complement reading of an unsigned value of `8 * width` bits. -/
def to_signed (width : Nat) (v : Nat) : Int :=
  if v < 2 ^ (8 * width - 1) then (v : Int) else (v : Int) - 2 ^ (8 * width)

/-- The string a C `char` buffer denotes: its bytes before the first NUL. -/
def c_str (buf : List UInt8) : List UInt8 :=
  buf.takeWhile (· ≠ 0)

/-- The test `!std::strcmp(a, b)`. -/
def strcmp_eq (a b : List UInt8) : Bool :=
  c_str a == c_str b

/-! ## PE structures -/

/-- The fields of `IMAGE_DOS_HEADER_` the reader uses. -/
structure IMAGE_DOS_HEADER_ where
  e_magic : Nat
  e_lfanew : Int
  deriving DecidableEq, Repr

/-- The offset of `e_lfanew` in `IMAGE_DOS_HEADER_`: thirty `WORD_` fields come first, and
the `long` is aligned to its own size. -/
def offsetof_e_lfanew (host : Host) : Nat :=
  (60 + host.sizeof_long - 1) / host.sizeof_long * host.sizeof_long

/-- The value of `sizeof(IMAGE_DOS_HEADER_)`. -/
def sizeof_dos_t (host : Host) : Nat :=
  offsetof_e_lfanew host + host.sizeof_long

/-- The struct image of a DOS header. -/
def IMAGE_DOS_HEADER_.of_raw (host : Host) (raw : List UInt8) : IMAGE_DOS_HEADER_ :=
  { e_magic := field raw 0 2
    e_lfanew := to_signed host.sizeof_long (field raw (offsetof_e_lfanew host) host.sizeof_long) }

/-- The record `IMAGE_FILE_HEADER_`. -/
structure IMAGE_FILE_HEADER_ where
  Machine : Nat
  NumberOfSections : Nat
  TimeDateStamp : Nat
  PointerToSymbolTable : Nat
  NumberOfSymbols : Nat
  SizeOfOptionalHeader : Nat
  Characteristics : Nat
  deriving DecidableEq, Repr

/-- The record `IMAGE_DATA_DIRECTORY_`. -/
structure IMAGE_DATA_DIRECTORY_ where
  VirtualAddress : Nat
  Size : Nat
  deriving DecidableEq, Repr

/-- The fields of `IMAGE_OPTIONAL_HEADER_template` the reader uses: `Magic` and the
sixteen data directories. -/
structure IMAGE_OPTIONAL_HEADER_ where
  Magic : Nat
  DataDirectory : List IMAGE_DATA_DIRECTORY_
  deriving DecidableEq, Repr

/-- The record `IMAGE_NT_HEADERS_template` (`header_t`). -/
structure header_t where
  Signature : Nat
  FileHeader : IMAGE_FILE_HEADER_
  OptionalHeader : IMAGE_OPTIONAL_HEADER_
  deriving DecidableEq, Repr

/-- The value of `sizeof(IMAGE_OPTIONAL_HEADER_template<AddressOffsetT>)`: 224 or 240. -/
def sizeof_optional_header (W : AddressOffsetT) : Nat :=
  match W with
  | .dword => 224
  | .ulonglong => 240

/-- The value of `sizeof(header_t)`: signature, file header, optional header. -/
def sizeof_header_t (W : AddressOffsetT) : Nat :=
  4 + 20 + sizeof_optional_header W

/-- The offset of `DataDirectory` in the optional header: after `NumberOfRvaAndSizes`. -/
def offsetof_DataDirectory (W : AddressOffsetT) : Nat :=
  match W with
  | .dword => 96
  | .ulonglong => 112

/-- The struct image of the NT headers. -/
def header_t.of_raw (W : AddressOffsetT) (raw : List UInt8) : header_t :=
  { Signature := field raw 0 4
    FileHeader :=
      { Machine := field raw 4 2
        NumberOfSections := field raw 6 2
        TimeDateStamp := field raw 8 4
        PointerToSymbolTable := field raw 12 4
        NumberOfSymbols := field raw 16 4
        SizeOfOptionalHeader := field raw 20 2
        Characteristics := field raw 22 2 }
    OptionalHeader :=
      { Magic := field raw 24 2
        DataDirectory := (List.range 16).map fun k =>
          { VirtualAddress := field raw (24 + offsetof_DataDirectory W + 8 * k) 4
            Size := field raw (24 + offsetof_DataDirectory W + 8 * k + 4) 4 } } }

/-- The record `IMAGE_SECTION_HEADER_` (`section_t`), 40 bytes. -/
structure section_t where
  Name : List UInt8
  Misc : Nat
  VirtualAddress : Nat
  SizeOfRawData : Nat
  PointerToRawData : Nat
  PointerToRelocations : Nat
  PointerToLinenumbers : Nat
  NumberOfRelocations : Nat
  NumberOfLinenumbers : Nat
  Characteristics : Nat
  deriving DecidableEq, Repr

/-- The value of `sizeof(section_t)`. -/
def sizeof_section_t : Nat := 40

/-- The constant `IMAGE_SIZEOF_SHORT_NAME_`. -/
def IMAGE_SIZEOF_SHORT_NAME_ : Nat := 8

/-- The struct image of a section header. -/
def section_t.of_raw (raw : List UInt8) : section_t :=
  { Name := raw.take IMAGE_SIZEOF_SHORT_NAME_
    Misc := field raw 8 4
    VirtualAddress := field raw 12 4
    SizeOfRawData := field raw 16 4
    PointerToRawData := field raw 20 4
    PointerToRelocations := field raw 24 4
    PointerToLinenumbers := field raw 28 4
    NumberOfRelocations := field raw 32 2
    NumberOfLinenumbers := field raw 34 2
    Characteristics := field raw 36 4 }

/-- The record `IMAGE_EXPORT_DIRECTORY_` (`exports_t`), 40 bytes. -/
structure exports_t where
  Characteristics : Nat
  TimeDateStamp : Nat
  MajorVersion : Nat
  MinorVersion : Nat
  Name : Nat
  Base : Nat
  NumberOfFunctions : Nat
  NumberOfNames : Nat
  AddressOfFunctions : Nat
  AddressOfNames : Nat
  AddressOfNameOrdinals : Nat
  deriving DecidableEq, Repr

/-- The value of `sizeof(exports_t)`. -/
def sizeof_exports_t : Nat := 40

/-- The struct image of an export directory. -/
def exports_t.of_raw (raw : List UInt8) : exports_t :=
  { Characteristics := field raw 0 4
    TimeDateStamp := field raw 4 4
    MajorVersion := field raw 8 2
    MinorVersion := field raw 10 2
    Name := field raw 12 4
    Base := field raw 16 4
    NumberOfFunctions := field raw 20 4
    NumberOfNames := field raw 24 4
    AddressOfFunctions := field raw 28 4
    AddressOfNames := field raw 32 4
    AddressOfNameOrdinals := field raw 36 4 }

/-- The export directory after `std::memset(&exports, 0, sizeof(exports))`. -/
def exports_t.zero : exports_t :=
  { Characteristics := 0, TimeDateStamp := 0, MajorVersion := 0, MinorVersion := 0,
    Name := 0, Base := 0, NumberOfFunctions := 0, NumberOfNames := 0,
    AddressOfFunctions := 0, AddressOfNames := 0, AddressOfNameOrdinals := 0 }

/-! ## `pe_info<AddressOffsetT>` -/

namespace pe_info

/-- Reduction of a mathematical value to `std::size_t`. -/
def size_t (host : Host) (n : Nat) : Nat :=
  n % 2 ^ host.size_t_bits

/-- The call `fs.seekg(n)` with `n` a `std::size_t`. -/
def seekg_size_t (fs : ifstream) (n : Nat) : Except Fault ifstream :=
  fs.seekg (to_streamoff n)

/-- The sum `dos.e_lfanew + sizeof(header_t)`: the `long` is converted to the unsigned
type of `std::size_t` and the sum is taken in that type. -/
def section_table_offset (host : Host) (W : AddressOffsetT) (dos : IMAGE_DOS_HEADER_) : Nat :=
  size_t host ((dos.e_lfanew % (2 ^ host.size_t_bits : Int)).toNat + sizeof_header_t W)

/-- The magic the optional header must carry: `0x10B` when
`sizeof(uint32_t) == sizeof(AddressOffsetT)`, else `0x20B`. -/
def expected_magic (W : AddressOffsetT) : Nat :=
  if 4 = W.sizeof then 0x10B else 0x20B

/-- The function `pe_info::parsing_supported`. -/
def parsing_supported (host : Host) (W : AddressOffsetT) (fs : ifstream) :
    Except Fault (Bool × ifstream) := do
  let fs ← fs.seekg 0
  let (raw, fs) ← fs.read (sizeof_dos_t host)
  let dos := IMAGE_DOS_HEADER_.of_raw host raw
  if dos.e_magic ≠ 0x4D5A ∧ dos.e_magic ≠ 0x5A4D then
    return (false, fs)
  let fs ← fs.seekg dos.e_lfanew
  let (raw, fs) ← fs.read (sizeof_header_t W)
  let h := header_t.of_raw W raw
  return (h.Signature == 0x00004550 && h.OptionalHeader.Magic == expected_magic W, fs)

/-- The function `pe_info::header`. -/
def header (host : Host) (W : AddressOffsetT) (fs : ifstream) :
    Except Fault (header_t × ifstream) := do
  let fs ← fs.seekg 0
  let (raw, fs) ← fs.read (sizeof_dos_t host)
  let dos := IMAGE_DOS_HEADER_.of_raw host raw
  let fs ← fs.seekg dos.e_lfanew
  let (raw, fs) ← fs.read (sizeof_header_t W)
  return (header_t.of_raw W raw, fs)

/-- The `for` loop of `pe_info::get_file_offset`, with `n` headers still to read. -/
def get_file_offset_loop (host : Host) (virtual_address : Nat) :
    Nat → ifstream → Except Fault (Nat × ifstream)
  | 0, fs => .ok (0, fs)
  | n + 1, fs => do
    let (raw, fs) ← fs.read sizeof_section_t
    let image_section_header := section_t.of_raw raw
    if virtual_address ≥ image_section_header.VirtualAddress ∧
        virtual_address <
          (image_section_header.VirtualAddress + image_section_header.SizeOfRawData) % 2 ^ 32 then
      return (size_t host (image_section_header.PointerToRawData + virtual_address
                - image_section_header.VirtualAddress), fs)
    else
      get_file_offset_loop host virtual_address n fs

/-- The function `pe_info::get_file_offset`. -/
def get_file_offset (host : Host) (W : AddressOffsetT) (fs : ifstream)
    (virtual_address : Nat) (h : header_t) : Except Fault (Nat × ifstream) := do
  c_assert host (virtual_address != 0)
  let fs ← fs.seekg 0
  let (raw, fs) ← fs.read (sizeof_dos_t host)
  let dos := IMAGE_DOS_HEADER_.of_raw host raw
  let fs ← seekg_size_t fs (section_table_offset host W dos)
  get_file_offset_loop host virtual_address h.FileHeader.NumberOfSections fs

/-- The constant `IMAGE_DIRECTORY_ENTRY_EXPORT_`. -/
def IMAGE_DIRECTORY_ENTRY_EXPORT_ : Nat := 0

/-- The function `pe_info::exports`. -/
def exports (host : Host) (W : AddressOffsetT) (fs : ifstream) (h : header_t) :
    Except Fault (exports_t × ifstream) := do
  let exp_virtual_address :=
    (h.OptionalHeader.DataDirectory.getD IMAGE_DIRECTORY_ENTRY_EXPORT_ ⟨0, 0⟩).VirtualAddress
  if exp_virtual_address = 0 then
    return (exports_t.zero, fs)
  let (real_offset, fs) ← get_file_offset host W fs exp_virtual_address h
  c_assert host (real_offset != 0)
  let fs ← seekg_size_t fs real_offset
  let (raw, fs) ← fs.read sizeof_exports_t
  return (exports_t.of_raw raw, fs)

/-- The `for` loop of `pe_info::sections`, with `n` headers still to read. -/
def sections_loop : Nat → ifstream → Except Fault (List (List UInt8) × ifstream)
  | 0, fs => .ok ([], fs)
  | n + 1, fs => do
    let (raw, fs) ← fs.read sizeof_section_t
    let image_section_header := section_t.of_raw raw
    let name_helper := image_section_header.Name ++ [0]
    if name_helper.head? ≠ some 0x2F then
      let (ret, fs) ← sections_loop n fs
      return (c_str name_helper :: ret, fs)
    else
      let (ret, fs) ← sections_loop n fs
      return (c_str name_helper :: ret, fs)

/-- The function `pe_info::sections`. -/
def sections (host : Host) (W : AddressOffsetT) (fs : ifstream) :
    Except Fault (List (List UInt8) × ifstream) := do
  let (h, fs) ← header host W fs
  sections_loop h.FileHeader.NumberOfSections fs

/-- The `for` loop of `pe_info::symbols(fs)`, at index `i` with `k` names still to read. -/
def symbols_loop (host : Host) (W : AddressOffsetT) (h : header_t) (fixed_names_addr : Nat) :
    Nat → Nat → ifstream → Except Fault (List (List UInt8) × ifstream)
  | 0, _, fs => .ok ([], fs)
  | k + 1, i, fs => do
    let fs ← seekg_size_t fs (size_t host (fixed_names_addr + i * 4))
    let (raw, fs) ← fs.read 4
    let name_offset := le_value raw
    let (off, fs) ← get_file_offset host W fs name_offset h
    let fs ← seekg_size_t fs off
    let (symbol_name, fs) ← fs.getline 0
    let (ret, fs) ← symbols_loop host W h fixed_names_addr k (i + 1) fs
    return (symbol_name :: ret, fs)

/-- The function `pe_info::symbols(std::ifstream&)`. -/
def symbols (host : Host) (W : AddressOffsetT) (fs : ifstream) :
    Except Fault (List (List UInt8) × ifstream) := do
  let (h, fs) ← header host W fs
  let (exprt, fs) ← exports host W fs h
  let exported_symbols := exprt.NumberOfNames
  if exported_symbols = 0 then
    return ([], fs)
  let (fixed_names_addr, fs) ← get_file_offset host W fs exprt.AddressOfNames h
  symbols_loop host W h fixed_names_addr exported_symbols 0 fs

/-- The first `for` loop of `pe_info::symbols(fs, section_name)`: the address range of the
named section, with `n` headers still to read. -/
def section_range_loop (host : Host) (section_name : List UInt8) :
    Nat → Nat → Nat → ifstream → Except Fault ((Nat × Nat) × ifstream)
  | 0, section_begin_addr, section_end_addr, fs => .ok ((section_begin_addr, section_end_addr), fs)
  | n + 1, section_begin_addr, section_end_addr, fs => do
    let (raw, fs) ← fs.read sizeof_section_t
    let image_section_header := section_t.of_raw raw
    let name_helper := image_section_header.Name ++ [0]
    if strcmp_eq section_name name_helper then
      let section_begin_addr := image_section_header.PointerToRawData
      let section_end_addr := size_t host (section_begin_addr + image_section_header.SizeOfRawData)
      section_range_loop host section_name n section_begin_addr section_end_addr fs
    else
      section_range_loop host section_name n section_begin_addr section_end_addr fs

/-- The second `for` loop of `pe_info::symbols(fs, section_name)`, at index `i` with `k`
entries still to visit. -/
def symbols_in_loop (host : Host) (W : AddressOffsetT) (h : header_t)
    (section_begin_addr section_end_addr : Nat)
    (fixed_names_addr fixed_ordinals_addr fixed_functions_addr : Nat) :
    Nat → Nat → ifstream → Except Fault (List (List UInt8) × ifstream)
  | 0, _, fs => .ok ([], fs)
  | k + 1, i, fs => do
    let fs ← seekg_size_t fs (size_t host (fixed_ordinals_addr + i * 2))
    let (raw, fs) ← fs.read 2
    let ordinal := le_value raw
    let fs ← seekg_size_t fs (size_t host (fixed_functions_addr + ordinal * 4))
    let (raw, fs) ← fs.read 4
    let ptr := le_value raw
    let (off, fs) ← get_file_offset host W fs ptr h
    let ptr := off % 2 ^ 32
    if ptr ≥ section_end_addr ∨ ptr < section_begin_addr then
      symbols_in_loop host W h section_begin_addr section_end_addr
        fixed_names_addr fixed_ordinals_addr fixed_functions_addr k (i + 1) fs
    else
      let fs ← seekg_size_t fs (size_t host (fixed_names_addr + i * 4))
      let (raw, fs) ← fs.read 4
      let ptr := le_value raw
      let (off, fs) ← get_file_offset host W fs ptr h
      let fs ← seekg_size_t fs off
      let (symbol_name, fs) ← fs.getline 0
      let (ret, fs) ← symbols_in_loop host W h section_begin_addr section_end_addr
        fixed_names_addr fixed_ordinals_addr fixed_functions_addr k (i + 1) fs
      return (symbol_name :: ret, fs)

/-- The function `pe_info::symbols(std::ifstream&, const char*)`. -/
def symbols_in (host : Host) (W : AddressOffsetT) (fs : ifstream) (section_name : List UInt8) :
    Except Fault (List (List UInt8) × ifstream) := do
  let (h, fs) ← header host W fs
  let ((section_begin_addr, section_end_addr), fs) ←
    section_range_loop host section_name h.FileHeader.NumberOfSections 0 0 fs
  if section_begin_addr = 0 ∨ section_end_addr = 0 then
    return ([], fs)
  let (exprt, fs) ← exports host W fs h
  let exported_symbols := exprt.NumberOfFunctions
  let (fixed_names_addr, fs) ← get_file_offset host W fs exprt.AddressOfNames h
  let (fixed_ordinals_addr, fs) ← get_file_offset host W fs exprt.AddressOfNameOrdinals h
  let (fixed_functions_addr, fs) ← get_file_offset host W fs exprt.AddressOfFunctions h
  symbols_in_loop host W h section_begin_addr section_end_addr
    fixed_names_addr fixed_ordinals_addr fixed_functions_addr exported_symbols 0 fs

end pe_info

/-! ### Reading aids for the statements about `pe_info` -/

/-- The value of `e_lfanew` the reader finds in a file: the field of the DOS header
image made of the first `sizeof(IMAGE_DOS_HEADER_)` bytes. -/
def e_lfanew_of (host : Host) (bytes : List UInt8) : Int :=
  (IMAGE_DOS_HEADER_.of_raw host (bytes.take (sizeof_dos_t host))).e_lfanew

/-- The two bytes of the optional-header magic as stored in a file: `0x10B` for
`pe_info32`, `0x20B` for `pe_info64`, little-endian. -/
def optional_magic_bytes : AddressOffsetT → List UInt8
  | .dword => [0x0B, 0x01]
  | .ulonglong => [0x0B, 0x02]

/-! ## `library_info` -/

/-- The preprocessor state `library_info.hpp` and the loader sources are compiled in:
which of the `MIDLL_OS_*` macros `config.hpp` has defined, whether `BOOST_OS_MACOS` and
`BOOST_OS_IOS` are defined (nothing in this repository defines them), and
`sizeof(void*)`. -/
structure Platform where
  MIDLL_OS_WINDOWS : Bool
  MIDLL_OS_LINUX : Bool
  MIDLL_OS_MACOS : Bool
  MIDLL_OS_IOS : Bool
  MIDLL_OS_ANDROID : Bool
  BOOST_OS_MACOS : Bool
  BOOST_OS_IOS : Bool
  sizeof_void_ptr : Nat
  deriving DecidableEq, Repr

namespace library_info

/-- The anonymous enumeration of `library_info::fmt_`. -/
inductive fmt_t where
  | fmt_elf_info32
  | fmt_elf_info64
  | fmt_pe_info32
  | fmt_pe_info64
  | fmt_macho_info32
  | fmt_macho_info64
  deriving DecidableEq, Repr

/-- The messages of the `std::runtime_error`s that `library_info` throws. -/
inductive what_t where
  /-- The text "Not native format: 64bit binary". -/
  | not_native_64bit
  /-- The text "Not native format: not a PE binary". -/
  | not_native_not_pe
  /-- The text "Not native format: not an ELF binary". -/
  | not_native_not_elf
  /-- The text "Not native format: not an Mach-O binary". -/
  | not_native_not_macho
  /-- The text "Unsupported binary format". -/
  | unsupported_binary_format
  deriving DecidableEq, Repr

/-- What the constructor of `library_info` can raise: a `std::runtime_error` of its own,
or whatever a probe raised while reading the stream. -/
inductive exception where
  | runtime_error (what : what_t)
  | stream (fault : Fault)
  deriving DecidableEq, Repr

/-- A format probe, `X::parsing_supported(f_)`. -/
abbrev probe_t := ifstream → Except Fault (Bool × ifstream)

/-- The probes of `elf_info.hpp` and `macho_info.hpp`, headers that `library_info.hpp`
includes and that are taken as given here. -/
structure foreign_probes where
  elf_info32 : probe_t
  elf_info64 : probe_t
  macho_info32 : probe_t
  macho_info64 : probe_t

/-- A probe run inside `init`: what it raises leaves `init`. -/
def run_probe (p : probe_t) (f_ : ifstream) : Except exception (Bool × ifstream) :=
  match p f_ with
  | .ok r => .ok r
  | .error e => .error (.stream e)

/-- The function `library_info::throw_if_in_32bit`. -/
def throw_if_in_32bit (plat : Platform) : Except exception Unit :=
  if plat.sizeof_void_ptr = 4 then .error (.runtime_error .not_native_64bit) else .ok ()

/-- The function `library_info::throw_if_in_windows`. -/
def throw_if_in_windows (plat : Platform) : Except exception Unit :=
  if plat.MIDLL_OS_WINDOWS then .error (.runtime_error .not_native_not_pe) else .ok ()

/-- The function `library_info::throw_if_in_linux`. -/
def throw_if_in_linux (plat : Platform) : Except exception Unit :=
  if !plat.MIDLL_OS_WINDOWS && !plat.MIDLL_OS_MACOS && !plat.MIDLL_OS_IOS then
    .error (.runtime_error .not_native_not_elf)
  else .ok ()

/-- The function `library_info::throw_if_in_macos`. -/
def throw_if_in_macos (plat : Platform) : Except exception Unit :=
  if plat.BOOST_OS_MACOS || plat.BOOST_OS_IOS then
    .error (.runtime_error .not_native_not_macho)
  else .ok ()

/-- The function `library_info::init`: the stored `fmt_` and the stream as the probes
left it. -/
def init (plat : Platform) (host : Host) (ext : foreign_probes) (f_ : ifstream)
    (throw_if_not_native : Bool) : Except exception (fmt_t × ifstream) := do
  let (r, f_) ← run_probe ext.elf_info32 f_
  if r then
    if throw_if_not_native then
      throw_if_in_windows plat
      throw_if_in_macos plat
    return (.fmt_elf_info32, f_)
  let (r, f_) ← run_probe ext.elf_info64 f_
  if r then
    if throw_if_not_native then
      throw_if_in_windows plat
      throw_if_in_macos plat
      throw_if_in_32bit plat
    return (.fmt_elf_info64, f_)
  let (r, f_) ← run_probe (pe_info.parsing_supported host .dword) f_
  if r then
    if throw_if_not_native then
      throw_if_in_linux plat
      throw_if_in_macos plat
    return (.fmt_pe_info32, f_)
  let (r, f_) ← run_probe (pe_info.parsing_supported host .ulonglong) f_
  if r then
    if throw_if_not_native then
      throw_if_in_linux plat
      throw_if_in_macos plat
      throw_if_in_32bit plat
    return (.fmt_pe_info64, f_)
  let (r, f_) ← run_probe ext.macho_info32 f_
  if r then
    if throw_if_not_native then
      throw_if_in_linux plat
      throw_if_in_windows plat
    return (.fmt_macho_info32, f_)
  let (r, f_) ← run_probe ext.macho_info64 f_
  if r then
    if throw_if_not_native then
      throw_if_in_linux plat
      throw_if_in_windows plat
      throw_if_in_32bit plat
    return (.fmt_macho_info64, f_)
  .error (.runtime_error .unsupported_binary_format)

/-! ### The specification's reading of detection -/

end library_info

/-! ## `std::filesystem::path` on a POSIX host

The loader only uses the operations below; they follow the generic-format rules of the
C++ standard for a host whose separator is `/` and that has no root names. -/

namespace fs

/-- A `std::filesystem::path`, as its native string. -/
abbrev path := List Char

/-- The call `p.empty()`. -/
def path.empty (p : path) : Bool := p.isEmpty

/-- The call `p.is_absolute()`. -/
def path.is_absolute (p : path) : Bool := p.head? == some '/'

/-- The call `p.filename()`: what follows the last separator. -/
def path.filename (p : path) : path :=
  (p.reverse.takeWhile (· ≠ '/')).reverse

/-- The call `p.has_filename()`. -/
def path.has_filename (p : path) : Bool := !(path.filename p).isEmpty

/-- The call `p.has_relative_path()`. -/
def path.has_relative_path (p : path) : Bool := !(p.dropWhile (· == '/')).isEmpty

/-- The call `p.parent_path()`: the path itself when it has no relative part, else
the path up to the end of its last-but-one element. -/
def path.parent_path (p : path) : path :=
  if !path.has_relative_path p then p
  else
    let stem := p.take (p.length - (path.filename p).length)
    let trimmed := (stem.reverse.dropWhile (· == '/')).reverse
    if trimmed.isEmpty then (if stem.isEmpty then [] else ['/']) else trimmed

/-- The call `p.has_parent_path()`. -/
def path.has_parent_path (p : path) : Bool := !(path.parent_path p).isEmpty

/-- The expression `p / q`. -/
def path.append (p q : path) : path :=
  if path.is_absolute q then q
  else if path.has_filename p then p ++ ['/'] ++ q
  else p ++ q

/-- The values of `std::errc` that occur, and any other code the platform reports. -/
inductive errc where
  | bad_file_descriptor
  | executable_format_error
  | invalid_seek
  | other (value : Nat)
  deriving DecidableEq, Repr

/-- A `std::error_code`: `none` is the cleared code, which tests false. -/
abbrev error_code := Option errc

/-- The call `ec.clear()`. -/
def error_code.clear (_ : error_code) : error_code := none

end fs

/-! ## The POSIX `shared_library_impl` -/

/-- The type `native_handle_t`, a `void*`: `0` is `NULL`. -/
abbrev native_handle_t := Nat

/-- The flag values `<dlfcn.h>` gives to the enumerators of `load_mode::type` on a POSIX
host. -/
structure dlfcn where
  RTLD_LAZY : Nat
  RTLD_NOW : Nat
  RTLD_GLOBAL : Nat
  RTLD_LOCAL : Nat
  deriving DecidableEq, Repr

namespace load_mode

/-- The enumerator `append_decorations`. -/
def append_decorations : Nat := 0x00800000

/-- The enumerator `search_system_folders`. -/
def search_system_folders : Nat := append_decorations <<< 1

end load_mode

/-- A call of the platform loader, as it was made and what it returned. -/
inductive native_call where
  | dlopen (file : Option fs.path) (mode : Nat) (result : native_handle_t)
  | dlclose (handle : native_handle_t)
  deriving DecidableEq, Repr

/-- The platform the handle runs on, over states `σ` of the world outside the program:
the loader of `<dlfcn.h>` (`dlsym` returns an address, `0` for `NULL`),
`program_location_impl`, `path_from_handle` (which `posix/path_from_handle.hpp` implements
per host by reading the loader's own records; it is called with a cleared error code),
and the queries of `std::filesystem` (`exists` without an `error_code` may raise, which
is `none`). Every operation may depend on the state and change it. -/
structure platform_loader (σ : Type) where
  dlopen : σ → Option fs.path → Nat → native_handle_t × σ
  dlclose : σ → native_handle_t → σ
  dlerror : σ → σ
  program_location_impl : σ → (fs.path × fs.error_code) × σ
  fs_exists : σ → fs.path → Option Bool × σ
  fs_equivalent : σ → fs.path → fs.path → (Bool × fs.error_code) × σ
  fs_current_path : σ → (fs.path × fs.error_code) × σ
  dlsym : σ → native_handle_t → List Char → Nat × σ
  path_from_handle : σ → native_handle_t → (fs.path × fs.error_code) × σ

namespace shared_library_impl

/-- An object of class `shared_library_impl` together with the world it acts on and the
log of the loader calls made so far, oldest first. -/
structure state (σ : Type) where
  handle_ : native_handle_t
  world : σ
  calls : List native_call

/-- How a member function that takes an `error_code&` ends: the object, the error code,
and whether it was left by an exception of `std::filesystem`. -/
structure outcome (σ : Type) where
  self : state σ
  ec : fs.error_code
  raised : Bool

/-- The function `shared_library_impl::is_loaded`. -/
def is_loaded {σ : Type} (s : state σ) : Bool := s.handle_ != 0

/-- The function `shared_library_impl::unload`. -/
def unload {σ : Type} (L : platform_loader σ) (s : state σ) : state σ :=
  if !is_loaded s then s
  else
    { handle_ := 0
      world := L.dlclose s.world s.handle_
      calls := s.calls ++ [.dlclose s.handle_] }

/-- The function `midll::detail::reset_dlerror` (on a host that is not Windows). -/
def reset_dlerror {σ : Type} (L : platform_loader σ) (s : state σ) : state σ :=
  { s with world := L.dlerror s.world }

/-- The assignment `handle_ = dlopen(file, mode)`. -/
def do_dlopen {σ : Type} (L : platform_loader σ) (s : state σ) (file : Option fs.path)
    (mode : Nat) : state σ :=
  { handle_ := (L.dlopen s.world file mode).1
    world := (L.dlopen s.world file mode).2
    calls := s.calls ++ [.dlopen file mode (L.dlopen s.world file mode).1] }

/-- The function `shared_library_impl::suffix`. -/
def suffix (plat : Platform) : fs.path :=
  if plat.MIDLL_OS_MACOS || plat.MIDLL_OS_IOS then ".dylib".toList else ".so".toList

/-- The function `shared_library_impl::decorate`. -/
def decorate (plat : Platform) (sl : fs.path) : fs.path :=
  let actual_path :=
    if (fs.path.filename sl).take 3 ≠ "lib".toList then
      (if fs.path.has_parent_path sl then fs.path.append (fs.path.parent_path sl) "lib".toList
       else "lib".toList) ++ fs.path.filename sl
    else sl
  actual_path ++ suffix plat

/-- The expression `static_cast<unsigned>(m) & ~static_cast<unsigned>(flag)`. -/
def clear_flag (m flag : Nat) : Nat :=
  (m % 2 ^ 32) &&& (2 ^ 32 - 1 - flag % 2 ^ 32)

/-- The part "Fixing modes" of `shared_library_impl::load`: `rtld_lazy` unless
`rtld_now` is set, `rtld_local` unless `rtld_global` is set. -/
def fix_modes (dl : dlfcn) (native_mode : Nat) : Nat :=
  let native_mode :=
    if native_mode &&& dl.RTLD_NOW = 0 then native_mode ||| dl.RTLD_LAZY else native_mode
  let native_mode :=
    if native_mode &&& dl.RTLD_GLOBAL = 0 then native_mode ||| dl.RTLD_LOCAL else native_mode
  native_mode

/-- The conditional block of `shared_library_impl::load` that rewrites `sl`: the first
branch is compiled on Linux and Android, the second on the other POSIX hosts. -/
def fix_path {σ : Type} (L : platform_loader σ) (plat : Platform) (s : state σ)
    (sl : fs.path) (native_mode : Nat) : fs.path × state σ :=
  if plat.MIDLL_OS_LINUX || plat.MIDLL_OS_ANDROID then
    if !fs.path.has_parent_path sl && native_mode &&& load_mode.search_system_folders = 0 then
      (fs.path.append ".".toList sl, s)
    else (sl, s)
  else
    if !fs.path.is_absolute sl && native_mode &&& load_mode.search_system_folders = 0 then
      let cur := L.fs_current_path s.world
      let s := { s with world := cur.2 }
      if cur.1.2.isNone then (fs.path.append cur.1.1 sl, s) else (sl, s)
    else (sl, s)

/-- The part "Opening by exactly specified path" of `shared_library_impl::load`, to the
end of the function. -/
def load_exact {σ : Type} (L : platform_loader σ) (s : state σ) (sl : fs.path)
    (native_mode : Nat) (ec : fs.error_code) : outcome σ :=
  let s := do_dlopen L s (some sl) native_mode
  if s.handle_ ≠ 0 then
    ⟨reset_dlerror L s, ec, false⟩
  else
  let ec : fs.error_code := some .bad_file_descriptor
  let loc := L.program_location_impl s.world
  let s := { s with world := loc.2 }
  let prog_loc_err := loc.1.2
  if prog_loc_err.isSome then ⟨s, ec, false⟩
  else
  let eq := L.fs_equivalent s.world sl loc.1.1
  let s := { s with world := eq.2 }
  let prog_loc_err := eq.1.2
  if eq.1.1 && prog_loc_err.isNone then
    let ec : fs.error_code := none
    let s := reset_dlerror L s
    let s := do_dlopen L s none native_mode
    if s.handle_ = 0 then ⟨s, some .bad_file_descriptor, false⟩ else ⟨s, ec, false⟩
  else ⟨s, ec, false⟩

/-- The part "Trying to open with appended decorations" of
`shared_library_impl::load`, entered when `append_decorations` is set, followed by the
rest of the function when the block does not return. -/
def load_decorated {σ : Type} (L : platform_loader σ) (plat : Platform) (s : state σ)
    (sl : fs.path) (native_mode : Nat) (ec : fs.error_code) : outcome σ :=
  let native_mode := clear_flag native_mode load_mode.append_decorations
  let actual_path := decorate plat sl
  let s := do_dlopen L s (some actual_path) native_mode
  if s.handle_ ≠ 0 then
    ⟨reset_dlerror L s, ec, false⟩
  else
  let loc := L.program_location_impl s.world
  let s := { s with world := loc.2 }
  let ex := L.fs_exists s.world actual_path
  let s := { s with world := ex.2 }
  match ex.1 with
  | none => ⟨s, ec, true⟩
  | some false => load_exact L s sl native_mode ec
  | some true =>
    let eq := L.fs_equivalent s.world sl loc.1.1
    let s := { s with world := eq.2 }
    if !eq.1.1 then ⟨s, some .executable_format_error, false⟩
    else load_exact L s sl native_mode ec

/-- The function `shared_library_impl::load`. -/
def load {σ : Type} (L : platform_loader σ) (plat : Platform) (dl : dlfcn) (s : state σ)
    (sl : fs.path) (portable_mode : Nat) (ec : fs.error_code) : outcome σ :=
  let native_mode := portable_mode
  let s := unload L s
  if fs.path.empty sl then
    ⟨reset_dlerror L s, some .bad_file_descriptor, false⟩
  else
  let native_mode := fix_modes dl native_mode
  let fixed := fix_path L plat s sl native_mode
  let sl := fixed.1
  let s := fixed.2
  let native_mode := clear_flag native_mode load_mode.search_system_folders
  if native_mode &&& load_mode.append_decorations ≠ 0 then
    load_decorated L plat s sl native_mode ec
  else load_exact L s sl native_mode ec

end shared_library_impl

/-! ## `shared_library` -/

namespace shared_library

/-- The function `shared_library::load(lib_path, ec, mode)`. -/
def load {σ : Type} (L : platform_loader σ) (plat : Platform) (dl : dlfcn)
    (s : shared_library_impl.state σ) (lib_path : fs.path) (ec : fs.error_code)
    (mode : Nat) : shared_library_impl.outcome σ :=
  let ec := fs.error_code.clear ec
  shared_library_impl.load L plat dl s lib_path mode ec

/-- The function `shared_library::unload`. -/
def unload {σ : Type} (L : platform_loader σ) (s : shared_library_impl.state σ) :
    shared_library_impl.state σ :=
  shared_library_impl.unload L s

/-- The function `shared_library::is_loaded`. -/
def is_loaded {σ : Type} (s : shared_library_impl.state σ) : Bool :=
  shared_library_impl.is_loaded s

end shared_library

/-! ### Reading aids for the statements about the handle -/

/-- Whether a logged loader call is a call of `dlopen`. -/
def native_call.is_dlopen : native_call → Bool
  | .dlopen _ _ _ => true
  | .dlclose _ => false

/-- The log `after` continues the log `before` with calls of `dlopen` only. -/
def only_dlopen_added (before after : List native_call) : Prop :=
  ∃ rest, after = before ++ rest ∧ ∀ c ∈ rest, native_call.is_dlopen c = true

/-- What every phase of `load` guarantees about its outcome `o` when entered in state `s`
with a clear error code: on return the handle is non-null exactly when the error code is
clear, an exception leaves the handle null, and only calls of `dlopen` were made. -/
def load_post {σ : Type} (s : shared_library_impl.state σ)
    (o : shared_library_impl.outcome σ) : Prop :=
  (o.raised = false → (o.self.handle_ ≠ 0 ↔ o.ec = none)) ∧
  (o.raised = true → o.self.handle_ = 0) ∧
  only_dlopen_added s.calls o.self.calls

/-! ### Reading aids for the ownership of native references -/

/-- What a logged call means for the ownership of native references: a load that
returned `result` (`0` for a failed load), or an unload of `handle`. -/
inductive loader_event where
  | load (result : native_handle_t)
  | unload (handle : native_handle_t)
  deriving DecidableEq, Repr

/-- The meaning of a call of the POSIX loader. -/
def native_call.event : native_call → loader_event
  | .dlopen _ _ result => .load result
  | .dlclose handle => .unload handle

/-- The handle an object stores after the calls `l`, when it stored `h` before: the
sources assign the result of every load to `handle_` and clear it after every unload. -/
def handle_after : native_handle_t → List loader_event → native_handle_t
  | h, [] => h
  | _, .load result :: rest => handle_after result rest
  | _, .unload _ :: rest => handle_after 0 rest

/-- The discipline "at most one native reference": along the calls `l`, made by an object
that stored `h` before, every load is made while the stored handle is null, and every
unload is passed the stored handle, which is not null. -/
def owns_at_most_one : native_handle_t → List loader_event → Prop
  | _, [] => True
  | h, .load result :: rest => h = 0 ∧ owns_at_most_one result rest
  | h, .unload handle :: rest => h ≠ 0 ∧ handle = h ∧ owns_at_most_one 0 rest

/-- The number of loads in `l` that returned, and so stored, a non-null handle. -/
def stored_handles : List loader_event → Nat
  | [] => 0
  | .load result :: rest => (if result = 0 then 0 else 1) + stored_handles rest
  | .unload _ :: rest => stored_handles rest

/-- The calls `l` are load attempts of which every one but the last returned null, and `h`
is what the last one returned (null when there was no attempt). -/
def attempts (h : native_handle_t) : List loader_event → Prop
  | [] => h = 0
  | [.load result] => h = result
  | .load result :: e :: rest => result = 0 ∧ attempts h (e :: rest)
  | .unload _ :: _ => False

/-! ## Symbols of the POSIX `shared_library_impl` -/

namespace shared_library_impl

/-- The function `shared_library_impl::symbol_addr`: the address `dlsym` returned and the
error code, which is set when that address is null. -/
def symbol_addr {σ : Type} (L : platform_loader σ) (s : state σ) (sb : List Char)
    (ec : fs.error_code) : (Nat × fs.error_code) × state σ :=
  let symbol := L.dlsym s.world s.handle_ sb
  let s := { s with world := symbol.2 }
  if symbol.1 = 0 then ((symbol.1, some .invalid_seek), s) else ((symbol.1, ec), s)

/-- The function `shared_library_impl::full_module_path`, which both of its callers enter
with a cleared error code. -/
def full_module_path {σ : Type} (L : platform_loader σ) (s : state σ) :
    (fs.path × fs.error_code) × state σ :=
  ((L.path_from_handle s.world s.handle_).1,
   { s with world := (L.path_from_handle s.world s.handle_).2 })

/-- The function `shared_library_impl::swap`, on two objects: their handles are
exchanged. -/
def swap {σ : Type} (self rhs : state σ) : state σ × state σ :=
  ({ self with handle_ := rhs.handle_ }, { rhs with handle_ := self.handle_ })

end shared_library_impl

/-! ## Typed access to symbols -/

/-- The memory of the process, as far as the accessors read it: the pointer-sized value
stored at each address. -/
abbrev memory := Nat → Nat

/-- The memory after storing `v` at address `a`. -/
def memory.write (mem : memory) (a v : Nat) : memory :=
  fun x => if x = a then v else mem x

/-- The three cases that `get<T>` and `aggressive_ptr_cast` distinguish by type traits: `T`
is a reference type, a pointer-to-member type, or any other type (object, function,
pointer). -/
inductive type_kind where
  | ordinary
  | reference
  | member_pointer
  deriving DecidableEq, Repr

/-- What `get<T>` returns: a reference to what is at an address, or a pointer-to-member
value given by the bits of its object representation (the first `sizeof(void*)` bytes;
the bytes beyond are zero). -/
inductive symbol_value where
  | lvalue (address : Nat)
  | member_pointer (bits : Nat)
  deriving DecidableEq, Repr

/-- The value read through what `get<T>` returned. -/
def symbol_value.read (mem : memory) : symbol_value → Nat
  | .lvalue address => mem address
  | .member_pointer bits => bits

/-- The expression `*x` for `x` of pointer type: a reference to what the pointer stored
in `x` points to. -/
def symbol_value.deref (mem : memory) : symbol_value → symbol_value
  | .lvalue address => .lvalue (mem address)
  | .member_pointer bits => .member_pointer bits

/-- The overload of `aggressive_ptr_cast` for pointers: `reinterpret_cast<To>(v)`. -/
def aggressive_ptr_cast_pointer (v : Nat) : Nat := v

/-- The overload of `aggressive_ptr_cast` for `To` a reference type:
`**reinterpret_cast<remove_reference_t<To>**>(v)`, a reference to what the pointer stored
at `v` points to. -/
def aggressive_ptr_cast_reference (mem : memory) (v : Nat) : symbol_value :=
  .lvalue (mem v)

/-- The overload of `aggressive_ptr_cast` for `To` a pointer-to-member type:
`To res = 0; std::memcpy(&res, &v, sizeof(From)); return res;`. -/
def aggressive_ptr_cast_member_pointer (v : Nat) : symbol_value :=
  .member_pointer v

/-- A `std::system_error`, by the error code it carries. -/
structure system_error where
  code : fs.error_code
  deriving DecidableEq, Repr

namespace shared_library

/-- The function `shared_library::has`. -/
def has {σ : Type} (L : platform_loader σ) (s : shared_library_impl.state σ)
    (symbol_name : List Char) : Bool × shared_library_impl.state σ :=
  let ec : fs.error_code := none
  if !shared_library_impl.is_loaded s then (false, s)
  else
    let r := shared_library_impl.symbol_addr L s symbol_name ec
    (r.1.1 != 0 && r.1.2.isNone, r.2)

/-- The function `midll::detail::report_error` (on a host that is not Windows): it reads
`dlerror` and throws. -/
def report_error {σ : Type} (L : platform_loader σ) (s : shared_library_impl.state σ)
    (ec : fs.error_code) : system_error × shared_library_impl.state σ :=
  (⟨ec⟩, { s with world := L.dlerror s.world })

/-- The function `shared_library::get_void`: the address, or the exception thrown. -/
def get_void {σ : Type} (L : platform_loader σ) (s : shared_library_impl.state σ)
    (sb : List Char) : Except system_error Nat × shared_library_impl.state σ :=
  let ec : fs.error_code := none
  if !shared_library_impl.is_loaded s then
    (.error ⟨some .bad_file_descriptor⟩, s)
  else
    let r := shared_library_impl.symbol_addr L s sb ec
    if r.1.2.isSome || r.1.1 = 0 then
      (.error (report_error L r.2 r.1.2).1, (report_error L r.2 r.1.2).2)
    else (.ok r.1.1, r.2)

/-- The function `shared_library::get<T>`. -/
def get {σ : Type} (L : platform_loader σ) (mem : memory) (s : shared_library_impl.state σ)
    (T : type_kind) (symbol_name : List Char) :
    Except system_error symbol_value × shared_library_impl.state σ :=
  match get_void L s symbol_name with
  | (.error e, s) => (.error e, s)
  | (.ok v, s) =>
    match T with
    | .ordinary => (.ok (.lvalue (aggressive_ptr_cast_pointer v)), s)
    | .reference => (.ok (aggressive_ptr_cast_reference mem v), s)
    | .member_pointer => (.ok (aggressive_ptr_cast_member_pointer v), s)

/-- The function `shared_library::get_alias<T>`: `*get<T*>(alias_name)`. -/
def get_alias {σ : Type} (L : platform_loader σ) (mem : memory)
    (s : shared_library_impl.state σ) (alias_name : List Char) :
    Except system_error symbol_value × shared_library_impl.state σ :=
  match get L mem s .ordinary alias_name with
  | (.error e, s) => (.error e, s)
  | (.ok x, s) => (.ok (symbol_value.deref mem x), s)

/-- The function `shared_library::location(ec)`, called on a library that shares the
world of `s` and holds the native handle `lib`. -/
def location {σ : Type} (L : platform_loader σ) (lib : native_handle_t) (world : σ) :
    (fs.path × fs.error_code) × σ :=
  if lib = 0 then (([], some .bad_file_descriptor), world)
  else
    ((shared_library_impl.full_module_path L ⟨lib, world, []⟩).1,
     (shared_library_impl.full_module_path L ⟨lib, world, []⟩).2.world)

/-- The enumerator `load_mode::default_mode`. -/
def default_mode : Nat := 0

/-- The destructor of `shared_library`, which is that of `shared_library_impl`:
`unload()`. -/
def destroy {σ : Type} (L : platform_loader σ) (s : shared_library_impl.state σ) :
    shared_library_impl.state σ :=
  shared_library_impl.unload L s

/-- The function `shared_library::assign(lib, ec)`, where `lib` is a library that holds
the native handle `lib` in the world of `s`. The local `copy` is constructed by
`shared_library(loc, ec)` and destroyed when `assign` is left. -/
def assign {σ : Type} (L : platform_loader σ) (plat : Platform) (dl : dlfcn)
    (s : shared_library_impl.state σ) (lib : native_handle_t) (ec : fs.error_code) :
    shared_library_impl.outcome σ :=
  let ec := fs.error_code.clear ec
  if s.handle_ = lib then ⟨s, ec, false⟩
  else if lib = 0 then ⟨unload L s, ec, false⟩
  else
    let loc := location L lib s.world
    let s := { s with world := loc.2 }
    let ec := loc.1.2
    if ec.isSome then ⟨s, ec, false⟩
    else
      let copy := load L plat dl ⟨0, s.world, s.calls⟩ loc.1.1 ec default_mode
      if copy.raised then
        ⟨{ s with world := (destroy L copy.self).world, calls := (destroy L copy.self).calls },
         copy.ec, true⟩
      else if copy.ec.isSome then
        ⟨{ s with world := (destroy L copy.self).world, calls := (destroy L copy.self).calls },
         copy.ec, false⟩
      else
        let swapped := shared_library_impl.swap
          { s with world := copy.self.world, calls := copy.self.calls } copy.self
        ⟨{ swapped.1 with world := (destroy L swapped.2).world,
                          calls := (destroy L swapped.2).calls },
         copy.ec, false⟩

/-- The function `shared_library::operator=(shared_library&&)`, on the two objects
`self` and `lib`. -/
def move_assign {σ : Type} (self lib : shared_library_impl.state σ) :
    shared_library_impl.state σ × shared_library_impl.state σ :=
  if lib.handle_ ≠ self.handle_ then shared_library_impl.swap self lib else (self, lib)

end shared_library

/-! ## The Windows `shared_library_impl` -/

namespace windows

/-- A call of the Windows loader, as it was made and what it returned. -/
inductive native_call where
  | LoadLibraryExW (file : fs.path) (mode : Nat) (result : native_handle_t)
  | FreeLibrary (handle : native_handle_t)
  deriving DecidableEq, Repr

/-- The meaning of a call of the Windows loader. -/
def native_call.event : native_call → loader_event
  | .LoadLibraryExW _ _ result => .load result
  | .FreeLibrary handle => .unload handle

/-- The operations of `std::filesystem::path` on a Windows host that the loader uses,
taken as given. -/
structure path_ops where
  is_absolute : fs.path → Bool
  has_parent_path : fs.path → Bool
  parent_path : fs.path → fs.path
  filename : fs.path → fs.path
  has_extension : fs.path → Bool
  append : fs.path → fs.path → fs.path

/-- The Windows platform over states `σ` of the world outside the program: the loader,
`last_error_code` (`none` when `GetLastError` is zero), and the queries of
`std::filesystem` (`exists` without an `error_code` may raise, which is `none`). -/
structure platform_loader (σ : Type) where
  LoadLibraryExW : σ → fs.path → Nat → native_handle_t × σ
  FreeLibrary : σ → native_handle_t → σ
  last_error_code : σ → fs.error_code × σ
  fs_exists : σ → fs.path → Option Bool × σ
  fs_current_path : σ → (fs.path × fs.error_code) × σ

namespace shared_library_impl

/-- An object of the Windows class `shared_library_impl` together with the world it
acts on and the log of the loader calls made so far, oldest first. -/
structure state (σ : Type) where
  handle_ : native_handle_t
  world : σ
  calls : List native_call

/-- How `load` ends: the object, the error code, and whether it was left by an exception
of `std::filesystem`. -/
structure outcome (σ : Type) where
  self : state σ
  ec : fs.error_code
  raised : Bool

/-- How `load_impl` ends: its return value as well. -/
structure load_impl_outcome (σ : Type) where
  last : Bool
  self : state σ
  ec : fs.error_code
  raised : Bool

/-- The function `shared_library_impl::is_loaded` (Windows). -/
def is_loaded {σ : Type} (s : state σ) : Bool := s.handle_ != 0

/-- The function `shared_library_impl::unload` (Windows). -/
def unload {σ : Type} (L : platform_loader σ) (s : state σ) : state σ :=
  if s.handle_ ≠ 0 then
    { handle_ := 0
      world := L.FreeLibrary s.world s.handle_
      calls := s.calls ++ [.FreeLibrary s.handle_] }
  else s

/-- The function `shared_library_impl::suffix` (Windows). -/
def suffix : fs.path := ".dll".toList

/-- The function `shared_library_impl::decorate` (Windows). -/
def decorate (sl : fs.path) : fs.path :=
  let actual_path := sl
  actual_path ++ suffix

/-- The assignment `handle_ = LoadLibraryExW(file, 0, mode)`. -/
def do_load {σ : Type} (L : platform_loader σ) (s : state σ) (file : fs.path) (mode : Nat) :
    state σ :=
  { handle_ := (L.LoadLibraryExW s.world file mode).1
    world := (L.LoadLibraryExW s.world file mode).2
    calls := s.calls ++ [.LoadLibraryExW file mode (L.LoadLibraryExW s.world file mode).1] }

/-- The function `shared_library_impl::load_impl`. -/
def load_impl {σ : Type} (L : platform_loader σ) (s : state σ) (load_path : fs.path)
    (mode : Nat) (ec : fs.error_code) : load_impl_outcome σ :=
  let s := do_load L s load_path mode
  if s.handle_ ≠ 0 then ⟨true, s, ec, false⟩
  else
    let err := L.last_error_code s.world
    let s := { s with world := err.2 }
    let ec := err.1
    let ex := L.fs_exists s.world load_path
    let s := { s with world := ex.2 }
    match ex.1 with
    | none => ⟨false, s, ec, true⟩
    | some true => ⟨true, s, ec, false⟩
    | some false => ⟨false, s, fs.error_code.clear ec, false⟩

/-- The end of `shared_library_impl::load` (Windows), from the test of
`sl.has_extension()`. -/
def load_direct {σ : Type} (L : platform_loader σ) (P : path_ops) (s : state σ)
    (sl : fs.path) (native_mode : Nat) (ec : fs.error_code) : outcome σ :=
  let s :=
    if P.has_extension sl then do_load L s sl native_mode
    else do_load L s (sl ++ ".".toList) native_mode
  if s.handle_ = 0 then
    ⟨{ s with world := (L.last_error_code s.world).2 }, (L.last_error_code s.world).1, false⟩
  else ⟨s, ec, false⟩

/-- The part "Trying to open with appended decorations" of
`shared_library_impl::load` (Windows), followed by the rest of the function when neither
attempt is the last one. -/
def load_decorated {σ : Type} (L : platform_loader σ) (P : path_ops) (s : state σ)
    (sl : fs.path) (native_mode : Nat) (ec : fs.error_code) : outcome σ :=
  let native_mode := midll.shared_library_impl.clear_flag native_mode
    load_mode.append_decorations
  let first := load_impl L s (decorate sl) native_mode ec
  if first.raised then ⟨first.self, first.ec, true⟩
  else if first.last then ⟨first.self, first.ec, false⟩
  else
    let mingw_load_path :=
      (if P.has_parent_path sl then P.append (P.parent_path sl) "lib".toList
       else "lib".toList) ++ P.filename sl ++ suffix
    let second := load_impl L first.self mingw_load_path native_mode first.ec
    if second.raised then ⟨second.self, second.ec, true⟩
    else if second.last then ⟨second.self, second.ec, false⟩
    else load_direct L P second.self sl native_mode second.ec

/-- The function `shared_library_impl::load` (Windows). -/
def load {σ : Type} (L : platform_loader σ) (P : path_ops) (s : state σ) (sl : fs.path)
    (portable_mode : Nat) (ec : fs.error_code) : outcome σ :=
  let native_mode := portable_mode % 2 ^ 32
  let s := unload L s
  let fixed : fs.path × state σ :=
    if !P.is_absolute sl && native_mode &&& load_mode.search_system_folders = 0 then
      let cur := L.fs_current_path s.world
      let s := { s with world := cur.2 }
      if cur.1.2.isNone then (P.append cur.1.1 sl, s) else (sl, s)
    else (sl, s)
  let sl := fixed.1
  let s := fixed.2
  let native_mode := midll.shared_library_impl.clear_flag native_mode
    load_mode.search_system_folders
  if native_mode &&& load_mode.append_decorations ≠ 0 then
    load_decorated L P s sl native_mode ec
  else load_direct L P s sl native_mode ec

end shared_library_impl

/-- The function `shared_library::load(lib_path, ec, mode)` on a Windows host. -/
def shared_library_load {σ : Type} (L : platform_loader σ) (P : path_ops)
    (s : shared_library_impl.state σ) (lib_path : fs.path) (ec : fs.error_code)
    (mode : Nat) : shared_library_impl.outcome σ :=
  let ec := fs.error_code.clear ec
  shared_library_impl.load L P s lib_path mode ec

end windows

/-! ## The functions of `import.hpp` -/

namespace imports

/-- What the functions of `import.hpp` can throw: a `std::system_error` of the library,
or an exception that `std::filesystem` raised during the load. -/
inductive thrown where
  | system_error (e : midll.system_error)
  | filesystem_error
  deriving DecidableEq, Repr

/-- The `shared_library` object that `std::make_shared` created, with the number of
`std::shared_ptr` objects that own it. The standard library destroys the object when
that number falls to zero. -/
structure owner (σ : Type) where
  lib : shared_library_impl.state σ
  use_count : Nat

/-- How a function of `import.hpp` ends: the pointer that the returned
`std::shared_ptr<T>` (itself, or as the member `f_` of a `library_function<T>`) stores,
or the exception thrown; and the owner block after the return. -/
structure outcome (σ : Type) where
  value : Except thrown Nat
  owner : owner σ

/-- The address a reference refers to, `std::addressof(x)`. -/
def address_of : symbol_value → Nat
  | .lvalue address => address
  | .member_pointer bits => bits

/-- The function `import_symbol<T>(lib, name, mode)` for a path `lib`: the local `p`
owns the new `shared_library`; the returned value shares the ownership, and `p` is
destroyed on return. When the constructor or `get` throws, the object is destroyed. -/
def import_symbol {σ : Type} (L : platform_loader σ) (plat : Platform) (dl : dlfcn)
    (mem : memory) (world : σ) (calls : List native_call) (lib : fs.path)
    (name : List Char) (mode : Nat) : outcome σ :=
  let made := shared_library_impl.load L plat dl ⟨0, world, calls⟩ lib mode none
  if made.raised then
    ⟨.error .filesystem_error, ⟨shared_library.destroy L made.self, 0⟩⟩
  else if made.ec.isSome then
    ⟨.error (.system_error (shared_library.report_error L made.self made.ec).1),
     ⟨shared_library.destroy L (shared_library.report_error L made.self made.ec).2, 0⟩⟩
  else
    match shared_library.get L mem made.self .ordinary name with
    | (.error e, s) => ⟨.error (.system_error e), ⟨shared_library.destroy L s, 0⟩⟩
    | (.ok x, s) => ⟨.ok (address_of x), ⟨s, 1⟩⟩

/-- The function `import_alias<T>(lib, name, mode)` for a path `lib`: as `import_symbol`,
with the stored pointer read from `get<T*>(name)`. -/
def import_alias {σ : Type} (L : platform_loader σ) (plat : Platform) (dl : dlfcn)
    (mem : memory) (world : σ) (calls : List native_call) (lib : fs.path)
    (name : List Char) (mode : Nat) : outcome σ :=
  let made := shared_library_impl.load L plat dl ⟨0, world, calls⟩ lib mode none
  if made.raised then
    ⟨.error .filesystem_error, ⟨shared_library.destroy L made.self, 0⟩⟩
  else if made.ec.isSome then
    ⟨.error (.system_error (shared_library.report_error L made.self made.ec).1),
     ⟨shared_library.destroy L (shared_library.report_error L made.self made.ec).2, 0⟩⟩
  else
    match shared_library.get L mem made.self .ordinary name with
    | (.error e, s) => ⟨.error (.system_error e), ⟨shared_library.destroy L s, 0⟩⟩
    | (.ok x, s) => ⟨.ok (symbol_value.read mem x), ⟨s, 1⟩⟩

/-- What the program does with the copies of an imported value. -/
inductive token_op where
  | copy
  | destroy
  deriving DecidableEq, Repr

/-- One operation on a copy of the imported value, by the rules of `std::shared_ptr`:
a copy shares the ownership, and destroying the last owner destroys the
`shared_library`, which unloads. Without a living copy nothing can be done. -/
def owner.step {σ : Type} (L : platform_loader σ) (o : owner σ) : token_op → owner σ
  | .copy => if o.use_count = 0 then o else { o with use_count := o.use_count + 1 }
  | .destroy =>
    if o.use_count = 0 then o
    else if o.use_count = 1 then ⟨shared_library.destroy L o.lib, 0⟩
    else { o with use_count := o.use_count - 1 }

/-- A sequence of operations on the copies of an imported value. -/
def owner.run {σ : Type} (L : platform_loader σ) (o : owner σ) (ops : List token_op) :
    owner σ :=
  ops.foldl (owner.step L) o

end imports

/-! ## Reading aids for load attempts, `decorate` and imported values -/

/-- The calls that a phase of the POSIX `load` added to the log are load attempts of which
only the last can have succeeded, and the object stores what the last one returned. -/
def load_attempts {σ : Type} (s : shared_library_impl.state σ)
    (o : shared_library_impl.outcome σ) : Prop :=
  ∃ new, o.self.calls = s.calls ++ new ∧ attempts o.self.handle_ (new.map native_call.event)

/-- The same for a phase of the Windows `load`, which always makes an attempt. -/
def windows.load_attempts {σ : Type} (s : windows.shared_library_impl.state σ)
    (calls : List windows.native_call) (handle : native_handle_t) : Prop :=
  ∃ new, calls = s.calls ++ new ∧ new ≠ [] ∧
    attempts handle (new.map windows.native_call.event)

/-- The function `shared_library::decorate` on a POSIX host. -/
def shared_library.decorate (plat : Platform) (sl : fs.path) : fs.path :=
  shared_library_impl.decorate plat sl

/-- The function `shared_library::decorate` on a Windows host. -/
def windows.shared_library_decorate (sl : fs.path) : fs.path :=
  windows.shared_library_impl.decorate sl

/-- The documented value of `decorate` on a POSIX host, before the suffix: the path
itself when its file name begins with "lib", else the file name with "lib" put before it,
in the same directory. -/
def decorated_stem (p : fs.path) : fs.path :=
  if (fs.path.filename p).take 3 = "lib".toList then p
  else fs.path.append (fs.path.parent_path p) ("lib".toList ++ fs.path.filename p)

/-- What the owner block of a successfully imported value satisfies: one owner, of a
loaded library. -/
def imports.fresh_owner {σ : Type} (o : imports.owner σ) : Prop :=
  o.use_count = 1 ∧ shared_library_impl.is_loaded o.lib = true

/-- While an owner is left the library is the one imported; after the last owner is
gone it is that library, destroyed once. -/
def imports.kept {σ : Type} (L : platform_loader σ) (l0 : shared_library_impl.state σ)
    (o : imports.owner σ) : Prop :=
  (0 < o.use_count ∧ o.lib = l0) ∨ (o.use_count = 0 ∧ o.lib = shared_library.destroy L l0)

/-! ## Reading aids for the translation of addresses and for sequences of queries -/

/-- The section table as stored in a file: the `n` headers of 40 bytes each that start at
offset `table`. -/
def section_table (bytes : List UInt8) (table : Nat) : Nat → List section_t
  | 0 => []
  | n + 1 =>
    section_t.of_raw ((bytes.drop table).take sizeof_section_t)
      :: section_table bytes (table + sizeof_section_t) n

/-- Whether the section `s` contains the relative virtual address `rva`, in the integers:
`VirtualAddress <= rva < VirtualAddress + SizeOfRawData`. -/
def section_t.contains (s : section_t) (rva : Nat) : Bool :=
  decide (s.VirtualAddress ≤ rva ∧ rva < s.VirtualAddress + s.SizeOfRawData)

/-- The documented translation of a relative virtual address to a file offset: in the
first section of the table that contains it, `PointerToRawData + (rva - VirtualAddress)`;
the placeholder `0` when no section contains it. -/
def documented_file_offset (table : List section_t) (rva : Nat) : Nat :=
  match table.find? (fun s => s.contains rva) with
  | some s => s.PointerToRawData + (rva - s.VirtualAddress)
  | none => 0

/-- The offset at which the PE format places the section table of a file: the first byte
after the optional header, whose size the file header states in `SizeOfOptionalHeader`.
The file header (20 bytes) follows the four signature bytes at the offset that the file
stores as `e_lfanew` in the four bytes at offset 60; `SizeOfOptionalHeader` is the two
bytes at offset 16 of the file header. -/
def documented_section_table_offset (bytes : List UInt8) : Nat :=
  field bytes 60 4 + 4 + 20 + field bytes (field bytes 60 4 + 4 + 16) 2

/-- The section table of a file as the PE format defines it: `NumberOfSections` headers
(the two bytes at offset 2 of the file header) from the documented offset. -/
def documented_section_table (bytes : List UInt8) : List section_t :=
  section_table bytes (documented_section_table_offset bytes)
    (field bytes (field bytes 60 4 + 4 + 2) 2)

/-- The documented result of `sections(fs)`: of every header of the section table of the
file, in table order, the bytes of `Name` before the first NUL. -/
def documented_sections (bytes : List UInt8) : List (List UInt8) :=
  (documented_section_table bytes).map fun s => c_str s.Name

/-- The documented result of `symbols(fs, section_name)`: of the named exports
`i < NumberOfNames`, in the order of the name table, those whose function address
`AddressOfFunctions[AddressOfNameOrdinals[i]]` translates to a file offset inside the raw
data of the section with that name; each by the string its name address translates to. -/
def documented_symbols_in (bytes : List UInt8) (table : List section_t) (e : exports_t)
    (section_name : List UInt8) : List (List UInt8) :=
  match table.find? (fun s => c_str s.Name == c_str section_name) with
  | none => []
  | some sec =>
    (List.range e.NumberOfNames).filterMap fun i =>
      let ordinal := field bytes (documented_file_offset table e.AddressOfNameOrdinals + 2 * i) 2
      let function := field bytes (documented_file_offset table e.AddressOfFunctions + 4 * ordinal) 4
      let f := documented_file_offset table function
      if sec.PointerToRawData ≤ f ∧ f < sec.PointerToRawData + sec.SizeOfRawData then
        some (c_str (bytes.drop (documented_file_offset table
          (field bytes (documented_file_offset table e.AddressOfNames + 4 * i) 4))))
      else none

/-- The three reading operations of `pe_info`. -/
inductive pe_query where
  | sections
  | symbols
  | symbols_in (section_name : List UInt8)
  deriving DecidableEq, Repr

/-- A call of one of the three operations on a stream. -/
def pe_query.run (host : Host) (W : AddressOffsetT) :
    pe_query → ifstream → Except Fault (List (List UInt8) × ifstream)
  | .sections, fs => pe_info.sections host W fs
  | .symbols, fs => pe_info.symbols host W fs
  | .symbols_in section_name, fs => pe_info.symbols_in host W fs section_name

/-- The word `m` with the bits of `flag` cleared. -/
def load_mode.without (m flag : Nat) : Nat := m ^^^ (m &&& flag)

/-- Whether (a bit of) `flag` is set in the mode `m`. -/
def load_mode.has (m flag : Nat) : Bool := m &&& flag != 0

/-- A flag value that is zero or has a single bit. -/
def load_mode.single_bit (flag : Nat) : Prop := flag = 0 ∨ ∃ k, flag = 2 ^ k

/-- The bits of `rtld_lazy` the documentation adds to a portable mode: `rtld_lazy` when
neither `rtld_now` nor `rtld_lazy` is set. -/
def load_mode.added_lazy (dl : dlfcn) (mode : Nat) : Nat :=
  if !load_mode.has mode dl.RTLD_NOW && !load_mode.has mode dl.RTLD_LAZY then dl.RTLD_LAZY
  else 0

/-- The bits of `rtld_local` the documentation adds to a portable mode: `rtld_local` when
neither `rtld_global` nor `rtld_local` is set. -/
def load_mode.added_local (dl : dlfcn) (mode : Nat) : Nat :=
  if !load_mode.has mode dl.RTLD_GLOBAL && !load_mode.has mode dl.RTLD_LOCAL then
    dl.RTLD_LOCAL
  else 0

/-- The documented flag word for a portable mode: the mode with `rtld_lazy` and
`rtld_local` added as said above, and with the bits `append_decorations` and
`search_system_folders` removed. -/
def documented_native_mode (dl : dlfcn) (mode : Nat) : Nat :=
  load_mode.without
    (load_mode.without
      (mode ||| load_mode.added_lazy dl mode ||| load_mode.added_local dl mode)
      load_mode.append_decorations)
    load_mode.search_system_folders

/-- Every call in `new` is a call of `dlopen` with the flag word `mode` and one of the
file names `files`. -/
def dlopen_calls (files : List (Option fs.path)) (mode : Nat) (new : List native_call) :
    Prop :=
  ∀ c ∈ new, ∃ file result, c = .dlopen file mode result ∧ file ∈ files

/-- What the block "Trying to open with appended decorations" of the POSIX `load` meets:
the decorated path, the flag word, what `dlopen` returned for the decorated path, whether
that path exists (`none`: `exists` raised) and whether `sl` is equivalent to the location
of the program. -/
structure decorated_candidate where
  file : fs.path
  mode : Nat
  handle : native_handle_t
  on_disk : Option Bool
  is_program : Bool
  deriving DecidableEq, Repr

/-- The candidate of the POSIX block, entered in state `s` with the path `sl`. -/
def shared_library_impl.candidate {σ : Type} (L : platform_loader σ) (plat : Platform)
    (s : shared_library_impl.state σ) (sl : fs.path) (native_mode : Nat) :
    decorated_candidate :=
  let native_mode := shared_library_impl.clear_flag native_mode load_mode.append_decorations
  let actual_path := shared_library_impl.decorate plat sl
  let opened := L.dlopen s.world (some actual_path) native_mode
  let loc := L.program_location_impl opened.2
  let ex := L.fs_exists loc.2 actual_path
  let eq := L.fs_equivalent ex.2 sl loc.1.1
  ⟨actual_path, native_mode, opened.1, ex.1, eq.1.1⟩

/-- What a call of the Windows `load_impl` meets: the path, what `LoadLibraryExW`
returned, the error code read after a failure, and whether the path exists (`none`:
`exists` raised). -/
structure windows.load_impl_candidate where
  file : fs.path
  handle : native_handle_t
  error : fs.error_code
  on_disk : Option Bool
  deriving DecidableEq, Repr

/-- The two candidates of the Windows block "Trying to open with appended decorations",
entered in state `s` with the path `sl`: the decorated path, and the path with the
"lib" that MinGW puts before the file name, tried in the world the first attempt left. -/
def windows.shared_library_impl.candidates {σ : Type} (L : windows.platform_loader σ)
    (P : windows.path_ops) (s : windows.shared_library_impl.state σ) (sl : fs.path)
    (native_mode : Nat) : windows.load_impl_candidate × windows.load_impl_candidate :=
  let native_mode := shared_library_impl.clear_flag native_mode load_mode.append_decorations
  let file1 := windows.shared_library_impl.decorate sl
  let opened1 := L.LoadLibraryExW s.world file1 native_mode
  let err1 := L.last_error_code opened1.2
  let ex1 := L.fs_exists err1.2 file1
  let file2 :=
    (if P.has_parent_path sl then P.append (P.parent_path sl) "lib".toList
     else "lib".toList) ++ P.filename sl ++ windows.shared_library_impl.suffix
  let opened2 := L.LoadLibraryExW ex1.2 file2 native_mode
  let err2 := L.last_error_code opened2.2
  let ex2 := L.fs_exists err2.2 file2
  (⟨file1, opened1.1, err1.1, ex1.1⟩, ⟨file2, opened2.1, err2.1, ex2.1⟩)

/-- The path and the state with which the Windows `load` reaches its attempts: the
conditional block of `load` that puts the current directory before a relative path. -/
def windows.shared_library_impl.fix_path {σ : Type} (L : windows.platform_loader σ)
    (P : windows.path_ops) (s : windows.shared_library_impl.state σ) (sl : fs.path)
    (native_mode : Nat) : fs.path × windows.shared_library_impl.state σ :=
  if !P.is_absolute sl && native_mode &&& load_mode.search_system_folders = 0 then
    let cur := L.fs_current_path s.world
    let s := { s with world := cur.2 }
    if cur.1.2.isNone then (P.append cur.1.1 sl, s) else (sl, s)
  else (sl, s)

/-! ## Sample inputs -/

namespace samples


/-- The little-endian image of `v` in `w` bytes. -/
def le_bytes : Nat → Nat → List UInt8
  | 0, _ => []
  | w + 1, v => UInt8.ofNat (v % 256) :: le_bytes w (v / 256)

/-- A run of `n` zero bytes. -/
def zeros (n : Nat) : List UInt8 := List.replicate n 0

/-- A 64-byte DOS header with the given two magic bytes and `e_lfanew`. -/
def dos_image (m0 m1 : UInt8) (e_lfanew : Nat) : List UInt8 :=
  [m0, m1] ++ zeros 58 ++ le_bytes 4 e_lfanew

/-- The 248 bytes of PE32 NT headers: signature, file header with `nsections` sections,
optional header with magic `0x10B` and the export directory entry at `export_va`. -/
def nt_image32 (nsections export_va : Nat) : List UInt8 :=
  [0x50, 0x45, 0, 0] ++ le_bytes 2 0x14C ++ le_bytes 2 nsections ++ zeros 12
    ++ le_bytes 2 224 ++ le_bytes 2 0x2102
    ++ le_bytes 2 0x10B ++ zeros 94 ++ le_bytes 4 export_va ++ le_bytes 4 0x40 ++ zeros 120

/-- A 40-byte section header. -/
def section_image (name : List UInt8) (va size ptr : Nat) : List UInt8 :=
  name ++ zeros (8 - name.length) ++ le_bytes 4 size ++ le_bytes 4 va ++ le_bytes 4 size
    ++ le_bytes 4 ptr ++ zeros 16

/-- A 40-byte export directory. -/
def export_image (nfun nnames afun anames aord : Nat) : List UInt8 :=
  zeros 20 ++ le_bytes 4 nfun ++ le_bytes 4 nnames ++ le_bytes 4 afun ++ le_bytes 4 anames
    ++ le_bytes 4 aord

/-- A 64-bit Windows build with `NDEBUG`: `long` has 4 bytes, `std::size_t` 64 bits. -/
def win64 : Host := { sizeof_long := 4, size_t_bits := 64, ndebug := true }
/-- The same host built without `NDEBUG`. -/
def win64_debug : Host := { sizeof_long := 4, size_t_bits := 64, ndebug := false }
/-- A 64-bit Linux or macOS build with `NDEBUG`: `long` has 8 bytes. -/
def lp64 : Host := { sizeof_long := 8, size_t_bits := 64, ndebug := true }

/-- The section name ".text". -/
def dot_text : List UInt8 := [0x2E, 0x74, 0x65, 0x78, 0x74]
/-- The section name ".edata". -/
def dot_edata : List UInt8 := [0x2E, 0x65, 0x64, 0x61, 0x74, 0x61]

/-- The first 408 bytes of the sample files: DOS header (offset 0), NT headers (64), two
section headers (312): ".text" with RVA 0x1000, 16 raw bytes at offset 392, and ".edata"
with RVA 0x2000, 64 raw bytes at offset 408; then the 16 bytes of ".text". -/
def headers (m0 m1 : UInt8) (export_va : Nat) : List UInt8 :=
  dos_image m0 m1 64 ++ nt_image32 2 export_va
  ++ section_image dot_text 0x1000 16 392
  ++ section_image dot_edata 0x2000 64 408
  ++ ([0xC3, 0x90, 0x90, 0x90, 0xC3] ++ zeros 11)

/-- A DLL that exports two functions, the first under the name "f" and the second by
ordinal only. In ".edata": export directory (offset 408, `NumberOfFunctions` 2,
`NumberOfNames` 1), function table (448, RVA 0x2028) with RVAs 0x1000 and 0x1004, name
table (456, RVA 0x2030), ordinal table (460, RVA 0x2034), the string "f" (464, RVA
0x2038). -/
def two_functions_one_name : List UInt8 :=
  headers 0x4D 0x5A 0x2000
  ++ export_image 2 1 0x2028 0x2030 0x2034
  ++ le_bytes 4 0x1000 ++ le_bytes 4 0x1004
  ++ le_bytes 4 0x2038
  ++ le_bytes 2 0 ++ zeros 2
  ++ [0x66, 0] ++ zeros 6

/-- A DLL that exports a function "f" in ".text" (RVA 0x1000) and a variable "g" in
".edata" (RVA 0x2010). In ".edata": export directory (offset 408), function table (448,
RVA 0x2028), name table (456, RVA 0x2030), ordinal table (464, RVA 0x2038), the strings
"f" (468, RVA 0x203C) and "g" (470, RVA 0x203E). -/
def two_names : List UInt8 :=
  headers 0x4D 0x5A 0x2000
  ++ export_image 2 2 0x2028 0x2030 0x2038
  ++ le_bytes 4 0x1000 ++ le_bytes 4 0x2010
  ++ le_bytes 4 0x203C ++ le_bytes 4 0x203E
  ++ le_bytes 2 0 ++ le_bytes 2 1
  ++ [0x66, 0] ++ [0x67, 0]

/-- A DLL that exports one function by ordinal only: `NumberOfFunctions` is 1,
`NumberOfNames` is 0 and there is no name table and no ordinal table. -/
def ordinal_only : List UInt8 :=
  headers 0x4D 0x5A 0x2000
  ++ export_image 1 0 0x2028 0 0
  ++ le_bytes 4 0x1000 ++ zeros 20

/-- A DLL without export directory: the export data-directory entry is zero. -/
def no_exports : List UInt8 :=
  headers 0x4D 0x5A 0 ++ zeros 64

/-- The file `no_exports` with the first two bytes exchanged: it starts with the bytes
"ZM". -/
def zm_file : List UInt8 :=
  headers 0x5A 0x4D 0 ++ zeros 64


/-- A DLL that exports one function of ".text" under the two names "f" and "g":
`NumberOfFunctions` is 1 and `NumberOfNames` is 2. In ".edata": export directory (offset
408), function table (448, RVA 0x2028), name table (456, RVA 0x2030), ordinal table (464,
RVA 0x2038) with the ordinals 0 and 0, the strings "f" (468) and "g" (470). -/
def one_function_two_names : List UInt8 :=
  headers 0x4D 0x5A 0x2000
  ++ export_image 1 2 0x2028 0x2030 0x2038
  ++ le_bytes 4 0x1000 ++ zeros 4
  ++ le_bytes 4 0x203C ++ le_bytes 4 0x203E
  ++ le_bytes 2 0 ++ le_bytes 2 0
  ++ [0x66, 0] ++ [0x67, 0]

/-- A file whose export data-directory entry holds the address 0x9000, which lies in
none of its two sections. -/
def unmapped_exports : List UInt8 :=
  headers 0x4D 0x5A 0x9000 ++ zeros 64

/-- A PE32 file with one section header (offset 312) whose `VirtualAddress` is 0xFFFFF000
and whose `SizeOfRawData` is 0x2000: the range of the section ends beyond `2^32`. -/
def wrapping_section : List UInt8 :=
  dos_image 0x4D 0x5A 64 ++ nt_image32 1 0
  ++ section_image dot_text 0xFFFFF000 0x2000 352 ++ zeros 16

/-- The 232 bytes of PE32 NT headers whose optional header has 14 data directories
instead of 16: `SizeOfOptionalHeader` is 208 and `NumberOfRvaAndSizes` is 14. -/
def nt_image32_short (nsections : Nat) : List UInt8 :=
  [0x50, 0x45, 0, 0] ++ le_bytes 2 0x14C ++ le_bytes 2 nsections ++ zeros 12
    ++ le_bytes 2 208 ++ le_bytes 2 0x2102
    ++ le_bytes 2 0x10B ++ zeros 90 ++ le_bytes 4 14 ++ zeros 112

/-- A PE32 file with 14 data directories: DOS header (offset 0), NT headers (64, 232
bytes), the section table with the one header ".text" (296, where the optional header
ends), the 16 bytes of ".text" (336). -/
def short_optional_header : List UInt8 :=
  dos_image 0x4D 0x5A 64 ++ nt_image32_short 1
  ++ section_image dot_text 0x1000 16 336 ++ ([0xC3] ++ zeros 15)

/-- The section name ".data". -/
def dot_data : List UInt8 := [0x2E, 0x64, 0x61, 0x74, 0x61]

/-- The PE32 NT headers with `ndirs` data directories: `SizeOfOptionalHeader` is
`96 + 8 * ndirs` and `NumberOfRvaAndSizes` is `ndirs`. -/
def nt_image32_directories (nsections ndirs : Nat) : List UInt8 :=
  [0x50, 0x45, 0, 0] ++ le_bytes 2 0x14C ++ le_bytes 2 nsections ++ zeros 12
    ++ le_bytes 2 (96 + 8 * ndirs) ++ le_bytes 2 0x2102
    ++ le_bytes 2 0x10B ++ zeros 90 ++ le_bytes 4 ndirs ++ zeros (8 * ndirs)

/-- A PE32 file with 13 data directories: DOS header (offset 0), NT headers (64, 224
bytes), the section table (288, where the optional header ends) with the headers ".text"
(RVA 0x1000, 16 raw bytes at 368) and ".data" (RVA 0x2000, 16 raw bytes at 384), then the
raw data. -/
def thirteen_directories : List UInt8 :=
  dos_image 0x4D 0x5A 64 ++ nt_image32_directories 2 13
  ++ section_image dot_text 0x1000 16 368 ++ section_image dot_data 0x2000 16 384
  ++ ([0xC3] ++ zeros 15) ++ zeros 16

/-- The NT headers of `two_names`. -/
def two_names_header : header_t :=
  header_t.of_raw .dword ((two_names.drop 64).take 248)

/-- The export directory of `two_names`. -/
def two_names_exports : exports_t :=
  exports_t.of_raw ((two_names.drop 408).take 40)

/-- Modelled from the spec: the ELF probe of `elf_info.hpp`, which is not among the
sources: "probe ELF magic (`0x7F 'E' 'L' 'F'`) then bit width via header class byte" (class
byte 1 for 32 bits, 2 for 64 bits). -/
def elf_parsing_supported (W : AddressOffsetT) : library_info.probe_t := fun fs => do
  let fs ← fs.seekg 0
  let (raw, fs) ← fs.read 5
  return (raw == [0x7F, 0x45, 0x4C, 0x46, if W = .dword then 1 else 2], fs)

/-- Modelled from the spec: the Mach-O probe of `macho_info.hpp`, which is not among the
sources: "probe Mach-O magic constants for 32/64-bit, either endianness". -/
def macho_parsing_supported (W : AddressOffsetT) : library_info.probe_t := fun fs => do
  let fs ← fs.seekg 0
  let (raw, fs) ← fs.read 4
  let magic := le_value raw
  return (if W = .dword then magic == 0xFEEDFACE || magic == 0xCEFAEDFE
          else magic == 0xFEEDFACF || magic == 0xCFFAEDFE, fs)

/-- The four probes that are not among the sources, as the specification describes
them. -/
def spec_probes : library_info.foreign_probes :=
  { elf_info32 := elf_parsing_supported .dword
    elf_info64 := elf_parsing_supported .ulonglong
    macho_info32 := macho_parsing_supported .dword
    macho_info64 := macho_parsing_supported .ulonglong }

/-- The first 64 bytes of a 64-bit ELF file: magic, class byte 2, zeros. -/
def elf64_file : List UInt8 :=
  [0x7F, 0x45, 0x4C, 0x46, 2] ++ zeros 59

/-- A 64-bit macOS build: `config.hpp` defines `MIDLL_OS_MACOS` only, and nothing defines
the `BOOST_OS_*` macros. -/
def macos64 : Platform :=
  { MIDLL_OS_WINDOWS := false, MIDLL_OS_LINUX := false, MIDLL_OS_MACOS := true,
    MIDLL_OS_IOS := false, MIDLL_OS_ANDROID := false, BOOST_OS_MACOS := false,
    BOOST_OS_IOS := false, sizeof_void_ptr := 8 }

/-- A 64-bit Linux build: `config.hpp` defines `MIDLL_OS_LINUX` only. -/
def linux_x86_64 : Platform :=
  { MIDLL_OS_WINDOWS := false, MIDLL_OS_LINUX := true, MIDLL_OS_MACOS := false,
    MIDLL_OS_IOS := false, MIDLL_OS_ANDROID := false, BOOST_OS_MACOS := false,
    BOOST_OS_IOS := false, sizeof_void_ptr := 8 }

/-- The flag values of `<dlfcn.h>` in glibc. -/
def glibc : dlfcn :=
  { RTLD_LAZY := 1, RTLD_NOW := 2, RTLD_GLOBAL := 0x100, RTLD_LOCAL := 0 }

/-- A world without state in which the only loadable file is "./libdemo.so", with handle
42, the program is "/bin/app", the working directory is "/work", and only
"./libdemo.so" exists. The library has the symbols "answer" at address 1000 and
"answer_alias" at address 2000. -/
def demo_loader : platform_loader Unit :=
  { dlopen := fun _ file _ => (if file = some "./libdemo.so".toList then 42 else 0, ())
    dlclose := fun _ _ => ()
    dlerror := fun _ => ()
    program_location_impl := fun _ => (("/bin/app".toList, none), ())
    fs_exists := fun _ p => (some (p == "./libdemo.so".toList), ())
    fs_equivalent := fun _ p q => ((p == q, none), ())
    fs_current_path := fun _ => (("/work".toList, none), ())
    dlsym := fun _ h name =>
      (if h == 42 && name == "answer".toList then 1000
       else if h == 42 && name == "answer_alias".toList then 2000 else 0, ())
    path_from_handle := fun _ h =>
      (if h == 42 then ("./libdemo.so".toList, none)
       else ([], some fs.errc.bad_file_descriptor), ()) }

/-- The separator of Windows paths. -/
def backslash : Char := Char.ofNat 92

/-- A simple stand-in for `std::filesystem::path` on Windows, good for paths of the form
"C:\\dir\\name.ext": the separator is the backslash and a path is absolute when it starts
with a drive letter, a colon and a backslash. -/
def windows_paths : windows.path_ops :=
  { is_absolute := fun p => (p.drop 1).take 2 == [':', backslash]
    has_parent_path := fun p => p.contains backslash
    parent_path := fun p => (p.reverse.dropWhile (· ≠ backslash)).reverse.dropLast
    filename := fun p => (p.reverse.takeWhile (· ≠ backslash)).reverse
    has_extension := fun p => (p.reverse.takeWhile (· ≠ backslash)).contains '.'
    append := fun p q =>
      if (q.drop 1).take 2 == [':', backslash] then q
      else if p.isEmpty || p.getLast? == some backslash then p ++ q
      else p ++ backslash :: q }

/-- A Windows world without state in which the only loadable file is
"C:\\work\\demo.dll", with handle 42; every failed call leaves the error code 126
(`ERROR_MOD_NOT_FOUND`); the working directory is "C:\\work". -/
def windows_demo_loader : windows.platform_loader Unit :=
  { LoadLibraryExW := fun _ file _ => (if file == "C:\\work\\demo.dll".toList then 42 else 0, ())
    FreeLibrary := fun _ _ => ()
    last_error_code := fun _ => (some (fs.errc.other 126), ())
    fs_exists := fun _ p => (some (p == "C:\\work\\demo.dll".toList), ())
    fs_current_path := fun _ => (("C:\\work".toList, none), ()) }

/-- A memory in which the pointer stored at address 2000 (the symbol "answer_alias" of
`demo_loader`) holds 1000, the address of the symbol "answer". -/
def alias_memory : memory := fun a => if a = 2000 then 1000 else 0

/-- A world without state in which no file can be loaded but the program itself (handle
7), the program is "/bin/app", and the files "/bin/libapp.so" and "/bin/libtool.so"
exist. -/
def self_loader : platform_loader Unit :=
  { dlopen := fun _ file _ => (if file = none then 7 else 0, ())
    dlclose := fun _ _ => ()
    dlerror := fun _ => ()
    program_location_impl := fun _ => (("/bin/app".toList, none), ())
    fs_exists := fun _ p =>
      (some (p == "/bin/libapp.so".toList || p == "/bin/libtool.so".toList), ())
    fs_equivalent := fun _ p q => ((p == q, none), ())
    fs_current_path := fun _ => (("/bin".toList, none), ())
    dlsym := fun _ _ _ => (0, ())
    path_from_handle := fun _ _ => (([], some fs.errc.bad_file_descriptor), ()) }

/-- A Windows world without state in which no file can be loaded, every failed call
leaves the error code 193 (`ERROR_BAD_EXE_FORMAT`), the working directory is "C:\\work"
and the file "C:\\work\\demo.dll" exists. -/
def windows_broken_loader : windows.platform_loader Unit :=
  { LoadLibraryExW := fun _ _ _ => (0, ())
    FreeLibrary := fun _ _ => ()
    last_error_code := fun _ => (some (fs.errc.other 193), ())
    fs_exists := fun _ p => (some (p == "C:\\work\\demo.dll".toList), ())
    fs_current_path := fun _ => (("C:\\work".toList, none), ()) }

end samples

/-! # Theorems -/

open pe_info

set_option maxRecDepth 100000

/-! ## Lemmas on the stream and the PE reader -/

theorem read_ok (fs : ifstream) (n : Nat) (h : fs.pos + n ≤ fs.bytes.length) :
    fs.read n = .ok ((fs.bytes.drop fs.pos).take n, ⟨fs.bytes, fs.pos + n⟩) := by
  simp [ifstream.read, h]

theorem read_bytes (fs fs' : ifstream) (n : Nat) (raw : List UInt8)
    (h : fs.read n = .ok (raw, fs')) : fs'.bytes = fs.bytes := by
  unfold ifstream.read at h
  split at h
  · simp only [Except.ok.injEq, Prod.mk.injEq] at h
    rw [← h.2]
  · simp at h

theorem seekg_bytes (fs fs' : ifstream) (off : Int)
    (h : fs.seekg off = .ok fs') : fs'.bytes = fs.bytes := by
  unfold ifstream.seekg at h
  split at h
  · simp at h
  · simp only [Except.ok.injEq] at h
    rw [← h]

theorem seekg_zero (fs : ifstream) : fs.seekg 0 = .ok ⟨fs.bytes, 0⟩ := by
  simp [ifstream.seekg]

theorem to_streamoff_small (n : Nat) (h : n < 2 ^ 63) : to_streamoff n = (n : Int) := by
  have h2 : n % 2 ^ 64 = n := Nat.mod_eq_of_lt (by omega)
  unfold to_streamoff
  rw [h2, if_pos h]

theorem seekg_size_t_ok (fs : ifstream) (n : Nat) (h : n < 2 ^ 63) :
    seekg_size_t fs n = .ok ⟨fs.bytes, n⟩ := by
  simp [seekg_size_t, to_streamoff_small n h, ifstream.seekg]

theorem header_bytes (host : Host) (W : AddressOffsetT) (fs fs' : ifstream) (h : header_t)
    (hh : header host W fs = .ok (h, fs')) : fs'.bytes = fs.bytes := by
  simp only [header, seekg_zero, bind] at hh
  simp only [Except.bind] at hh
  cases hr : ifstream.read ⟨fs.bytes, 0⟩ (sizeof_dos_t host) with
  | error err => rw [hr] at hh; simp at hh
  | ok r =>
    obtain ⟨raw, fs1⟩ := r
    rw [hr] at hh
    simp only at hh
    have hb1 := read_bytes _ fs1 _ raw hr
    cases hs : fs1.seekg (IMAGE_DOS_HEADER_.of_raw host raw).e_lfanew with
    | error err => rw [hs] at hh; simp at hh
    | ok fs2 =>
      rw [hs] at hh
      simp only at hh
      have hb2 := seekg_bytes _ _ _ hs
      cases hr2 : fs2.read (sizeof_header_t W) with
      | error err => rw [hr2] at hh; simp at hh
      | ok r2 =>
        obtain ⟨raw2, fs3⟩ := r2
        rw [hr2] at hh
        simp only [pure, Except.pure, Except.ok.injEq, Prod.mk.injEq] at hh
        have hb3 := read_bytes _ _ _ _ hr2
        rw [← hh.2, hb3, hb2, hb1]

theorem c_str_name_helper (name : List UInt8) : c_str (name ++ [0]) = c_str name := by
  unfold c_str
  induction name with
  | nil => simp [List.takeWhile]
  | cons a t ih =>
    by_cases h : a = 0
    · simp [List.takeWhile, h]
    · simp only [decide_not] at ih
      simp [List.takeWhile, h, ih]

theorem sections_loop_step (n : Nat) (fs : ifstream) :
    sections_loop (n + 1) fs =
      (fs.read sizeof_section_t).bind fun r =>
        (sections_loop n r.2).bind fun q =>
          .ok (c_str ((section_t.of_raw r.1).Name ++ [0]) :: q.1, q.2) := by
  simp only [sections_loop, bind, pure, Except.pure]
  cases fs.read sizeof_section_t with
  | error e => rfl
  | ok r =>
    obtain ⟨raw, fs1⟩ := r
    simp only [Except.bind]
    split <;> rfl


theorem sections_loop_eq :
    ∀ (n : Nat) (fs : ifstream), fs.pos + sizeof_section_t * n ≤ fs.bytes.length →
      sections_loop n fs =
        .ok ((List.range n).map (fun i =>
                c_str ((fs.bytes.drop (fs.pos + sizeof_section_t * i)).take IMAGE_SIZEOF_SHORT_NAME_)),
             ⟨fs.bytes, fs.pos + sizeof_section_t * n⟩) := by
  intro n
  induction n with
  | zero => intro fs _; simp [sections_loop]
  | succ n ih =>
    intro fs hfit
    have h1 : fs.pos + sizeof_section_t ≤ fs.bytes.length := by
      have : sizeof_section_t * (n + 1) = sizeof_section_t * n + sizeof_section_t := by ring
      omega
    rw [sections_loop_step, read_ok fs _ h1]
    simp only [Except.bind]
    have h2 : (⟨fs.bytes, fs.pos + sizeof_section_t⟩ : ifstream).pos + sizeof_section_t * n
        ≤ (⟨fs.bytes, fs.pos + sizeof_section_t⟩ : ifstream).bytes.length := by
      have : sizeof_section_t * (n + 1) = sizeof_section_t * n + sizeof_section_t := by ring
      simp only
      omega
    rw [ih _ h2]
    simp only [Except.bind, c_str_name_helper, section_t.of_raw, List.take_take,
      List.range_succ_eq_map, List.map_cons, List.map_map]
    have e1 : min IMAGE_SIZEOF_SHORT_NAME_ sizeof_section_t = IMAGE_SIZEOF_SHORT_NAME_ := by
      decide
    rw [e1]
    have e2 : ∀ i, fs.pos + sizeof_section_t + sizeof_section_t * i
        = fs.pos + sizeof_section_t * (i + 1) := fun i => by ring
    simp only [e2, Nat.mul_zero, Nat.add_zero]
    rfl

theorem c_str_length_le (buf : List UInt8) : (c_str buf).length ≤ buf.length := by
  unfold c_str
  induction buf with
  | nil => simp
  | cons a t ih =>
    simp only [List.takeWhile]
    split
    · simp only [List.length_cons]; omega
    · simp

theorem header_eq (host : Host) (W : AddressOffsetT) (fs : ifstream) :
    header host W fs =
      if sizeof_dos_t host ≤ fs.bytes.length then
        if e_lfanew_of host fs.bytes < 0 then .error .ios_failure
        else if (e_lfanew_of host fs.bytes).toNat + sizeof_header_t W ≤ fs.bytes.length then
          .ok (header_t.of_raw W
                ((fs.bytes.drop (e_lfanew_of host fs.bytes).toNat).take (sizeof_header_t W)),
               ⟨fs.bytes, (e_lfanew_of host fs.bytes).toNat + sizeof_header_t W⟩)
        else .error .ios_failure
      else .error .ios_failure := by
  unfold e_lfanew_of
  by_cases h1 : sizeof_dos_t host ≤ fs.bytes.length
  · by_cases h2 : (IMAGE_DOS_HEADER_.of_raw host (fs.bytes.take (sizeof_dos_t host))).e_lfanew < 0
    · simp [header, seekg_zero, bind, Except.bind, ifstream.read, ifstream.seekg, h1, h2]
    · by_cases h3 : (IMAGE_DOS_HEADER_.of_raw host
          (fs.bytes.take (sizeof_dos_t host))).e_lfanew.toNat + sizeof_header_t W ≤ fs.bytes.length
      · simp [header, seekg_zero, bind, Except.bind, ifstream.read, ifstream.seekg, h1, h2, h3,
          pure, Except.pure]
      · simp [header, seekg_zero, bind, Except.bind, ifstream.read, ifstream.seekg, h1, h2, h3]
  · simp [header, seekg_zero, bind, Except.bind, ifstream.read, h1]

theorem header_ok (host : Host) (W : AddressOffsetT) (fs fs1 : ifstream) (h : header_t)
    (hh : header host W fs = .ok (h, fs1)) :
    sizeof_dos_t host ≤ fs.bytes.length ∧ 0 ≤ e_lfanew_of host fs.bytes ∧
    (e_lfanew_of host fs.bytes).toNat + sizeof_header_t W ≤ fs.bytes.length ∧
    h = header_t.of_raw W
          ((fs.bytes.drop (e_lfanew_of host fs.bytes).toNat).take (sizeof_header_t W)) ∧
    fs1 = ⟨fs.bytes, (e_lfanew_of host fs.bytes).toNat + sizeof_header_t W⟩ := by
  rw [header_eq] at hh
  split at hh
  · split at hh
    · simp at hh
    · split at hh
      · simp only [Except.ok.injEq, Prod.mk.injEq] at hh
        refine ⟨by assumption, by omega, by assumption, hh.1.symm, hh.2.symm⟩
      · simp at hh
  · simp at hh

theorem uint8_eq_of_toNat_eq (a b : UInt8) (h : a.toNat = b.toNat) : a = b :=
  UInt8.eq_of_toBitVec_eq (BitVec.eq_of_toNat_eq h)

theorem le_value_inj : ∀ (l1 l2 : List UInt8), l1.length = l2.length →
    le_value l1 = le_value l2 → l1 = l2 := by
  intro l1
  induction l1 with
  | nil =>
    intro l2 hl _
    cases l2 with
    | nil => rfl
    | cons b t => simp at hl
  | cons a t ih =>
    intro l2 hl hv
    cases l2 with
    | nil => simp at hl
    | cons b t2 =>
      simp only [le_value] at hv
      have ha := UInt8.toNat_lt_size a
      have hb := UInt8.toNat_lt_size b
      simp only [UInt8.size] at ha hb
      have h1 : a.toNat = b.toNat := by omega
      have h2 : le_value t = le_value t2 := by omega
      rw [uint8_eq_of_toNat_eq a b h1, ih t2 (by simpa using hl) h2]

theorem le_value_eq_iff (l pat : List UInt8) (hl : l.length = pat.length) (v : Nat)
    (hv : le_value pat = v) : le_value l = v ↔ l = pat := by
  constructor
  · intro h
    exact le_value_inj l pat hl (by rw [h, hv])
  · intro h
    rw [h, hv]

theorem parsing_supported_eq (host : Host) (W : AddressOffsetT) (fs : ifstream) :
    parsing_supported host W fs =
      if sizeof_dos_t host ≤ fs.bytes.length then
        if field (fs.bytes.take (sizeof_dos_t host)) 0 2 ≠ 0x4D5A ∧
            field (fs.bytes.take (sizeof_dos_t host)) 0 2 ≠ 0x5A4D then
          .ok (false, ⟨fs.bytes, sizeof_dos_t host⟩)
        else if e_lfanew_of host fs.bytes < 0 then .error .ios_failure
        else if (e_lfanew_of host fs.bytes).toNat + sizeof_header_t W ≤ fs.bytes.length then
          .ok (field ((fs.bytes.drop (e_lfanew_of host fs.bytes).toNat).take (sizeof_header_t W)) 0 4
                  == 0x00004550 &&
               field ((fs.bytes.drop (e_lfanew_of host fs.bytes).toNat).take (sizeof_header_t W)) 24 2
                  == expected_magic W,
               ⟨fs.bytes, (e_lfanew_of host fs.bytes).toNat + sizeof_header_t W⟩)
        else .error .ios_failure
      else .error .ios_failure := by
  unfold e_lfanew_of
  simp only [parsing_supported, seekg_zero, bind, Except.bind, ifstream.read, Nat.zero_add,
    List.drop_zero, pure, Except.pure, IMAGE_DOS_HEADER_.of_raw, header_t.of_raw]
  by_cases h1 : sizeof_dos_t host ≤ fs.bytes.length
  · rw [if_pos h1, if_pos h1]
    simp only []
    by_cases h0 : field (fs.bytes.take (sizeof_dos_t host)) 0 2 ≠ 0x4D5A ∧
        field (fs.bytes.take (sizeof_dos_t host)) 0 2 ≠ 0x5A4D
    · rw [if_pos h0, if_pos h0]
    · rw [if_neg h0, if_neg h0]
      simp only [ifstream.seekg]
      by_cases h2 : to_signed host.sizeof_long (field (fs.bytes.take (sizeof_dos_t host))
          (offsetof_e_lfanew host) host.sizeof_long) < 0
      · rw [if_pos h2, if_pos h2]
      · rw [if_neg h2, if_neg h2]
        simp only []
        by_cases h3 : (to_signed host.sizeof_long (field (fs.bytes.take (sizeof_dos_t host))
            (offsetof_e_lfanew host) host.sizeof_long)).toNat + sizeof_header_t W
              ≤ fs.bytes.length
        · rw [if_pos h3, if_pos h3]
        · rw [if_neg h3, if_neg h3]
  · rw [if_neg h1, if_neg h1]

theorem sizeof_dos_t_ge (host : Host) (hlong : host.sizeof_long = 4 ∨ host.sizeof_long = 8) :
    64 ≤ sizeof_dos_t host := by
  rcases hlong with h | h <;> simp [sizeof_dos_t, offsetof_e_lfanew, h]

theorem field_take_prefix (B : List UInt8) (n w : Nat) (h : w ≤ n) :
    field (B.take n) 0 w = le_value (B.take w) := by
  simp only [field, List.drop_zero, List.take_take, Nat.min_eq_left h]

theorem field_take_drop (B : List UInt8) (p n o w : Nat) (h : o + w ≤ n) :
    field ((B.drop p).take n) o w = le_value ((B.drop (p + o)).take w) := by
  simp only [field, List.drop_take, List.drop_drop, List.take_take]
  rw [Nat.min_eq_left (by omega)]

/-- Claim C1 (defect in the code). The section-filtered export list is not always a
subset of the unfiltered one: `symbols(fs, section_name)` visits `NumberOfFunctions`
entries of the name and ordinal tables where `symbols(fs)` visits `NumberOfNames`. On the
PE32 file `two_functions_one_name` (two functions, one name) the list for ".text" holds
the string "MZ", read through the slot after the one-entry name table, which
`symbols(fs)` does not return. -/
theorem symbols_in_not_subset_of_symbols :
    (parsing_supported samples.win64 .dword ⟨samples.two_functions_one_name, 0⟩).map Prod.fst
      = .ok true ∧
    (symbols samples.win64 .dword ⟨samples.two_functions_one_name, 0⟩).map Prod.fst
      = .ok [[0x66]] ∧
    (symbols_in samples.win64 .dword ⟨samples.two_functions_one_name, 0⟩
        samples.dot_text).map Prod.fst
      = .ok [[0x66], [0x4D, 0x5A]] ∧
    ([0x4D, 0x5A] : List UInt8) ∉ ([[0x66]] : List (List UInt8)) :=
  ⟨rfl, rfl, rfl, by decide⟩

/-- Claim C4 (defect in the code). With no named export, `symbols(fs, section_name)` does
not always return the empty sequence without error. On `ordinal_only`
(`NumberOfNames = 0`, `NumberOfFunctions = 1`) `symbols(fs)` returns the empty sequence
but `symbols(fs, ".text")` enters its loop, reads an ordinal from offset 0 and fails on
the read that follows. On `no_exports` (export directory address 0) a build without
`NDEBUG` stops at `assert(virtual_address)` in `get_file_offset`, which
`symbols(fs, ".text")` calls with the zero `AddressOfNames`. -/
theorem symbols_in_unnamed_exports_diverge :
    (exports_t.of_raw ((samples.ordinal_only.drop 408).take 40)).NumberOfNames = 0 ∧
    (symbols samples.win64 .dword ⟨samples.ordinal_only, 0⟩).map Prod.fst = .ok [] ∧
    (symbols_in samples.win64 .dword ⟨samples.ordinal_only, 0⟩ samples.dot_text).map Prod.fst
      = .error .ios_failure ∧
    field samples.no_exports (64 + 24 + offsetof_DataDirectory .dword) 4 = 0 ∧
    (symbols samples.win64_debug .dword ⟨samples.no_exports, 0⟩).map Prod.fst = .ok [] ∧
    (symbols_in samples.win64_debug .dword ⟨samples.no_exports, 0⟩
        samples.dot_text).map Prod.fst
      = .error .assertion_failure :=
  ⟨rfl, rfl, rfl, rfl, rfl, rfl⟩

/-- Claim C5 (defect in the code). `sections(fs)` does not return the names of the section
headers of every PE file. The PE32 file `thirteen_directories` has
`SizeOfOptionalHeader = 200`, so its section table starts at offset 64 + 4 + 20 + 200 =
288 and holds the two headers ".text" and ".data"; `parsing_supported` accepts the file,
and `sections` returns two empty names, neither of them the `Name` field of a section
header of the file. On the file `two_names`, whose `SizeOfOptionalHeader` is 224, the
names returned are those of the section headers. -/
theorem sections_misses_section_headers :
    (parsing_supported samples.win64 .dword ⟨samples.thirteen_directories, 0⟩).map Prod.fst
      = .ok true ∧
    field samples.thirteen_directories (64 + 4 + 2) 2 = 2 ∧
    field samples.thirteen_directories (64 + 4 + 16) 2 = 200 ∧
    documented_section_table_offset samples.thirteen_directories = 288 ∧
    documented_sections samples.thirteen_directories = [samples.dot_text, samples.dot_data] ∧
    (sections samples.win64 .dword ⟨samples.thirteen_directories, 0⟩).map Prod.fst
      = .ok [[], []] ∧
    (sections samples.win64 .dword ⟨samples.thirteen_directories, 0⟩).map Prod.fst
      ≠ .ok (documented_sections samples.thirteen_directories) ∧
    field samples.two_names (64 + 4 + 16) 2 = 224 ∧
    (sections samples.win64 .dword ⟨samples.two_names, 0⟩).map Prod.fst
      = .ok (documented_sections samples.two_names) :=
  ⟨rfl, rfl, rfl, rfl, rfl, rfl,
    fun h => by
      have h2 : (Except.ok [[], []] : Except Fault (List (List UInt8)))
          = .ok [samples.dot_text, samples.dot_data] := h
      simp [samples.dot_text] at h2,
    rfl, rfl⟩

/-- What `sections(fs)` returns, in terms of the bytes it reads. For a file whose headers
can be read and which holds `40 * NumberOfSections` bytes after the `sizeof(header_t)`
bytes at `e_lfanew`, `sections(fs)` returns `NumberOfSections` names; the `i`-th is the
bytes before the first NUL of the 8 bytes at `e_lfanew + sizeof(header_t) + 40 * i`, so it
has at most 8 bytes, and a leading slash is kept. These 8 bytes are the `Name` field of
the `i`-th section header only in a file whose optional header has the size of the
struct (`SizeOfOptionalHeader` 224 for PE32, 240 for PE32+). -/
theorem sections_spec (host : Host) (W : AddressOffsetT) (fs fs1 : ifstream) (h : header_t)
    (hh : header host W fs = .ok (h, fs1))
    (hfit : fs1.pos + sizeof_section_t * h.FileHeader.NumberOfSections ≤ fs.bytes.length) :
    ∃ names fs', sections host W fs = .ok (names, fs') ∧
      fs1.pos = (e_lfanew_of host fs.bytes).toNat + sizeof_header_t W ∧
      names.length = h.FileHeader.NumberOfSections ∧
      (∀ i, i < h.FileHeader.NumberOfSections →
        names[i]? = some (c_str ((fs.bytes.drop (fs1.pos + sizeof_section_t * i)).take
                                  IMAGE_SIZEOF_SHORT_NAME_))) ∧
      (∀ name ∈ names, name.length ≤ 8) ∧
      (∀ i rest, i < h.FileHeader.NumberOfSections →
        (fs.bytes.drop (fs1.pos + sizeof_section_t * i)).take IMAGE_SIZEOF_SHORT_NAME_
          = 0x2F :: rest →
        names[i]? = some (0x2F :: c_str rest)) := by
  have hb := header_bytes host W fs fs1 h hh
  have hpos := (header_ok host W fs fs1 h hh).2.2.2.2
  have hfit' : fs1.pos + sizeof_section_t * h.FileHeader.NumberOfSections ≤ fs1.bytes.length := by
    rw [hb]; exact hfit
  have hget : ∀ i, i < h.FileHeader.NumberOfSections →
      ((List.range h.FileHeader.NumberOfSections).map (fun i =>
          c_str ((fs1.bytes.drop (fs1.pos + sizeof_section_t * i)).take
                  IMAGE_SIZEOF_SHORT_NAME_)))[i]?
        = some (c_str ((fs.bytes.drop (fs1.pos + sizeof_section_t * i)).take
                  IMAGE_SIZEOF_SHORT_NAME_)) := by
    intro i hi
    simp [List.getElem?_map, List.getElem?_range hi, hb]
  refine ⟨_, ⟨fs1.bytes, fs1.pos + sizeof_section_t * h.FileHeader.NumberOfSections⟩,
    ?_, ?_, ?_, hget, ?_, ?_⟩
  · simp only [sections, bind, hh, Except.bind]
    exact sections_loop_eq _ fs1 hfit'
  · rw [hpos]
  · simp
  · intro name hname
    simp only [List.mem_map, List.mem_range] at hname
    obtain ⟨i, _, rfl⟩ := hname
    refine Nat.le_trans (c_str_length_le _) ?_
    simp only [List.length_take, IMAGE_SIZEOF_SHORT_NAME_]
    omega
  · intro i rest hi hrest
    rw [hget i hi, hrest]
    simp [c_str, List.takeWhile]

/-- The lemma `sections_spec` on the file `two_names`, whose two section headers start at
offset 312. -/
theorem sections_spec_witness :
    ∃ names fs', sections samples.win64 .dword ⟨samples.two_names, 0⟩ = .ok (names, fs') ∧
      (312 : Nat) = (e_lfanew_of samples.win64 samples.two_names).toNat + sizeof_header_t .dword ∧
      names.length = samples.two_names_header.FileHeader.NumberOfSections ∧
      (∀ i, i < samples.two_names_header.FileHeader.NumberOfSections →
        names[i]? = some (c_str ((samples.two_names.drop (312 + sizeof_section_t * i)).take
                                  IMAGE_SIZEOF_SHORT_NAME_))) ∧
      (∀ name ∈ names, name.length ≤ 8) ∧
      (∀ i rest, i < samples.two_names_header.FileHeader.NumberOfSections →
        (samples.two_names.drop (312 + sizeof_section_t * i)).take IMAGE_SIZEOF_SHORT_NAME_
          = 0x2F :: rest →
        names[i]? = some (0x2F :: c_str rest)) :=
  sections_spec samples.win64 .dword ⟨samples.two_names, 0⟩ ⟨samples.two_names, 312⟩
    samples.two_names_header rfl (by decide)

/-- Claim C6, refuted as stated: the file `zm_file` starts with the bytes "ZM", not "MZ",
and `pe_info32::parsing_supported` returns true on it. -/
theorem parsing_supported_accepts_ZM :
    samples.zm_file.take 2 = [0x5A, 0x4D] ∧
    (parsing_supported samples.win64 .dword ⟨samples.zm_file, 0⟩).map Prod.fst = .ok true :=
  ⟨rfl, rfl⟩

/-- Claim C6, amended. On a host whose `long` has 4 or 8 bytes,
`pe_info<W>::parsing_supported` returns true exactly when the DOS header lies in the file,
the first two bytes are "MZ" or "ZM", the offset stored in `e_lfanew` is not negative, the
NT headers at that offset lie in the file, the four bytes at that offset are "PE\0\0",
and the optional-header magic 24 bytes further is `0x10B` for the 32-bit reader and
`0x20B` for the 64-bit reader. -/
theorem parsing_supported_iff (host : Host) (W : AddressOffsetT) (fs : ifstream)
    (hlong : host.sizeof_long = 4 ∨ host.sizeof_long = 8) :
    (parsing_supported host W fs).map Prod.fst = .ok true ↔
      sizeof_dos_t host ≤ fs.bytes.length ∧
      (fs.bytes.take 2 = [0x4D, 0x5A] ∨ fs.bytes.take 2 = [0x5A, 0x4D]) ∧
      0 ≤ e_lfanew_of host fs.bytes ∧
      (e_lfanew_of host fs.bytes).toNat + sizeof_header_t W ≤ fs.bytes.length ∧
      (fs.bytes.drop (e_lfanew_of host fs.bytes).toNat).take 4 = [0x50, 0x45, 0, 0] ∧
      (fs.bytes.drop ((e_lfanew_of host fs.bytes).toNat + 24)).take 2
        = optional_magic_bytes W := by
  have hsd := sizeof_dos_t_ge host hlong
  have hsh : 26 ≤ sizeof_header_t W := by cases W <;> decide
  rw [parsing_supported_eq]
  by_cases h1 : sizeof_dos_t host ≤ fs.bytes.length
  swap
  · rw [if_neg h1]
    constructor
    · intro h; simp [Except.map] at h
    · intro h; exact absurd h.1 h1
  rw [if_pos h1, field_take_prefix _ _ 2 (by omega)]
  have hl2 : (fs.bytes.take 2).length = 2 := by
    rw [List.length_take]; omega
  have hMZ : le_value (fs.bytes.take 2) = 0x5A4D ↔ fs.bytes.take 2 = [0x4D, 0x5A] :=
    le_value_eq_iff _ [0x4D, 0x5A] hl2 _ (by decide)
  have hZM : le_value (fs.bytes.take 2) = 0x4D5A ↔ fs.bytes.take 2 = [0x5A, 0x4D] :=
    le_value_eq_iff _ [0x5A, 0x4D] hl2 _ (by decide)
  by_cases h0 : le_value (fs.bytes.take 2) ≠ 0x4D5A ∧ le_value (fs.bytes.take 2) ≠ 0x5A4D
  · rw [if_pos h0]
    constructor
    · intro h; simp [Except.map] at h
    · intro h
      rcases h.2.1 with hm | hm
      · exact absurd (hMZ.2 hm) h0.2
      · exact absurd (hZM.2 hm) h0.1
  rw [if_neg h0]
  have hmagic : fs.bytes.take 2 = [0x4D, 0x5A] ∨ fs.bytes.take 2 = [0x5A, 0x4D] := by
    by_cases hz : le_value (fs.bytes.take 2) = 0x4D5A
    · exact Or.inr (hZM.1 hz)
    · by_cases hm : le_value (fs.bytes.take 2) = 0x5A4D
      · exact Or.inl (hMZ.1 hm)
      · exact absurd ⟨hz, hm⟩ h0
  by_cases h2 : e_lfanew_of host fs.bytes < 0
  · rw [if_pos h2]
    constructor
    · intro h; simp [Except.map] at h
    · intro h; omega
  rw [if_neg h2]
  by_cases h3 : (e_lfanew_of host fs.bytes).toNat + sizeof_header_t W ≤ fs.bytes.length
  swap
  · rw [if_neg h3]
    constructor
    · intro h; simp [Except.map] at h
    · intro h; exact absurd h.2.2.2.1 h3
  rw [if_pos h3, field_take_drop _ _ _ 0 4 (by omega), field_take_drop _ _ _ 24 2 (by omega)]
  simp only [Nat.add_zero, Except.map, Except.ok.injEq, Bool.and_eq_true, beq_iff_eq]
  have hl4 : ((fs.bytes.drop (e_lfanew_of host fs.bytes).toNat).take 4).length = 4 := by
    rw [List.length_take, List.length_drop]; omega
  have hl2' : ((fs.bytes.drop ((e_lfanew_of host fs.bytes).toNat + 24)).take 2).length = 2 := by
    rw [List.length_take, List.length_drop]; omega
  have hsig := le_value_eq_iff _ [0x50, 0x45, 0, 0] hl4 0x00004550 (by decide)
  have hopt : le_value ((fs.bytes.drop ((e_lfanew_of host fs.bytes).toNat + 24)).take 2)
        = expected_magic W ↔
      (fs.bytes.drop ((e_lfanew_of host fs.bytes).toNat + 24)).take 2
        = optional_magic_bytes W := by
    cases W
    · exact le_value_eq_iff _ [0x0B, 0x01] hl2' _ (by decide)
    · exact le_value_eq_iff _ [0x0B, 0x02] hl2' _ (by decide)
  rw [hsig, hopt]
  constructor
  · intro h
    exact ⟨h1, hmagic, by omega, h3, h.1, h.2⟩
  · intro h
    exact ⟨h.2.2.2.2.1, h.2.2.2.2.2⟩

/-- Witness of C6 on a host whose `long` has 4 bytes and the file `two_names`. -/
theorem parsing_supported_iff_witness :
    (samples.win64.sizeof_long = 4 ∨ samples.win64.sizeof_long = 8) ∧
    ((parsing_supported samples.win64 .dword ⟨samples.two_names, 0⟩).map Prod.fst = .ok true ↔
      sizeof_dos_t samples.win64 ≤ samples.two_names.length ∧
      (samples.two_names.take 2 = [0x4D, 0x5A] ∨ samples.two_names.take 2 = [0x5A, 0x4D]) ∧
      0 ≤ e_lfanew_of samples.win64 samples.two_names ∧
      (e_lfanew_of samples.win64 samples.two_names).toNat + sizeof_header_t .dword
        ≤ samples.two_names.length ∧
      (samples.two_names.drop (e_lfanew_of samples.win64 samples.two_names).toNat).take 4
        = [0x50, 0x45, 0, 0] ∧
      (samples.two_names.drop
          ((e_lfanew_of samples.win64 samples.two_names).toNat + 24)).take 2
        = optional_magic_bytes .dword) :=
  ⟨Or.inl rfl,
   parsing_supported_iff samples.win64 .dword ⟨samples.two_names, 0⟩ (Or.inl rfl)⟩

/-! ## Lemmas on `library_info::init` -/

open library_info

/-- Claim C8 (defect in the code). On a macOS build, where `config.hpp` defines
`MIDLL_OS_MACOS`, `throw_if_in_macos` does not throw, because it tests `BOOST_OS_MACOS` and
`BOOST_OS_IOS`, which nothing defines: with `throw_if_not_native_format = true` a 64-bit
ELF file is accepted and `fmt_elf_info64` is stored, where the claim has construction
fail with "Not native format". -/
theorem init_accepts_elf_on_macos :
    samples.macos64.MIDLL_OS_MACOS = true ∧
    throw_if_in_macos samples.macos64 = .ok () ∧
    init samples.macos64 samples.lp64 samples.spec_probes ⟨samples.elf64_file, 0⟩ true
      = .ok (.fmt_elf_info64, ⟨samples.elf64_file, 5⟩) :=
  ⟨rfl, rfl, rfl⟩

/-! ## Lemmas on the POSIX `load` -/

open shared_library_impl

theorem only_dlopen_added_refl (l : List native_call) : only_dlopen_added l l :=
  ⟨[], by simp, by simp⟩

theorem only_dlopen_added_trans {a b c : List native_call}
    (h1 : only_dlopen_added a b) (h2 : only_dlopen_added b c) : only_dlopen_added a c := by
  obtain ⟨r1, e1, p1⟩ := h1
  obtain ⟨r2, e2, p2⟩ := h2
  refine ⟨r1 ++ r2, by rw [e2, e1, List.append_assoc], ?_⟩
  intro x hx
  rcases List.mem_append.1 hx with h | h
  · exact p1 x h
  · exact p2 x h

theorem only_dlopen_added_dlopen {σ : Type} (L : platform_loader σ) (s : state σ)
    (file : Option fs.path) (mode : Nat) :
    only_dlopen_added s.calls (do_dlopen L s file mode).calls :=
  ⟨[.dlopen file mode (L.dlopen s.world file mode).1], rfl, by simp [native_call.is_dlopen]⟩

theorem unload_handle {σ : Type} (L : platform_loader σ) (s : state σ) :
    (unload L s).handle_ = 0 := by
  unfold unload is_loaded
  by_cases h : s.handle_ = 0 <;> simp [h]

theorem unload_calls {σ : Type} (L : platform_loader σ) (s : state σ) :
    (unload L s).calls = s.calls ++ (if s.handle_ = 0 then [] else [.dlclose s.handle_]) := by
  unfold unload is_loaded
  by_cases h : s.handle_ = 0 <;> simp [h]

theorem load_exact_post {σ : Type} (L : platform_loader σ) (s : state σ) (sl : fs.path)
    (native_mode : Nat) : load_post s (load_exact L s sl native_mode none) := by
  unfold load_exact load_post
  dsimp only
  split_ifs with h1 h2 h3 h4
  · exact ⟨fun _ => by simpa [reset_dlerror] using h1, by simp,
      only_dlopen_added_dlopen L s _ _⟩
  · exact ⟨fun _ => by simpa using h1, by simp, only_dlopen_added_dlopen L s _ _⟩
  · exact ⟨fun _ => by simpa using h4, by simp,
      only_dlopen_added_trans (only_dlopen_added_dlopen L s _ _)
        (only_dlopen_added_dlopen L _ _ _)⟩
  · exact ⟨fun _ => by simpa using h4, by simp,
      only_dlopen_added_trans (only_dlopen_added_dlopen L s _ _)
        (only_dlopen_added_dlopen L _ _ _)⟩
  · exact ⟨fun _ => by simpa using h1, by simp, only_dlopen_added_dlopen L s _ _⟩

theorem load_post_of_calls {σ : Type} (s s' : state σ) (o : outcome σ)
    (h : only_dlopen_added s.calls s'.calls) (hp : load_post s' o) : load_post s o :=
  ⟨hp.1, hp.2.1, only_dlopen_added_trans h hp.2.2⟩

theorem load_decorated_post {σ : Type} (L : platform_loader σ) (plat : Platform) (s : state σ)
    (sl : fs.path) (native_mode : Nat) :
    load_post s (load_decorated L plat s sl native_mode none) := by
  unfold load_decorated
  dsimp only
  split
  next h1 =>
    exact ⟨fun _ => by simpa [reset_dlerror] using h1, by simp,
      only_dlopen_added_dlopen L s _ _⟩
  next h1 =>
    split
    · exact ⟨by simp, fun _ => by simpa using h1, only_dlopen_added_dlopen L s _ _⟩
    · exact load_post_of_calls s _ _ (only_dlopen_added_dlopen L s _ _) (load_exact_post L _ _ _)
    · split
      · exact ⟨fun _ => by simpa using h1, by simp, only_dlopen_added_dlopen L s _ _⟩
      · exact load_post_of_calls s _ _ (only_dlopen_added_dlopen L s _ _)
          (load_exact_post L _ _ _)

theorem fix_path_handle {σ : Type} (L : platform_loader σ) (plat : Platform) (s : state σ)
    (sl : fs.path) (native_mode : Nat) :
    (fix_path L plat s sl native_mode).2.handle_ = s.handle_ ∧
    (fix_path L plat s sl native_mode).2.calls = s.calls := by
  unfold fix_path
  dsimp only
  split_ifs <;> exact ⟨rfl, rfl⟩

theorem load_post_unload {σ : Type} (L : platform_loader σ) (plat : Platform) (dl : dlfcn)
    (s : state σ) (sl : fs.path) (portable_mode : Nat) :
    load_post (unload L s) (load L plat dl s sl portable_mode none) := by
  unfold load
  dsimp only
  have hf := fix_path_handle L plat (unload L s) sl (fix_modes dl portable_mode)
  split_ifs with h1 h2
  · exact ⟨fun _ => by simp [reset_dlerror, unload_handle], by simp,
      only_dlopen_added_refl _⟩
  · exact load_post_of_calls _ _ _ (by rw [hf.2]; exact only_dlopen_added_refl _)
      (load_decorated_post L plat _ _ _)
  · exact load_post_of_calls _ _ _ (by rw [hf.2]; exact only_dlopen_added_refl _)
      (load_exact_post L _ _ _)

/-! ## The claims about `load` -/

/-- Claim C9. Whatever the handle held, whatever the path, the mode and the behaviour of
the platform, when `load(lib_path, ec, mode)` returns the handle is loaded exactly when
`ec` is clear. -/
theorem load_loaded_iff_ec_clear {σ : Type} (L : platform_loader σ) (plat : Platform)
    (dl : dlfcn) (s : state σ) (lib_path : fs.path) (ec : fs.error_code) (mode : Nat)
    (hret : (shared_library.load L plat dl s lib_path ec mode).raised = false) :
    shared_library.is_loaded (shared_library.load L plat dl s lib_path ec mode).self = true ↔
      (shared_library.load L plat dl s lib_path ec mode).ec = none := by
  have hp := (load_post_unload L plat dl s lib_path mode).1
  unfold shared_library.load shared_library.is_loaded is_loaded fs.error_code.clear at *
  dsimp only at *
  rw [← hp hret]
  simp

/-- Witness of C9: loading a path that does not exist, with a stale error code. -/
theorem load_loaded_iff_ec_clear_witness :
    (shared_library.load samples.demo_loader samples.linux_x86_64 samples.glibc ⟨0, (), []⟩
        "missing".toList (some .invalid_seek) 0).raised = false ∧
    (shared_library.is_loaded
        (shared_library.load samples.demo_loader samples.linux_x86_64 samples.glibc
          ⟨0, (), []⟩ "missing".toList (some .invalid_seek) 0).self = true ↔
      (shared_library.load samples.demo_loader samples.linux_x86_64 samples.glibc ⟨0, (), []⟩
        "missing".toList (some .invalid_seek) 0).ec = none) :=
  ⟨rfl,
   load_loaded_iff_ec_clear samples.demo_loader samples.linux_x86_64 samples.glibc
     ⟨0, (), []⟩ "missing".toList (some .invalid_seek) 0 rfl⟩

/-- Claim C10. `load` on a loaded handle first passes the held native handle to `dlclose`,
once, and every loader call after that is a `dlopen`; and when the load fails, by an error
code or by an exception, the handle is left empty. -/
theorem load_releases_previous_handle {σ : Type} (L : platform_loader σ) (plat : Platform)
    (dl : dlfcn) (s : state σ) (lib_path : fs.path) (ec : fs.error_code) (mode : Nat)
    (hloaded : shared_library.is_loaded s = true) :
    (∃ rest, (shared_library.load L plat dl s lib_path ec mode).self.calls
        = s.calls ++ native_call.dlclose s.handle_ :: rest ∧
      ∀ c ∈ rest, native_call.is_dlopen c = true) ∧
    ((shared_library.load L plat dl s lib_path ec mode).ec ≠ none →
      shared_library.is_loaded (shared_library.load L plat dl s lib_path ec mode).self = false) ∧
    ((shared_library.load L plat dl s lib_path ec mode).raised = true →
      shared_library.is_loaded (shared_library.load L plat dl s lib_path ec mode).self
        = false) := by
  obtain ⟨h1, h2, rest, hrest, hall⟩ := load_post_unload L plat dl s lib_path mode
  have hne : s.handle_ ≠ 0 := by
    simpa [shared_library.is_loaded, is_loaded] using hloaded
  unfold shared_library.load shared_library.is_loaded is_loaded fs.error_code.clear
  dsimp only
  refine ⟨⟨rest, ?_, hall⟩, ?_, ?_⟩
  · rw [hrest, unload_calls, if_neg hne]
    simp
  · intro hec
    cases hr : (load L plat dl s lib_path mode none).raised
    · have := h1 hr
      simp only [bne_eq_false_iff_eq]
      by_contra hc
      exact hec (this.1 hc)
    · simp [h2 hr]
  · intro hr
    simp [h2 hr]

/-- Witness of C10: a handle that holds 42 is asked to load a path that does not exist. -/
theorem load_releases_previous_handle_witness :
    shared_library.is_loaded (⟨42, (), []⟩ : state Unit) = true ∧
    (∃ rest, (shared_library.load samples.demo_loader samples.linux_x86_64 samples.glibc
          ⟨42, (), []⟩ "missing".toList none 0).self.calls
        = ([] : List native_call) ++ native_call.dlclose 42 :: rest ∧
      ∀ c ∈ rest, native_call.is_dlopen c = true) :=
  ⟨rfl,
   (load_releases_previous_handle samples.demo_loader samples.linux_x86_64 samples.glibc
     ⟨42, (), []⟩ "missing".toList none 0 rfl).1⟩

/-! ## Ownership of native references: `load` and `unload` -/

theorem attempts_append (h : native_handle_t) :
    ∀ (a b : List loader_event), attempts 0 a → attempts h b → attempts h (a ++ b) := by
  intro a
  induction a with
  | nil => intro b _ hb; simpa using hb
  | cons e rest ih =>
    intro b ha hb
    cases e with
    | unload x => simp [attempts] at ha
    | load r =>
      cases rest with
      | nil =>
        simp only [attempts] at ha
        subst ha
        cases b with
        | nil => simp only [attempts] at hb; simp [attempts, hb]
        | cons e2 b2 => exact ⟨rfl, hb⟩
      | cons e2 rest2 =>
        simp only [attempts] at ha
        obtain ⟨hr, hrest⟩ := ha
        exact ⟨hr, ih b hrest hb⟩

theorem attempts_discipline (h : native_handle_t) :
    ∀ (l : List loader_event), attempts h l →
      owns_at_most_one 0 l ∧ handle_after 0 l = h ∧ stored_handles l ≤ 1 := by
  intro l
  induction l with
  | nil => intro hl; simp only [attempts] at hl; simp [owns_at_most_one, handle_after, stored_handles, hl]
  | cons e rest ih =>
    intro hl
    cases e with
    | unload x => simp [attempts] at hl
    | load r =>
      cases rest with
      | nil =>
        simp only [attempts] at hl
        subst hl
        simp only [owns_at_most_one, handle_after, stored_handles, and_self, true_and]
        split <;> omega
      | cons e2 rest2 =>
        simp only [attempts] at hl
        obtain ⟨hr, hrest⟩ := hl
        subst hr
        obtain ⟨h1, h2, h3⟩ := ih hrest
        exact ⟨⟨rfl, h1⟩, h2, by simp only [stored_handles] at h3 ⊢; simpa using h3⟩

theorem load_attempts_one {σ : Type} (L : platform_loader σ) (s : state σ)
    (file : Option fs.path) (mode : Nat) (o : outcome σ)
    (hc : o.self.calls = (do_dlopen L s file mode).calls)
    (hh : o.self.handle_ = (do_dlopen L s file mode).handle_) : load_attempts s o :=
  ⟨[.dlopen file mode (L.dlopen s.world file mode).1], hc, by
    simp only [List.map, native_call.event, attempts]
    exact hh⟩

theorem load_attempts_trans {σ : Type} (s s' : state σ) (o : outcome σ)
    (h1 : ∃ new, s'.calls = s.calls ++ new ∧ attempts 0 (new.map native_call.event))
    (h2 : load_attempts s' o) : load_attempts s o := by
  obtain ⟨n1, e1, a1⟩ := h1
  obtain ⟨n2, e2, a2⟩ := h2
  refine ⟨n1 ++ n2, by rw [e2, e1, List.append_assoc], ?_⟩
  rw [List.map_append]
  exact attempts_append _ _ _ a1 a2

theorem failed_dlopen_attempt {σ : Type} (L : platform_loader σ) (s : state σ)
    (file : Option fs.path) (mode : Nat) (h : (do_dlopen L s file mode).handle_ = 0) :
    ∃ new, (do_dlopen L s file mode).calls = s.calls ++ new ∧
      attempts 0 (new.map native_call.event) :=
  ⟨[.dlopen file mode (L.dlopen s.world file mode).1], rfl, by
    simp only [List.map, native_call.event, attempts]
    exact h.symm⟩

theorem load_exact_attempts {σ : Type} (L : platform_loader σ) (s : state σ) (sl : fs.path)
    (native_mode : Nat) (ec : fs.error_code) :
    load_attempts s (load_exact L s sl native_mode ec) := by
  unfold load_exact
  dsimp only
  split
  next h1 => exact load_attempts_one L s _ _ _ rfl rfl
  next h1 =>
    have h0 : (do_dlopen L s (some sl) native_mode).handle_ = 0 := by
      by_contra hc; exact h1 hc
    split
    · exact load_attempts_one L s _ _ _ rfl rfl
    · split
      · split
        · refine load_attempts_trans s _ _ ?_ (load_attempts_one L _ none native_mode _ rfl rfl)
          exact failed_dlopen_attempt L s _ _ h0
        · refine load_attempts_trans s _ _ ?_ (load_attempts_one L _ none native_mode _ rfl rfl)
          exact failed_dlopen_attempt L s _ _ h0
      · exact load_attempts_one L s _ _ _ rfl rfl

theorem load_decorated_attempts {σ : Type} (L : platform_loader σ) (plat : Platform)
    (s : state σ) (sl : fs.path) (native_mode : Nat) (ec : fs.error_code) :
    load_attempts s (load_decorated L plat s sl native_mode ec) := by
  unfold load_decorated
  dsimp only
  split
  next h1 => exact load_attempts_one L s _ _ _ rfl rfl
  next h1 =>
    have h0 : (do_dlopen L s (some (decorate plat sl))
        (clear_flag native_mode load_mode.append_decorations)).handle_ = 0 := by
      by_contra hc; exact h1 hc
    split
    · exact load_attempts_one L s _ _ _ rfl rfl
    · exact load_attempts_trans s _ _ (failed_dlopen_attempt L s _ _ h0)
        (load_exact_attempts L _ _ _ _)
    · split
      · exact load_attempts_one L s _ _ _ rfl rfl
      · exact load_attempts_trans s _ _ (failed_dlopen_attempt L s _ _ h0)
          (load_exact_attempts L _ _ _ _)

theorem load_attempts_after_unload {σ : Type} (L : platform_loader σ) (plat : Platform)
    (dl : dlfcn) (s : state σ) (sl : fs.path) (portable_mode : Nat) (ec : fs.error_code) :
    load_attempts (unload L s) (load L plat dl s sl portable_mode ec) := by
  unfold load
  dsimp only
  have hf := fix_path_handle L plat (unload L s) sl (fix_modes dl portable_mode)
  split
  · exact ⟨[], by simp [reset_dlerror], by simp [attempts, reset_dlerror, unload_handle]⟩
  · split
    · obtain ⟨new, hn, ha⟩ := load_decorated_attempts L plat
        (fix_path L plat (unload L s) sl (fix_modes dl portable_mode)).2
        (fix_path L plat (unload L s) sl (fix_modes dl portable_mode)).1
        (clear_flag (fix_modes dl portable_mode) load_mode.search_system_folders) ec
      exact ⟨new, by rw [hn, hf.2], ha⟩
    · obtain ⟨new, hn, ha⟩ := load_exact_attempts L
        (fix_path L plat (unload L s) sl (fix_modes dl portable_mode)).2
        (fix_path L plat (unload L s) sl (fix_modes dl portable_mode)).1
        (clear_flag (fix_modes dl portable_mode) load_mode.search_system_folders) ec
      exact ⟨new, by rw [hn, hf.2], ha⟩

namespace windows

open windows.shared_library_impl

theorem load_attempts_chain {σ : Type} (s s' : shared_library_impl.state σ)
    (calls : List native_call) (handle : native_handle_t)
    (h1 : load_attempts s s'.calls 0) (h2 : load_attempts s' calls handle) :
    load_attempts s calls handle := by
  obtain ⟨n1, e1, _, a1⟩ := h1
  obtain ⟨n2, e2, hne, a2⟩ := h2
  refine ⟨n1 ++ n2, by rw [e2, e1, List.append_assoc], by simp [hne], ?_⟩
  rw [List.map_append]
  exact attempts_append _ _ _ a1 a2

theorem do_load_attempt {σ : Type} (L : platform_loader σ) (s : shared_library_impl.state σ)
    (file : fs.path) (mode : Nat) :
    load_attempts s (do_load L s file mode).calls (do_load L s file mode).handle_ :=
  ⟨[.LoadLibraryExW file mode (L.LoadLibraryExW s.world file mode).1], rfl, by simp, by
    simp only [List.map, native_call.event, attempts]
    rfl⟩

theorem load_impl_attempt {σ : Type} (L : platform_loader σ) (s : shared_library_impl.state σ)
    (load_path : fs.path) (mode : Nat) (ec : fs.error_code) :
    load_attempts s (load_impl L s load_path mode ec).self.calls
      (load_impl L s load_path mode ec).self.handle_ ∧
    ((load_impl L s load_path mode ec).last = false →
      (load_impl L s load_path mode ec).self.handle_ = 0) ∧
    ((load_impl L s load_path mode ec).raised = true →
      (load_impl L s load_path mode ec).self.handle_ = 0) := by
  unfold load_impl
  dsimp only
  split
  next h1 => exact ⟨do_load_attempt L s _ _, by simp, by simp⟩
  next h1 =>
    have h0 : (do_load L s load_path mode).handle_ = 0 := by
      by_contra hc; exact h1 hc
    split
    · exact ⟨do_load_attempt L s _ _, fun _ => h0, fun _ => h0⟩
    · exact ⟨do_load_attempt L s _ _, fun _ => h0, fun _ => h0⟩
    · exact ⟨do_load_attempt L s _ _, fun _ => h0, fun _ => h0⟩

theorem load_direct_attempt {σ : Type} (L : platform_loader σ) (P : path_ops)
    (s : shared_library_impl.state σ) (sl : fs.path) (native_mode : Nat)
    (ec : fs.error_code) :
    load_attempts s (load_direct L P s sl native_mode ec).self.calls
      (load_direct L P s sl native_mode ec).self.handle_ := by
  unfold load_direct
  dsimp only
  split <;> split <;> exact do_load_attempt L s _ _

theorem load_decorated_attempt {σ : Type} (L : platform_loader σ) (P : path_ops)
    (s : shared_library_impl.state σ) (sl : fs.path) (native_mode : Nat)
    (ec : fs.error_code) :
    load_attempts s (shared_library_impl.load_decorated L P s sl native_mode ec).self.calls
      (shared_library_impl.load_decorated L P s sl native_mode ec).self.handle_ := by
  unfold shared_library_impl.load_decorated
  dsimp only
  generalize (if P.has_parent_path sl then P.append (P.parent_path sl) "lib".toList
      else "lib".toList) ++ P.filename sl ++ shared_library_impl.suffix = mingw_load_path
  generalize midll.shared_library_impl.clear_flag native_mode load_mode.append_decorations = m
  have a1 := load_impl_attempt L s (decorate sl) m ec
  generalize load_impl L s (decorate sl) m ec = first at a1 ⊢
  by_cases hr : first.raised = true
  · rw [if_pos hr]; exact a1.1
  rw [if_neg hr]
  by_cases hl : first.last = true
  · rw [if_pos hl]; exact a1.1
  rw [if_neg hl]
  have h0 := a1.2.1 (by simpa using hl)
  have t1 : load_attempts s first.self.calls 0 := by
    rw [← h0]; exact a1.1
  have a2 := load_impl_attempt L first.self mingw_load_path m first.ec
  generalize load_impl L first.self mingw_load_path m first.ec = second at a2 ⊢
  by_cases hr2 : second.raised = true
  · rw [if_pos hr2]; exact load_attempts_chain s _ _ _ t1 a2.1
  rw [if_neg hr2]
  by_cases hl2 : second.last = true
  · rw [if_pos hl2]; exact load_attempts_chain s _ _ _ t1 a2.1
  rw [if_neg hl2]
  have h02 := a2.2.1 (by simpa using hl2)
  refine load_attempts_chain s _ _ _ t1 (load_attempts_chain _ _ _ _ ?_
    (load_direct_attempt L P _ _ _ _))
  rw [← h02]; exact a2.1

theorem free_handle {σ : Type} (L : platform_loader σ) (s : shared_library_impl.state σ) :
    (shared_library_impl.unload L s).handle_ = 0 := by
  unfold shared_library_impl.unload
  by_cases h : s.handle_ = 0 <;> simp [h]

theorem free_calls {σ : Type} (L : platform_loader σ) (s : shared_library_impl.state σ) :
    (shared_library_impl.unload L s).calls
      = s.calls ++ (if s.handle_ = 0 then [] else [.FreeLibrary s.handle_]) := by
  unfold shared_library_impl.unload
  by_cases h : s.handle_ = 0 <;> simp [h]

theorem load_attempts_after_free {σ : Type} (L : platform_loader σ) (P : path_ops)
    (s : shared_library_impl.state σ) (sl : fs.path) (portable_mode : Nat)
    (ec : fs.error_code) :
    load_attempts (shared_library_impl.unload L s)
      (shared_library_impl.load L P s sl portable_mode ec).self.calls
      (shared_library_impl.load L P s sl portable_mode ec).self.handle_ := by
  unfold shared_library_impl.load
  dsimp only
  have key : ∀ (fixed : fs.path × shared_library_impl.state σ) (o : shared_library_impl.outcome σ),
      fixed.2.calls = (shared_library_impl.unload L s).calls →
      load_attempts fixed.2 o.self.calls o.self.handle_ →
      load_attempts (shared_library_impl.unload L s) o.self.calls o.self.handle_ := by
    intro fixed o hc ⟨new, hn, hne, ha⟩
    exact ⟨new, by rw [hn, hc], hne, ha⟩
  split
  · apply key _ _ ?_ (load_decorated_attempt L P _ _ _ _)
    split <;> [split; skip] <;> rfl
  · apply key _ _ ?_ (load_direct_attempt L P _ _ _ _)
    split <;> [split; skip] <;> rfl

end windows

theorem pre_attempts_discipline (h0 h : native_handle_t) (att : List loader_event)
    (ha : attempts h att) :
    owns_at_most_one h0 ((if h0 = 0 then [] else [loader_event.unload h0]) ++ att) ∧
    handle_after h0 ((if h0 = 0 then [] else [loader_event.unload h0]) ++ att) = h ∧
    stored_handles ((if h0 = 0 then [] else [loader_event.unload h0]) ++ att) ≤ 1 := by
  obtain ⟨h1, h2, h3⟩ := attempts_discipline h att ha
  by_cases hz : h0 = 0
  · subst hz
    simpa using ⟨h1, h2, h3⟩
  · simp only [hz, ↓reduceIte, List.singleton_append, owns_at_most_one, handle_after,
      stored_handles, ne_eq, not_false_eq_true, true_and]
    exact ⟨h1, h2, h3⟩

/-- Claim C11. In every execution of `load`, on POSIX and on Windows, whatever handle the
object held and whatever the platform answers, the loader calls it makes obey the
discipline "at most one native reference": the platform's load is called only while the
stored handle is null, a non-null handle is replaced only after it was passed to the native
unload, at most one of the attempts of the call returned (and so stored) a non-null handle,
and the handle stored on exit is the result of the last call. -/
theorem load_owns_at_most_one {σ τ : Type} (L : platform_loader σ) (plat : Platform)
    (dl : dlfcn) (s : state σ) (sl : fs.path) (mode : Nat) (ec : fs.error_code)
    (LW : windows.platform_loader τ) (P : windows.path_ops)
    (sw : windows.shared_library_impl.state τ) (slw : fs.path) (modew : Nat)
    (ecw : fs.error_code) :
    (∃ new, (load L plat dl s sl mode ec).self.calls = s.calls ++ new ∧
      owns_at_most_one s.handle_ (new.map native_call.event) ∧
      handle_after s.handle_ (new.map native_call.event)
        = (load L plat dl s sl mode ec).self.handle_ ∧
      stored_handles (new.map native_call.event) ≤ 1) ∧
    (∃ new, (windows.shared_library_impl.load LW P sw slw modew ecw).self.calls
        = sw.calls ++ new ∧
      owns_at_most_one sw.handle_ (new.map windows.native_call.event) ∧
      handle_after sw.handle_ (new.map windows.native_call.event)
        = (windows.shared_library_impl.load LW P sw slw modew ecw).self.handle_ ∧
      stored_handles (new.map windows.native_call.event) ≤ 1) := by
  constructor
  · obtain ⟨att, hc, ha⟩ := load_attempts_after_unload L plat dl s sl mode ec
    have hd := pre_attempts_discipline s.handle_ _ _ ha
    refine ⟨(if s.handle_ = 0 then [] else [.dlclose s.handle_]) ++ att, ?_, ?_⟩
    · rw [hc, unload_calls, List.append_assoc]
    · by_cases hz : s.handle_ = 0
      · simpa [hz] using hd
      · simpa [hz, native_call.event] using hd
  · obtain ⟨att, hc, _, ha⟩ := windows.load_attempts_after_free LW P sw slw modew ecw
    have hd := pre_attempts_discipline sw.handle_ _ _ ha
    refine ⟨(if sw.handle_ = 0 then [] else [.FreeLibrary sw.handle_]) ++ att, ?_, ?_⟩
    · rw [hc, windows.free_calls, List.append_assoc]
    · by_cases hz : sw.handle_ = 0
      · simpa [hz] using hd
      · simpa [hz, windows.native_call.event] using hd

/-- Claim C12. `unload` is total and idempotent: from a loaded handle it calls the native
unload exactly once, with the stored handle, and leaves the handle empty; from an empty
handle it calls nothing and changes nothing; after it `is_loaded()` is false; and a second
`unload` has no further effect. -/
theorem unload_idempotent {σ : Type} (L : platform_loader σ) (s : state σ) :
    (shared_library.is_loaded s = true →
      shared_library.unload L s
        = ⟨0, L.dlclose s.world s.handle_, s.calls ++ [.dlclose s.handle_]⟩) ∧
    (shared_library.is_loaded s = false → shared_library.unload L s = s) ∧
    shared_library.is_loaded (shared_library.unload L s) = false ∧
    shared_library.unload L (shared_library.unload L s) = shared_library.unload L s := by
  unfold shared_library.unload shared_library.is_loaded
  refine ⟨?_, ?_, ?_, ?_⟩
  · intro h
    simp [unload, h]
  · intro h
    simp [unload, h]
  · simp [is_loaded, unload_handle]
  · have h0 : is_loaded (unload L s) = false := by simp [is_loaded, unload_handle]
    have key : ∀ t : state σ, is_loaded t = false → unload L t = t := by
      intro t ht
      simp [unload, ht]
    exact key _ h0

/-- Witness of C12: a handle that holds 42 is unloaded with one call of `dlclose`. -/
theorem unload_idempotent_witness :
    shared_library.is_loaded (⟨42, (), []⟩ : state Unit) = true ∧
    shared_library.unload samples.demo_loader ⟨42, (), []⟩ = ⟨0, (), [.dlclose 42]⟩ :=
  ⟨rfl, (unload_idempotent samples.demo_loader ⟨42, (), []⟩).1 rfl⟩

namespace windows

open windows.shared_library_impl

theorem load_consults_loader {σ : Type} (L : platform_loader σ) (P : path_ops)
    (s : shared_library_impl.state σ) (sl : fs.path) (portable_mode : Nat)
    (ec : fs.error_code) :
    ∃ file m r rest, (shared_library_impl.load L P s sl portable_mode ec).self.calls
      = s.calls ++ (if s.handle_ = 0 then [] else [.FreeLibrary s.handle_])
          ++ .LoadLibraryExW file m r :: rest := by
  obtain ⟨att, hc, hne, ha⟩ := load_attempts_after_free L P s sl portable_mode ec
  cases att with
  | nil => exact absurd rfl hne
  | cons c rest =>
    cases c with
    | FreeLibrary h => simp [native_call.event, attempts] at ha
    | LoadLibraryExW file m r =>
      exact ⟨file, m, r, rest, by rw [hc, free_calls]⟩

end windows

/-- Claim C13, refuted as stated: on Windows `load` has no test for the empty path. With
the working directory "C:\\work", an empty path is passed on to `LoadLibraryExW` as
"C:\\work\\.": the platform loader is consulted. -/
theorem windows_empty_path_reaches_loader :
    (windows.shared_library_load samples.windows_demo_loader samples.windows_paths
        ⟨0, (), []⟩ [] none 0).self.calls
      = [.LoadLibraryExW "C:\\work\\.".toList 0 0] :=
  rfl

/-- Claim C13, amended. On POSIX, whatever the handle held and whatever the mode, `load`
with an empty path returns with `ec` set to `bad_file_descriptor` and the handle empty, and
makes no call of `dlopen`: the only call is the unload of the handle held before. On
Windows there is no such test: whatever the handle held, `load` with an empty path calls
`LoadLibraryExW` after the unload. -/
theorem load_empty_path {σ τ : Type} (L : platform_loader σ) (plat : Platform) (dl : dlfcn)
    (s : state σ) (ec : fs.error_code) (mode : Nat)
    (LW : windows.platform_loader τ) (P : windows.path_ops)
    (sw : windows.shared_library_impl.state τ) (ecw : fs.error_code) (modew : Nat) :
    ((shared_library.load L plat dl s [] ec mode).raised = false ∧
      (shared_library.load L plat dl s [] ec mode).ec = some .bad_file_descriptor ∧
      shared_library.is_loaded (shared_library.load L plat dl s [] ec mode).self = false ∧
      (shared_library.load L plat dl s [] ec mode).self.calls
        = s.calls ++ (if s.handle_ = 0 then [] else [.dlclose s.handle_])) ∧
    (∃ file m r rest, (windows.shared_library_load LW P sw [] ecw modew).self.calls
      = sw.calls ++ (if sw.handle_ = 0 then [] else [.FreeLibrary sw.handle_])
          ++ .LoadLibraryExW file m r :: rest) := by
  constructor
  · unfold shared_library.load shared_library.is_loaded load
    simp [fs.path.empty, reset_dlerror, is_loaded, unload_handle, unload_calls]
  · exact windows.load_consults_loader LW P sw [] modew (fs.error_code.clear ecw)

/-! ## `decorate` -/

theorem append_lib (d f : fs.path) :
    fs.path.append d "lib".toList ++ f = fs.path.append d ("lib".toList ++ f) := by
  have h1 : fs.path.is_absolute "lib".toList = false := by decide
  have h2 : fs.path.is_absolute ("lib".toList ++ f) = false := by
    simp [fs.path.is_absolute]
  unfold fs.path.append
  rw [h1, h2]
  simp only [Bool.false_eq_true, ↓reduceIte]
  split <;> simp [List.append_assoc]

theorem append_empty_left (q : fs.path) (h : fs.path.is_absolute q = false) :
    fs.path.append [] q = q := by
  unfold fs.path.append
  rw [h]
  simp [fs.path.has_filename, fs.path.filename]

/-- Claim C14. `shared_library::decorate` equals its documented definition for every
path `p`: on POSIX it is `p` followed by the suffix when the file name of `p` begins with
"lib", and else the file name with "lib" put before it, in the directory of `p`, followed
by the suffix, which is ".so" or ".dylib" and is appended once; so "path/to/boost" becomes
"path/to/libboost.so" (".dylib" on macOS), in the same directory, and "path/to/libboost"
becomes "path/to/libboost.so". On Windows it is `p` followed by ".dll", without "lib". -/
theorem decorate_spec (plat : Platform) (p : fs.path) :
    shared_library.decorate plat p = decorated_stem p ++ shared_library_impl.suffix plat ∧
    (shared_library_impl.suffix plat = ".so".toList ∨
      shared_library_impl.suffix plat = ".dylib".toList) ∧
    shared_library.decorate samples.linux_x86_64 "path/to/boost".toList
      = "path/to/libboost.so".toList ∧
    shared_library.decorate samples.macos64 "path/to/boost".toList
      = "path/to/libboost.dylib".toList ∧
    shared_library.decorate samples.linux_x86_64 "path/to/libboost".toList
      = "path/to/libboost.so".toList ∧
    fs.path.parent_path (shared_library.decorate samples.linux_x86_64 "path/to/boost".toList)
      = fs.path.parent_path "path/to/boost".toList ∧
    windows.shared_library_decorate p = p ++ ".dll".toList ∧
    windows.shared_library_decorate "path/to/boost".toList = "path/to/boost.dll".toList := by
  refine ⟨?_, ?_, by decide, by decide, by decide, by decide, rfl, by decide⟩
  · unfold shared_library.decorate shared_library_impl.decorate decorated_stem
    dsimp only
    by_cases hl : (fs.path.filename p).take 3 = "lib".toList
    · simp [hl]
    · simp only [hl, ne_eq, not_false_eq_true, ↓reduceIte]
      congr 1
      by_cases hp : fs.path.has_parent_path p = true
      · simp only [hp, ↓reduceIte]
        exact append_lib _ _
      · simp only [hp, Bool.false_eq_true, ↓reduceIte]
        have he : fs.path.parent_path p = [] := by
          simpa [fs.path.has_parent_path] using hp
        rw [he, append_empty_left _ (by simp [fs.path.is_absolute])]
  · unfold shared_library_impl.suffix
    split
    · right; rfl
    · left; rfl

/-! ## Typed access to symbols -/

theorem has_eq {σ : Type} (L : platform_loader σ) (s : state σ) (name : List Char) :
    (shared_library.has L s name).1
      = (is_loaded s && (L.dlsym s.world s.handle_ name).1 != 0) := by
  unfold shared_library.has symbol_addr
  dsimp only
  by_cases hl : is_loaded s = true
  · by_cases h0 : (L.dlsym s.world s.handle_ name).1 = 0
    · simp [hl, h0]
    · simp [hl, h0]
  · simp [hl]

theorem get_void_eq {σ : Type} (L : platform_loader σ) (s : state σ) (name : List Char) :
    (shared_library.get_void L s name).1
      = (if is_loaded s = true then
           (if (L.dlsym s.world s.handle_ name).1 = 0 then
              .error ⟨some .invalid_seek⟩
            else .ok (L.dlsym s.world s.handle_ name).1)
         else .error ⟨some .bad_file_descriptor⟩) := by
  unfold shared_library.get_void symbol_addr shared_library.report_error
  dsimp only
  by_cases hl : is_loaded s = true
  · by_cases h0 : (L.dlsym s.world s.handle_ name).1 = 0
    · simp [hl, h0]
    · simp [hl, h0]
  · simp [hl]

theorem get_fst {σ : Type} (L : platform_loader σ) (mem : memory) (s : state σ)
    (T : type_kind) (name : List Char) :
    (shared_library.get L mem s T name).1
      = match (shared_library.get_void L s name).1 with
        | .error e => .error e
        | .ok v =>
          match T with
          | .ordinary => .ok (.lvalue (aggressive_ptr_cast_pointer v))
          | .reference => .ok (aggressive_ptr_cast_reference mem v)
          | .member_pointer => .ok (aggressive_ptr_cast_member_pointer v) := by
  unfold shared_library.get
  rcases hg : shared_library.get_void L s name with ⟨r, s'⟩
  cases r with
  | error e => rfl
  | ok v => cases T <;> rfl

/-- Claim C15. For every handle and symbol name, `has(name)` is true exactly when the
handle is loaded and `dlsym` returns a non-null address; on an empty handle it is false
and nothing is looked up (the state is unchanged); `has` is a total function, it never
raises; `get<T>(name)` raises a `system_error` exactly when `has(name)` is false; and when
`has(name)` is true, `get_void` returns the address `dlsym` returned and `get` is the
object at that address. -/
theorem has_iff_get_succeeds {σ : Type} (L : platform_loader σ) (mem : memory) (s : state σ)
    (T : type_kind) (name : List Char) :
    ((shared_library.has L s name).1 = true ↔
      shared_library.is_loaded s = true ∧ (L.dlsym s.world s.handle_ name).1 ≠ 0) ∧
    (shared_library.is_loaded s = false → shared_library.has L s name = (false, s)) ∧
    ((∃ e, (shared_library.get L mem s T name).1 = .error e) ↔
      (shared_library.has L s name).1 = false) ∧
    ((shared_library.has L s name).1 = true →
      (shared_library.get_void L s name).1 = .ok (L.dlsym s.world s.handle_ name).1 ∧
      (shared_library.get L mem s .ordinary name).1
        = .ok (.lvalue (L.dlsym s.world s.handle_ name).1)) := by
  have hh := has_eq L s name
  have hv := get_void_eq L s name
  have hg := get_fst L mem s T name
  have hgo := get_fst L mem s .ordinary name
  unfold shared_library.is_loaded
  refine ⟨?_, ?_, ?_, ?_⟩
  · rw [hh]; simp
  · intro hl
    unfold shared_library.has
    simp [hl]
  · rw [hg, hv, hh]
    by_cases hl : is_loaded s = true
    · by_cases h0 : (L.dlsym s.world s.handle_ name).1 = 0
      · simp [hl, h0]
      · cases T <;> simp [hl, h0]
    · simp [hl]
  · intro ht
    rw [hh] at ht
    simp only [Bool.and_eq_true, bne_iff_ne, ne_eq] at ht
    rw [hgo, hv]
    simp [ht.1, ht.2, aggressive_ptr_cast_pointer]

/-- Witness of C15: the symbol "answer" of the library with handle 42. -/
theorem has_iff_get_succeeds_witness :
    (shared_library.has samples.demo_loader (⟨42, (), []⟩ : state Unit) "answer".toList).1
      = true ∧
    (shared_library.get_void samples.demo_loader (⟨42, (), []⟩ : state Unit)
        "answer".toList).1 = .ok 1000 ∧
    (shared_library.get samples.demo_loader samples.alias_memory (⟨42, (), []⟩ : state Unit)
        .ordinary "answer".toList).1 = .ok (.lvalue 1000) :=
  ⟨rfl,
   (has_iff_get_succeeds samples.demo_loader samples.alias_memory ⟨42, (), []⟩ .ordinary
     "answer".toList).2.2.2 rfl⟩

theorem get_alias_fst {σ : Type} (L : platform_loader σ) (mem : memory) (s : state σ)
    (name : List Char) :
    (shared_library.get_alias L mem s name).1
      = match (shared_library.get L mem s .ordinary name).1 with
        | .error e => .error e
        | .ok x => .ok (symbol_value.deref mem x) := by
  unfold shared_library.get_alias
  rcases hg : shared_library.get L mem s .ordinary name with ⟨r, s'⟩
  cases r <;> rfl

/-- Claim C16. Over a memory in which the alias symbol `N` (at address `aN`) holds a
pointer whose value is the address `aX` of the object `X`, `get_alias<T>(N)` is
`*get<T*>(N)` and denotes `X` itself, the same object as `get<T>(X)`: it reads the current
value of `X`, and after a write of any value `v` to that object (through either of the two
references, which are the same lvalue) `get_alias<T>(N)` still denotes `X` and reads
`v`. -/
theorem get_alias_denotes_aliased_object {σ : Type} (L : platform_loader σ) (mem : memory)
    (sN sX : state σ) (N X : List Char) (aN aX : Nat)
    (hN_loaded : shared_library.is_loaded sN = true)
    (hX_loaded : shared_library.is_loaded sX = true)
    (hN : (L.dlsym sN.world sN.handle_ N).1 = aN) (hX : (L.dlsym sX.world sX.handle_ X).1 = aX)
    (haN : aN ≠ 0) (haX : aX ≠ 0) (hdistinct : aN ≠ aX)
    (halias : mem aN = aX) :
    (shared_library.get_alias L mem sN N).1
      = (shared_library.get L mem sN .ordinary N).1.map (symbol_value.deref mem) ∧
    (shared_library.get_alias L mem sN N).1 = .ok (.lvalue aX) ∧
    (shared_library.get L mem sX .ordinary X).1 = .ok (.lvalue aX) ∧
    symbol_value.read mem (.lvalue aX) = mem aX ∧
    (∀ v, (shared_library.get_alias L (mem.write aX v) sN N).1 = .ok (.lvalue aX) ∧
      symbol_value.read (mem.write aX v) (.lvalue aX) = v) := by
  have hgN := get_fst L mem sN .ordinary N
  have hvN := get_void_eq L sN N
  have hgX := get_fst L mem sX .ordinary X
  have hvX := get_void_eq L sX X
  unfold shared_library.is_loaded at hN_loaded hX_loaded
  rw [hN_loaded, hN] at hvN
  rw [hX_loaded, hX] at hvX
  simp only [↓reduceIte, haN, haX] at hvN hvX
  rw [hvN] at hgN
  rw [hvX] at hgX
  simp only [aggressive_ptr_cast_pointer] at hgN hgX
  refine ⟨?_, ?_, hgX, rfl, ?_⟩
  · rw [get_alias_fst, hgN]; rfl
  · rw [get_alias_fst, hgN]
    simp [symbol_value.deref, halias]
  · intro v
    have hg' := get_fst L (mem.write aX v) sN .ordinary N
    rw [hvN] at hg'
    simp only [aggressive_ptr_cast_pointer] at hg'
    constructor
    · rw [get_alias_fst, hg']
      simp [symbol_value.deref, memory.write, hdistinct, halias]
    · simp [symbol_value.read, memory.write]

/-- Witness of C16: in `alias_memory` the symbol "answer_alias" at address 2000 holds the
address 1000 of the symbol "answer". -/
theorem get_alias_denotes_aliased_object_witness :
    (shared_library.get_alias samples.demo_loader samples.alias_memory
        (⟨42, (), []⟩ : state Unit) "answer_alias".toList).1 = .ok (.lvalue 1000) ∧
    (shared_library.get samples.demo_loader samples.alias_memory
        (⟨42, (), []⟩ : state Unit) .ordinary "answer".toList).1 = .ok (.lvalue 1000) :=
  ⟨(get_alias_denotes_aliased_object samples.demo_loader samples.alias_memory
      ⟨42, (), []⟩ ⟨42, (), []⟩ "answer_alias".toList "answer".toList 2000 1000
      rfl rfl rfl rfl (by decide) (by decide) (by decide) rfl).2.1,
   (get_alias_denotes_aliased_object samples.demo_loader samples.alias_memory
      ⟨42, (), []⟩ ⟨42, (), []⟩ "answer_alias".toList "answer".toList 2000 1000
      rfl rfl rfl rfl (by decide) (by decide) (by decide) rfl).2.2.1⟩

/-- Claim C17, refuted as stated: for `T` a pointer-to-member type, `get<T>("answer")` on
the library with handle 42, whose symbol "answer" lies at address 1000, is the member
pointer made of the bits of the address 1000, while the memory at that address holds
7. -/
theorem get_member_pointer_ignores_memory :
    (shared_library.get samples.demo_loader (fun _ => 7) ⟨42, (), []⟩ .member_pointer
        "answer".toList).1 = .ok (.member_pointer 1000) ∧
    (fun _ => 7 : memory) 1000 = 7 :=
  ⟨rfl, rfl⟩

/-- Claim C17, amended. On a loaded handle and for a name that `dlsym` finds: for `T` a
pointer-to-member type, `get<T>(name)` is the member pointer whose bits are those of the
address of the symbol itself, whatever the memory holds; only for `T` a reference type
does `get<T>(name)` go through the pointer stored at the address of the symbol. -/
theorem get_member_pointer_from_address {σ : Type} (L : platform_loader σ) (mem : memory)
    (s : state σ) (name : List Char)
    (hloaded : shared_library.is_loaded s = true)
    (hfound : (L.dlsym s.world s.handle_ name).1 ≠ 0) :
    (shared_library.get L mem s .member_pointer name).1
      = .ok (.member_pointer (L.dlsym s.world s.handle_ name).1) ∧
    (shared_library.get L mem s .reference name).1
      = .ok (.lvalue (mem (L.dlsym s.world s.handle_ name).1)) := by
  have hv := get_void_eq L s name
  unfold shared_library.is_loaded at hloaded
  rw [hloaded] at hv
  simp only [↓reduceIte, hfound] at hv
  constructor
  · rw [get_fst, hv]; rfl
  · rw [get_fst, hv]; rfl

/-- Witness of C17: the symbol "answer" at address 1000, in a memory that holds 7
everywhere. -/
theorem get_member_pointer_from_address_witness :
    (shared_library.get samples.demo_loader (fun _ => 7) (⟨42, (), []⟩ : state Unit)
        .member_pointer "answer".toList).1 = .ok (.member_pointer 1000) ∧
    (shared_library.get samples.demo_loader (fun _ => 7) (⟨42, (), []⟩ : state Unit)
        .reference "answer".toList).1 = .ok (.lvalue 7) :=
  get_member_pointer_from_address samples.demo_loader (fun _ => 7) ⟨42, (), []⟩
    "answer".toList rfl (by decide)

/-! ## Assignment of handles -/

/-- Claim C18 (defect in the code). Move assignment swaps the two handles and calls
nothing: after `a = std::move(b)` with `a` holding the handle 1 and `b` the handle 2, `a`
holds 2, and `b` holds 1 and is still loaded; the library `a` held before has not been
unloaded (no loader call was logged). The documentation of the operator has
`lib.is_loaded()` false afterwards and `this->unload()` called. -/
theorem move_assign_leaves_source_loaded :
    shared_library.move_assign (⟨1, (), []⟩ : state Unit) ⟨2, (), []⟩
      = (⟨2, (), []⟩, ⟨1, (), []⟩) ∧
    shared_library.is_loaded
      (shared_library.move_assign (⟨1, (), []⟩ : state Unit) ⟨2, (), []⟩).2 = true ∧
    (shared_library.move_assign (⟨1, (), []⟩ : state Unit) ⟨2, (), []⟩).1.calls = [] ∧
    (shared_library.move_assign (⟨1, (), []⟩ : state Unit) ⟨2, (), []⟩).2.calls = [] :=
  ⟨rfl, rfl, rfl, rfl⟩

theorem fresh_load_post {σ : Type} (L : platform_loader σ) (plat : Platform) (dl : dlfcn)
    (w : σ) (calls : List native_call) (p : fs.path) (ec : fs.error_code) (mode : Nat) :
    load_post ⟨0, w, calls⟩ (shared_library.load L plat dl ⟨0, w, calls⟩ p ec mode) := by
  have h := load_post_unload L plat dl ⟨0, w, calls⟩ p mode
  have hu : unload L (⟨0, w, calls⟩ : state σ) = ⟨0, w, calls⟩ := by
    simp [unload, is_loaded]
  rw [hu] at h
  exact h

/-- Claim C19. `assign(lib, ec)`, where the library `lib` holds the handle `lib` and is
only read (it is passed by value here, the source takes it by reference to const): when
`*this` holds the same handle nothing changes; when `lib` is empty, `*this` is unloaded
and no load is attempted; otherwise the full module path of `lib` is queried, and when
that query and the load of the path by a new object with the default mode succeed, `*this`
stores the handle of that load and the library it held before is unloaded after the load.
Whenever `ec` is set on return `*this` holds the handle it held before, and whenever
`assign` returns with `ec` clear `this->is_loaded()` equals `lib.is_loaded()`. -/
theorem assign_spec {σ : Type} (L : platform_loader σ) (plat : Platform) (dl : dlfcn)
    (s : state σ) (lib : native_handle_t) (ec : fs.error_code) :
    (s.handle_ = lib → shared_library.assign L plat dl s lib ec = ⟨s, none, false⟩) ∧
    (s.handle_ ≠ lib → lib = 0 →
      shared_library.assign L plat dl s lib ec = ⟨shared_library.unload L s, none, false⟩ ∧
      (shared_library.assign L plat dl s lib ec).self.calls
        = s.calls ++ [.dlclose s.handle_]) ∧
    (s.handle_ ≠ lib → lib ≠ 0 →
      (shared_library.location L lib s.world).1.2 = none →
      (shared_library.load L plat dl ⟨0, (shared_library.location L lib s.world).2, s.calls⟩
        (shared_library.location L lib s.world).1.1 none shared_library.default_mode).raised
        = false →
      (shared_library.load L plat dl ⟨0, (shared_library.location L lib s.world).2, s.calls⟩
        (shared_library.location L lib s.world).1.1 none shared_library.default_mode).ec
        = none →
      (shared_library.assign L plat dl s lib ec).self.handle_
        = (shared_library.load L plat dl
            ⟨0, (shared_library.location L lib s.world).2, s.calls⟩
            (shared_library.location L lib s.world).1.1 none
            shared_library.default_mode).self.handle_ ∧
      (shared_library.assign L plat dl s lib ec).self.calls
        = (shared_library.load L plat dl
            ⟨0, (shared_library.location L lib s.world).2, s.calls⟩
            (shared_library.location L lib s.world).1.1 none
            shared_library.default_mode).self.calls
          ++ (if s.handle_ = 0 then [] else [.dlclose s.handle_]) ∧
      (shared_library.assign L plat dl s lib ec).ec = none) ∧
    ((shared_library.assign L plat dl s lib ec).ec ≠ none →
      (shared_library.assign L plat dl s lib ec).self.handle_ = s.handle_) ∧
    ((shared_library.assign L plat dl s lib ec).raised = false →
      (shared_library.assign L plat dl s lib ec).ec = none →
      shared_library.is_loaded (shared_library.assign L plat dl s lib ec).self
        = (lib != 0)) := by
  have hpost := fresh_load_post L plat dl (shared_library.location L lib s.world).2 s.calls
    (shared_library.location L lib s.world).1.1 (shared_library.location L lib s.world).1.2
    shared_library.default_mode
  have hnone : ∀ e : fs.error_code,
      shared_library.load L plat dl ⟨0, (shared_library.location L lib s.world).2, s.calls⟩
        (shared_library.location L lib s.world).1.1 e shared_library.default_mode
      = shared_library.load L plat dl ⟨0, (shared_library.location L lib s.world).2, s.calls⟩
        (shared_library.location L lib s.world).1.1 none shared_library.default_mode := by
    intro e; rfl
  rw [hnone] at hpost
  generalize hcopy : shared_library.load L plat dl
    ⟨0, (shared_library.location L lib s.world).2, s.calls⟩
    (shared_library.location L lib s.world).1.1 none shared_library.default_mode = copy
    at hpost
  have hassign : shared_library.assign L plat dl s lib ec =
      (if s.handle_ = lib then ⟨s, none, false⟩
       else if lib = 0 then ⟨shared_library.unload L s, none, false⟩
       else if (shared_library.location L lib s.world).1.2.isSome = true then
         ⟨{ s with world := (shared_library.location L lib s.world).2 },
          (shared_library.location L lib s.world).1.2, false⟩
       else if copy.raised = true then
         ⟨{ s with world := (shared_library.destroy L copy.self).world,
                   calls := (shared_library.destroy L copy.self).calls }, copy.ec, true⟩
       else if copy.ec.isSome = true then
         ⟨{ s with world := (shared_library.destroy L copy.self).world,
                   calls := (shared_library.destroy L copy.self).calls }, copy.ec, false⟩
       else
         ⟨{ handle_ := copy.self.handle_,
            world := (shared_library.destroy L
              { copy.self with handle_ := s.handle_ }).world,
            calls := (shared_library.destroy L
              { copy.self with handle_ := s.handle_ }).calls }, copy.ec, false⟩) := by
    rw [← hcopy]
    rfl
  rw [hassign]
  obtain ⟨hp1, hp2, hp3⟩ := hpost
  by_cases h1 : s.handle_ = lib
  · rw [if_pos h1]
    refine ⟨fun _ => rfl, fun h => absurd h1 h, fun h => absurd h1 h, fun h => absurd rfl h,
      fun _ _ => ?_⟩
    show shared_library_impl.is_loaded s = (lib != 0)
    simp [shared_library_impl.is_loaded, h1]
  · rw [if_neg h1]
    by_cases h2 : lib = 0
    · rw [if_pos h2]
      have hs : s.handle_ ≠ 0 := fun h => h1 (h.trans h2.symm)
      refine ⟨fun h => absurd h h1, fun _ _ => ⟨rfl, ?_⟩, fun _ h => absurd h2 h,
        fun h => absurd rfl h, fun _ _ => ?_⟩
      · simp [shared_library.unload, unload, is_loaded, hs]
      · simp [shared_library.unload, shared_library.is_loaded, unload, is_loaded, hs, h2]
    · rw [if_neg h2]
      refine ⟨fun h => absurd h h1, fun _ h => absurd h h2, ?_, ?_, ?_⟩
      · intro _ _ hloc hr he
        have hloc2 : ¬ ((shared_library.location L lib s.world).1.2.isSome = true) := by
          rw [hloc]; simp
        have hr2 : ¬ (copy.raised = true) := by rw [hr]; simp
        have he2 : ¬ (copy.ec.isSome = true) := by rw [he]; simp
        rw [if_neg hloc2, if_neg hr2, if_neg he2]
        refine ⟨rfl, ?_, he⟩
        by_cases hs : s.handle_ = 0
        · simp [shared_library.destroy, unload, is_loaded, hs]
        · simp [shared_library.destroy, unload, is_loaded, hs]
      · intro hne
        split_ifs at hne ⊢ <;> first | rfl | (exfalso; apply hne; simp_all)
      · intro hr he
        split_ifs at hr he ⊢ with c1 c2 c3
        · simp_all
        · simp_all
        · have hh : copy.self.handle_ ≠ 0 := (hp1 (by simpa using c2)).2 he
          show (copy.self.handle_ != 0) = (lib != 0)
          rw [show (copy.self.handle_ != 0) = true from by simpa using hh,
            show (lib != 0) = true from by simpa using h2]


/-- Witness of C19: a handle that holds 7 is assigned the library with handle 42, whose
path is "./libdemo.so": the path is loaded anew, then the handle 7 is unloaded. -/
theorem assign_spec_witness :
    (shared_library.assign samples.demo_loader samples.linux_x86_64 samples.glibc
        (⟨7, (), []⟩ : state Unit) 42 none).self.handle_ = 42 ∧
    (shared_library.assign samples.demo_loader samples.linux_x86_64 samples.glibc
        (⟨7, (), []⟩ : state Unit) 42 none).self.calls
      = [.dlopen (some "./libdemo.so".toList) 1 42, .dlclose 7] ∧
    (shared_library.assign samples.demo_loader samples.linux_x86_64 samples.glibc
        (⟨7, (), []⟩ : state Unit) 42 none).ec = none :=
  (assign_spec samples.demo_loader samples.linux_x86_64 samples.glibc ⟨7, (), []⟩ 42
    none).2.2.1 (by decide) (by decide) rfl rfl rfl

/-! ## Imported values -/

theorem get_void_frame {σ : Type} (L : platform_loader σ) (s : state σ) (name : List Char) :
    (shared_library.get_void L s name).2.handle_ = s.handle_ ∧
    (shared_library.get_void L s name).2.calls = s.calls ∧
    (∀ v, (shared_library.get_void L s name).1 = .ok v → is_loaded s = true) := by
  unfold shared_library.get_void
  dsimp only
  split
  · refine ⟨rfl, rfl, fun v h => ?_⟩
    simp at h
  · rename_i hl
    split
    · refine ⟨?_, ?_, fun v h => ?_⟩
      · unfold shared_library.report_error symbol_addr; dsimp only; split <;> rfl
      · unfold shared_library.report_error symbol_addr; dsimp only; split <;> rfl
      · simpa using hl
    · refine ⟨?_, ?_, fun v h => ?_⟩
      · unfold symbol_addr; dsimp only; split <;> rfl
      · unfold symbol_addr; dsimp only; split <;> rfl
      · simpa using hl

theorem get_frame {σ : Type} (L : platform_loader σ) (mem : memory) (s : state σ)
    (T : type_kind) (name : List Char) :
    (shared_library.get L mem s T name).2.handle_ = s.handle_ ∧
    (shared_library.get L mem s T name).2.calls = s.calls ∧
    (∀ x, (shared_library.get L mem s T name).1 = .ok x → is_loaded s = true) := by
  have h := get_void_frame L s name
  unfold shared_library.get
  generalize shared_library.get_void L s name = r at h
  obtain ⟨r1, r2⟩ := r
  cases r1 with
  | error e => exact ⟨h.1, h.2.1, fun x hx => by simp at hx⟩
  | ok v =>
    have hl := h.2.2 v rfl
    cases T <;> exact ⟨h.1, h.2.1, fun _ _ => hl⟩

theorem import_symbol_fresh {σ : Type} (L : platform_loader σ) (plat : Platform) (dl : dlfcn)
    (mem : memory) (world : σ) (calls : List native_call) (lib : fs.path)
    (name : List Char) (mode : Nat) (a : Nat)
    (h : (imports.import_symbol L plat dl mem world calls lib name mode).value = .ok a) :
    (imports.fresh_owner (imports.import_symbol L plat dl mem world calls lib name mode).owner) := by
  unfold imports.import_symbol at h ⊢
  dsimp only at h ⊢
  generalize shared_library_impl.load L plat dl ⟨0, world, calls⟩ lib mode none = made at h ⊢
  split_ifs at h ⊢ with c1 c2
  · have hf := get_frame L mem made.self .ordinary name
    generalize shared_library.get L mem made.self .ordinary name = g at h hf ⊢
    obtain ⟨g1, g2⟩ := g
    cases g1 with
    | error e => simp at h
    | ok x =>
      refine ⟨rfl, ?_⟩
      have hl := hf.2.2 x rfl
      show is_loaded g2 = true
      unfold is_loaded at hl ⊢
      rw [show g2.handle_ = made.self.handle_ from hf.1]
      exact hl

theorem import_alias_fresh {σ : Type} (L : platform_loader σ) (plat : Platform) (dl : dlfcn)
    (mem : memory) (world : σ) (calls : List native_call) (lib : fs.path)
    (name : List Char) (mode : Nat) (a : Nat)
    (h : (imports.import_alias L plat dl mem world calls lib name mode).value = .ok a) :
    (imports.fresh_owner (imports.import_alias L plat dl mem world calls lib name mode).owner) := by
  unfold imports.import_alias at h ⊢
  dsimp only at h ⊢
  generalize shared_library_impl.load L plat dl ⟨0, world, calls⟩ lib mode none = made at h ⊢
  split_ifs at h ⊢ with c1 c2
  · have hf := get_frame L mem made.self .ordinary name
    generalize shared_library.get L mem made.self .ordinary name = g at h hf ⊢
    obtain ⟨g1, g2⟩ := g
    cases g1 with
    | error e => simp at h
    | ok x =>
      refine ⟨rfl, ?_⟩
      have hl := hf.2.2 x rfl
      show is_loaded g2 = true
      unfold is_loaded at hl ⊢
      rw [show g2.handle_ = made.self.handle_ from hf.1]
      exact hl

theorem step_copy {σ : Type} (L : platform_loader σ) (o : imports.owner σ) :
    (imports.owner.step L o .copy)
      = if o.use_count = 0 then o else { o with use_count := o.use_count + 1 } := rfl

theorem step_destroy {σ : Type} (L : platform_loader σ) (o : imports.owner σ) :
    (imports.owner.step L o .destroy)
      = if o.use_count = 0 then o
        else if o.use_count = 1 then ⟨shared_library.destroy L o.lib, 0⟩
        else { o with use_count := o.use_count - 1 } := rfl

theorem kept_step {σ : Type} (L : platform_loader σ) (l0 : state σ) (o : imports.owner σ)
    (op : imports.token_op) (h : imports.kept L l0 o) :
    (imports.kept L l0 (imports.owner.step L o op)) := by
  rcases h with ⟨hpos, hl⟩ | ⟨hz, hl⟩
  · cases op with
    | copy =>
      left
      rw [step_copy, if_neg (by omega)]
      exact ⟨Nat.succ_pos _, hl⟩
    | destroy =>
      rw [step_destroy, if_neg (by omega)]
      by_cases h1 : o.use_count = 1
      · rw [if_pos h1]
        right
        exact ⟨rfl, by rw [hl]⟩
      · rw [if_neg h1]
        left
        exact ⟨by show 0 < o.use_count - 1; omega, hl⟩
  · right
    cases op
    · rw [step_copy, if_pos hz]; exact ⟨hz, hl⟩
    · rw [step_destroy, if_pos hz]; exact ⟨hz, hl⟩

theorem kept_run {σ : Type} (L : platform_loader σ) (l0 : state σ) (ops : List imports.token_op)
    (o : imports.owner σ) (h : imports.kept L l0 o) :
    (imports.kept L l0 (imports.owner.run L o ops)) := by
  induction ops generalizing o with
  | nil => exact h
  | cons op rest ih => exact ih _ (kept_step L l0 o op h)

theorem kept_of_fresh {σ : Type} (L : platform_loader σ) (o : imports.owner σ)
    (ops : List imports.token_op) (h : imports.fresh_owner o) :
    (0 < (imports.owner.run L o ops).use_count →
      (imports.owner.run L o ops).lib = o.lib) ∧
    ((imports.owner.run L o ops).use_count = 0 →
      (imports.owner.run L o ops).lib
        = ⟨0, L.dlclose o.lib.world o.lib.handle_, o.lib.calls ++ [.dlclose o.lib.handle_]⟩) ∧
    (imports.owner.run L o [.copy, .destroy]) = o := by
  have hk := kept_run L o.lib ops o (Or.inl ⟨by rw [h.1]; exact Nat.one_pos, rfl⟩)
  refine ⟨fun hp => ?_, fun hz => ?_, ?_⟩
  · rcases hk with ⟨_, hl⟩ | ⟨hz, _⟩
    · exact hl
    · omega
  · rcases hk with ⟨hp, _⟩ | ⟨_, hl⟩
    · omega
    · rw [hl]
      have hl2 := h.2
      unfold shared_library.destroy unload
      rw [hl2]
      rfl
  · obtain ⟨lib, n⟩ := o
    have h1 : n = 1 := h.1
    subst h1
    rfl

/-- Claim C20. When `import_symbol<T>` or `import_alias<T>` returns a value, the
`shared_library` made for it is loaded and has one owner, the value. Under the counting
rules of `std::shared_ptr`, along every sequence of copies and destructions of copies of
the value: while a copy is alive the library object is untouched (no unload is called);
when the last copy is gone the library has been unloaded by exactly one call of `dlclose`
with its handle; and copying the value and then dropping one of the two copies leaves the
owner block as it was, so the imported object stays usable. -/
theorem import_keeps_library_loaded {σ : Type} (L : platform_loader σ) (plat : Platform)
    (dl : dlfcn) (mem : memory) (world : σ) (calls : List native_call) (lib : fs.path)
    (name : List Char) (mode : Nat) ( is_alias : Bool) (a : Nat)
    (ops : List imports.token_op)
    (h : (if is_alias then imports.import_alias L plat dl mem world calls lib name mode
          else imports.import_symbol L plat dl mem world calls lib name mode).value = .ok a) :
    let r := if is_alias then imports.import_alias L plat dl mem world calls lib name mode
             else imports.import_symbol L plat dl mem world calls lib name mode
    r.owner.use_count = 1 ∧
    shared_library.is_loaded r.owner.lib = true ∧
    (0 < (imports.owner.run L r.owner ops).use_count →
      (imports.owner.run L r.owner ops).lib = r.owner.lib) ∧
    ((imports.owner.run L r.owner ops).use_count = 0 →
      (imports.owner.run L r.owner ops).lib
        = ⟨0, L.dlclose r.owner.lib.world r.owner.lib.handle_,
            r.owner.lib.calls ++ [.dlclose r.owner.lib.handle_]⟩) ∧
    (imports.owner.run L r.owner [.copy, .destroy]) = r.owner := by
  intro r
  have hf : imports.fresh_owner r.owner := by
    cases is_alias
    · exact import_symbol_fresh L plat dl mem world calls lib name mode a h
    · exact import_alias_fresh L plat dl mem world calls lib name mode a h
  exact ⟨hf.1, hf.2, kept_of_fresh L r.owner ops hf⟩

/-- Witness of C20: the symbol "answer" is imported from "./libdemo.so"; after a copy and
the destruction of both copies the library has been unloaded by one call of `dlclose`. -/
theorem import_keeps_library_loaded_witness :
    (imports.import_symbol samples.demo_loader samples.linux_x86_64 samples.glibc
        samples.alias_memory () [] "./libdemo.so".toList "answer".toList 0).value = .ok 1000 ∧
    (imports.owner.run samples.demo_loader
        (imports.import_symbol samples.demo_loader samples.linux_x86_64 samples.glibc
          samples.alias_memory () [] "./libdemo.so".toList "answer".toList 0).owner
        [.copy, .destroy, .destroy]).use_count = 0 ∧
    (imports.owner.run samples.demo_loader
        (imports.import_symbol samples.demo_loader samples.linux_x86_64 samples.glibc
          samples.alias_memory () [] "./libdemo.so".toList "answer".toList 0).owner
        [.copy, .destroy, .destroy]).lib
      = ⟨0, (), [.dlopen (some "./libdemo.so".toList) 1 42, .dlclose 42]⟩ :=
  ⟨rfl, rfl,
   (import_keeps_library_loaded samples.demo_loader samples.linux_x86_64 samples.glibc
     samples.alias_memory () [] "./libdemo.so".toList "answer".toList 0 false 1000
     [.copy, .destroy, .destroy] rfl).2.2.2.1 rfl⟩

/-! ## Translation of addresses in `pe_info` -/

theorem get_file_offset_loop_step (host : Host) (va n : Nat) (fs : ifstream)
    (hfit : fs.pos + sizeof_section_t ≤ fs.bytes.length) :
    get_file_offset_loop host va (n + 1) fs =
      if (section_t.of_raw ((fs.bytes.drop fs.pos).take sizeof_section_t)).VirtualAddress ≤ va ∧
          va < ((section_t.of_raw ((fs.bytes.drop fs.pos).take sizeof_section_t)).VirtualAddress
                + (section_t.of_raw ((fs.bytes.drop fs.pos).take sizeof_section_t)).SizeOfRawData)
                % 2 ^ 32 then
        .ok (size_t host
              ((section_t.of_raw ((fs.bytes.drop fs.pos).take sizeof_section_t)).PointerToRawData
                + va
                - (section_t.of_raw ((fs.bytes.drop fs.pos).take sizeof_section_t)).VirtualAddress),
             ⟨fs.bytes, fs.pos + sizeof_section_t⟩)
      else get_file_offset_loop host va n ⟨fs.bytes, fs.pos + sizeof_section_t⟩ := by
  simp only [get_file_offset_loop, bind, read_ok fs _ hfit, Except.bind, ge_iff_le, pure,
    Except.pure]

theorem le_value_lt : ∀ (l : List UInt8), le_value l < 256 ^ l.length := by
  intro l
  induction l with
  | nil => simp [le_value]
  | cons a t ih =>
    have ha := UInt8.toNat_lt_size a
    simp only [UInt8.size] at ha
    simp only [le_value, List.length_cons, pow_succ]
    omega

theorem field_lt (raw : List UInt8) (o w : Nat) : field raw o w < 256 ^ w := by
  unfold field
  refine Nat.lt_of_lt_of_le (le_value_lt _) ?_
  apply Nat.pow_le_pow_right (by decide)
  simp only [List.length_take]
  omega

theorem section_fields_lt (raw : List UInt8) :
    (section_t.of_raw raw).VirtualAddress < 2 ^ 32 ∧
    (section_t.of_raw raw).SizeOfRawData < 2 ^ 32 ∧
    (section_t.of_raw raw).PointerToRawData < 2 ^ 32 := by
  have h : (256 : Nat) ^ 4 = 2 ^ 32 := by norm_num
  refine ⟨?_, ?_, ?_⟩ <;> (rw [← h]; exact field_lt _ _ _)

theorem get_file_offset_loop_documented (host : Host) (B : List UInt8) (rva : Nat) :
    ∀ (n pos : Nat), pos + sizeof_section_t * n ≤ B.length →
      (∀ s ∈ section_table B pos n, s.VirtualAddress + s.SizeOfRawData < 2 ^ 32) →
      ∃ fs', fs'.bytes = B ∧
        get_file_offset_loop host rva n ⟨B, pos⟩
          = .ok (size_t host (documented_file_offset (section_table B pos n) rva), fs') := by
  intro n
  induction n with
  | zero =>
    intro pos _ _
    exact ⟨⟨B, pos⟩, rfl, by simp [get_file_offset_loop, section_table, documented_file_offset, size_t]⟩
  | succ n ih =>
    intro pos hfit hsmall
    have h40 : sizeof_section_t * (n + 1) = sizeof_section_t * n + sizeof_section_t := by ring
    have hfit1 : (⟨B, pos⟩ : ifstream).pos + sizeof_section_t ≤ (⟨B, pos⟩ : ifstream).bytes.length := by
      simp only; omega
    rw [get_file_offset_loop_step host rva n ⟨B, pos⟩ hfit1]
    simp only []
    have hhead := hsmall (section_t.of_raw ((B.drop pos).take sizeof_section_t))
      (by simp [section_table])
    rw [Nat.mod_eq_of_lt hhead]
    by_cases hc : (section_t.of_raw ((B.drop pos).take sizeof_section_t)).VirtualAddress ≤ rva ∧
        rva < (section_t.of_raw ((B.drop pos).take sizeof_section_t)).VirtualAddress
              + (section_t.of_raw ((B.drop pos).take sizeof_section_t)).SizeOfRawData
    · rw [if_pos hc]
      refine ⟨⟨B, pos + sizeof_section_t⟩, rfl, ?_⟩
      have hfind : documented_file_offset (section_table B pos (n + 1)) rva
          = (section_t.of_raw ((B.drop pos).take sizeof_section_t)).PointerToRawData
            + (rva - (section_t.of_raw ((B.drop pos).take sizeof_section_t)).VirtualAddress) := by
        simp [documented_file_offset, section_table, List.find?, section_t.contains, hc]
      rw [hfind]
      congr 3
      omega
    · rw [if_neg hc]
      obtain ⟨fs', hb, hloop⟩ := ih (pos + sizeof_section_t) (by omega)
        (fun s hs => hsmall s (by simp only [section_table, List.mem_cons]; exact Or.inr hs))
      refine ⟨fs', hb, ?_⟩
      rw [hloop]
      have hfind : documented_file_offset (section_table B pos (n + 1)) rva
          = documented_file_offset (section_table B (pos + sizeof_section_t) n) rva := by
        simp [documented_file_offset, section_table, List.find?, section_t.contains, hc]
      rw [hfind]

theorem documented_file_offset_lt (table : List section_t) (rva : Nat)
    (hfields : ∀ s ∈ table, s.PointerToRawData < 2 ^ 32)
    (hsmall : ∀ s ∈ table, s.VirtualAddress + s.SizeOfRawData < 2 ^ 32) :
    documented_file_offset table rva < 2 ^ 33 := by
  unfold documented_file_offset
  cases hf : table.find? (fun s => s.contains rva) with
  | none => simp
  | some s =>
    have hm := List.mem_of_find?_eq_some hf
    have hp := List.find?_some hf
    simp only [section_t.contains, decide_eq_true_eq] at hp
    have h1 := hfields s hm
    have h2 := hsmall s hm
    simp only
    omega

theorem section_table_fields (B : List UInt8) :
    ∀ (n pos : Nat), ∀ s ∈ section_table B pos n, s.PointerToRawData < 2 ^ 32 := by
  intro n
  induction n with
  | zero => intro pos s hs; simp [section_table] at hs
  | succ n ih =>
    intro pos s hs
    simp only [section_table, List.mem_cons] at hs
    rcases hs with rfl | hs
    · exact (section_fields_lt _).2.2
    · exact ih _ s hs

/-- What `get_file_offset` returns, in terms of the bytes it reads. For a non-zero address
`rva` and a file (shorter than `2^63` bytes) whose DOS header can be read and which holds
`40 * NumberOfSections` bytes from `e_lfanew + sizeof(header_t)`, each of these 40-byte
records having `VirtualAddress + SizeOfRawData < 2^32`: `get_file_offset` returns, as a
`std::size_t`, `PointerToRawData + (rva - VirtualAddress)` of the first record in order
with `VirtualAddress <= rva < VirtualAddress + SizeOfRawData`, and the placeholder 0 when
no record contains `rva`; when `std::size_t` has at least 33 bits the value returned is
that sum itself. The records are the section table of the file only when its optional
header has the size of the struct (`SizeOfOptionalHeader` 224 for PE32, 240 for
PE32+). -/
theorem get_file_offset_spec (host : Host) (W : AddressOffsetT) (fs : ifstream)
    (rva : Nat) (h : header_t)
    (hrva : rva ≠ 0)
    (hdos : sizeof_dos_t host ≤ fs.bytes.length)
    (hlen : fs.bytes.length < 2 ^ 63)
    (hfit : section_table_offset host W
              (IMAGE_DOS_HEADER_.of_raw host (fs.bytes.take (sizeof_dos_t host)))
            + sizeof_section_t * h.FileHeader.NumberOfSections ≤ fs.bytes.length)
    (hsmall : ∀ s ∈ section_table fs.bytes
        (section_table_offset host W
          (IMAGE_DOS_HEADER_.of_raw host (fs.bytes.take (sizeof_dos_t host))))
        h.FileHeader.NumberOfSections,
      s.VirtualAddress + s.SizeOfRawData < 2 ^ 32) :
    (get_file_offset host W fs rva h).map Prod.fst
      = .ok (size_t host (documented_file_offset
          (section_table fs.bytes
            (section_table_offset host W
              (IMAGE_DOS_HEADER_.of_raw host (fs.bytes.take (sizeof_dos_t host))))
            h.FileHeader.NumberOfSections) rva)) ∧
    (33 ≤ host.size_t_bits →
      (get_file_offset host W fs rva h).map Prod.fst
        = .ok (documented_file_offset
            (section_table fs.bytes
              (section_table_offset host W
                (IMAGE_DOS_HEADER_.of_raw host (fs.bytes.take (sizeof_dos_t host))))
              h.FileHeader.NumberOfSections) rva)) := by
  obtain ⟨fs', _, hloop⟩ := get_file_offset_loop_documented host fs.bytes rva
    h.FileHeader.NumberOfSections _ hfit hsmall
  have hmain : (get_file_offset host W fs rva h).map Prod.fst
      = .ok (size_t host (documented_file_offset
          (section_table fs.bytes
            (section_table_offset host W
              (IMAGE_DOS_HEADER_.of_raw host (fs.bytes.take (sizeof_dos_t host))))
            h.FileHeader.NumberOfSections) rva)) := by
    have hassert : c_assert host (rva != 0) = .ok () := by
      simp [c_assert, hrva]
    have hread : ifstream.read ⟨fs.bytes, 0⟩ (sizeof_dos_t host)
        = .ok (fs.bytes.take (sizeof_dos_t host), ⟨fs.bytes, sizeof_dos_t host⟩) := by
      rw [read_ok _ _ (by simpa using hdos)]
      simp
    simp only [get_file_offset, seekg_zero, bind, Except.bind, hassert, hread]
    rw [seekg_size_t_ok _ _ (by omega)]
    simp only [hloop, Except.map]
  refine ⟨hmain, fun hbits => ?_⟩
  rw [hmain]
  congr 1
  unfold size_t
  apply Nat.mod_eq_of_lt
  refine Nat.lt_of_lt_of_le (documented_file_offset_lt _ rva
    (section_table_fields _ _ _) hsmall) ?_
  exact Nat.pow_le_pow_right (by decide) hbits

/-- The lemma `get_file_offset_spec` on the file `two_names`: the address 0x2010 lies in
".edata" (RVA 0x2000, raw data at 408) and translates to 424; the address 0x3000 lies in
no section. -/
theorem get_file_offset_spec_witness :
    (get_file_offset samples.win64 .dword ⟨samples.two_names, 0⟩ 0x2010
        samples.two_names_header).map Prod.fst
      = .ok (documented_file_offset (section_table samples.two_names 312 2) 0x2010) ∧
    documented_file_offset (section_table samples.two_names 312 2) 0x2010 = 424 ∧
    documented_file_offset (section_table samples.two_names 312 2) 0x3000 = 0 :=
  ⟨(get_file_offset_spec samples.win64 .dword ⟨samples.two_names, 0⟩ 0x2010
      samples.two_names_header (by decide) (by decide) (by decide) (by decide)
      (by decide)).2 (by decide),
   rfl, rfl⟩

/-- Claim C29. In `get_file_offset` the upper bound of a section is
`VirtualAddress + SizeOfRawData` reduced modulo `2^32`: for a section header with
`VirtualAddress + SizeOfRawData >= 2^32` and an address `rva` with
`VirtualAddress <= rva < 2^32`, the address lies in the range of the section in the
integers, the test `rva < (VirtualAddress + SizeOfRawData) mod 2^32` fails, and the loop
goes on to the next header. -/
theorem get_file_offset_upper_bound_wraps (host : Host) (rva n : Nat) (fs : ifstream)
    (hfit : fs.pos + sizeof_section_t ≤ fs.bytes.length)
    (hwrap : 2 ^ 32 ≤
      (section_t.of_raw ((fs.bytes.drop fs.pos).take sizeof_section_t)).VirtualAddress
      + (section_t.of_raw ((fs.bytes.drop fs.pos).take sizeof_section_t)).SizeOfRawData)
    (hge : (section_t.of_raw ((fs.bytes.drop fs.pos).take sizeof_section_t)).VirtualAddress
      ≤ rva)
    (hlt : rva < 2 ^ 32) :
    (section_t.of_raw ((fs.bytes.drop fs.pos).take sizeof_section_t)).contains rva = true ∧
    ¬ rva < ((section_t.of_raw ((fs.bytes.drop fs.pos).take sizeof_section_t)).VirtualAddress
      + (section_t.of_raw ((fs.bytes.drop fs.pos).take sizeof_section_t)).SizeOfRawData)
      % 2 ^ 32 ∧
    get_file_offset_loop host rva (n + 1) fs
      = get_file_offset_loop host rva n ⟨fs.bytes, fs.pos + sizeof_section_t⟩ := by
  obtain ⟨hva, hsz, _⟩ := section_fields_lt ((fs.bytes.drop fs.pos).take sizeof_section_t)
  rw [get_file_offset_loop_step host rva n fs hfit]
  generalize section_t.of_raw ((fs.bytes.drop fs.pos).take sizeof_section_t) = sh
    at hwrap hge hva hsz ⊢
  have hmod : (sh.VirtualAddress + sh.SizeOfRawData) % 2 ^ 32
      = sh.VirtualAddress + sh.SizeOfRawData - 2 ^ 32 := by
    rw [Nat.mod_eq_sub_mod hwrap, Nat.mod_eq_of_lt (by omega)]
  have hnot : ¬ rva < (sh.VirtualAddress + sh.SizeOfRawData) % 2 ^ 32 := by
    rw [hmod]; omega
  refine ⟨?_, hnot, ?_⟩
  · simp only [section_t.contains, decide_eq_true_eq]
    omega
  · rw [if_neg (fun hc => hnot hc.2)]

/-- Witness of C29 on the file `wrapping_section`, whose one section has
`VirtualAddress` 0xFFFFF000 and `SizeOfRawData` 0x2000: the address 0xFFFFF800 is not
matched and `get_file_offset` returns the placeholder 0. -/
theorem get_file_offset_upper_bound_wraps_witness :
    (section_t.of_raw ((samples.wrapping_section.drop 312).take 40)).VirtualAddress
      + (section_t.of_raw ((samples.wrapping_section.drop 312).take 40)).SizeOfRawData
      = 0xFFFFF000 + 0x2000 ∧
    (section_t.of_raw ((samples.wrapping_section.drop 312).take 40)).contains 0xFFFFF800
      = true ∧
    get_file_offset_loop samples.win64 0xFFFFF800 1 ⟨samples.wrapping_section, 312⟩
      = get_file_offset_loop samples.win64 0xFFFFF800 0 ⟨samples.wrapping_section, 352⟩ ∧
    (get_file_offset samples.win64 .dword ⟨samples.wrapping_section, 0⟩ 0xFFFFF800
        (header_t.of_raw .dword ((samples.wrapping_section.drop 64).take 248))).map Prod.fst
      = .ok 0 :=
  ⟨rfl,
   (get_file_offset_upper_bound_wraps samples.win64 0xFFFFF800 0
      ⟨samples.wrapping_section, 312⟩ (by decide) (by decide) (by decide) (by decide)).1,
   (get_file_offset_upper_bound_wraps samples.win64 0xFFFFF800 0
      ⟨samples.wrapping_section, 312⟩ (by decide) (by decide) (by decide) (by decide)).2.2,
   rfl⟩

/-- Claim C21 (defect in the code). `symbols(fs, section_name)` is not the list of the
named exports whose function lies in the section: its loop visits `NumberOfFunctions`
entries of the name and ordinal tables, not `NumberOfNames`. On `one_function_two_names`
(one function of ".text", exported as "f" and as "g") it returns "f" only, where the
documented list is "f", "g"; on `two_functions_one_name` it returns "f" and the string
"MZ", where the documented list is "f". On `two_names`, where the two numbers are equal,
it returns the documented list. -/
theorem symbols_in_differs_from_named_exports :
    (symbols_in samples.win64 .dword ⟨samples.one_function_two_names, 0⟩
        samples.dot_text).map Prod.fst = .ok [[0x66]] ∧
    documented_symbols_in samples.one_function_two_names
        (section_table samples.one_function_two_names 312 2)
        (exports_t.of_raw ((samples.one_function_two_names.drop 408).take 40))
        samples.dot_text = [[0x66], [0x67]] ∧
    (symbols_in samples.win64 .dword ⟨samples.two_functions_one_name, 0⟩
        samples.dot_text).map Prod.fst = .ok [[0x66], [0x4D, 0x5A]] ∧
    documented_symbols_in samples.two_functions_one_name
        (section_table samples.two_functions_one_name 312 2)
        (exports_t.of_raw ((samples.two_functions_one_name.drop 408).take 40))
        samples.dot_text = [[0x66]] ∧
    (symbols_in samples.win64 .dword ⟨samples.two_names, 0⟩ samples.dot_text).map Prod.fst
      = .ok (documented_symbols_in samples.two_names (section_table samples.two_names 312 2)
          samples.two_names_exports samples.dot_text) :=
  ⟨rfl, rfl, rfl, rfl, rfl⟩

/-- Claim C22 (defect in the code). `get_file_offset` does not return the offset of the
address in the first section of the section table of the file that contains it. The PE32
file `short_optional_header` has `SizeOfOptionalHeader = 208`: its section table starts
at offset 296 and holds the one section ".text" with `VirtualAddress = 0x1000`,
`SizeOfRawData = 16` and `PointerToRawData = 336`, so every section of the table has
`VirtualAddress + SizeOfRawData < 2^32` and the non-zero address 0x1000 lies in ".text",
at file offset 336; `get_file_offset` returns the placeholder 0, with and without
assertions. In the file `thirteen_directories` (400 bytes) the address 0x2004 lies in
".data", at file offset 388; `get_file_offset` returns 8293. On the file `two_names`,
whose `SizeOfOptionalHeader` is 224, the address 0x2010 is translated as documented. -/
theorem get_file_offset_misses_section_table :
    (header samples.win64 .dword ⟨samples.short_optional_header, 0⟩).map Prod.fst
      = .ok (header_t.of_raw .dword ((samples.short_optional_header.drop 64).take 248)) ∧
    documented_section_table_offset samples.short_optional_header = 296 ∧
    (documented_section_table samples.short_optional_header).map
        (fun s => (c_str s.Name, s.VirtualAddress, s.SizeOfRawData, s.PointerToRawData))
      = [(samples.dot_text, 0x1000, 16, 336)] ∧
    (∀ s ∈ documented_section_table samples.short_optional_header,
      s.VirtualAddress + s.SizeOfRawData < 2 ^ 32) ∧
    documented_file_offset (documented_section_table samples.short_optional_header) 0x1000
      = 336 ∧
    (get_file_offset samples.win64 .dword ⟨samples.short_optional_header, 0⟩ 0x1000
        (header_t.of_raw .dword ((samples.short_optional_header.drop 64).take 248))).map
        Prod.fst = .ok 0 ∧
    (get_file_offset samples.win64_debug .dword ⟨samples.short_optional_header, 0⟩ 0x1000
        (header_t.of_raw .dword ((samples.short_optional_header.drop 64).take 248))).map
        Prod.fst = .ok 0 ∧
    (∀ s ∈ documented_section_table samples.thirteen_directories,
      s.VirtualAddress + s.SizeOfRawData < 2 ^ 32) ∧
    documented_file_offset (documented_section_table samples.thirteen_directories) 0x2004
      = 388 ∧
    samples.thirteen_directories.length = 400 ∧
    (get_file_offset samples.win64 .dword ⟨samples.thirteen_directories, 0⟩ 0x2004
        (header_t.of_raw .dword ((samples.thirteen_directories.drop 64).take 248))).map
        Prod.fst = .ok 8293 ∧
    field samples.two_names (64 + 4 + 16) 2 = 224 ∧
    (get_file_offset samples.win64 .dword ⟨samples.two_names, 0⟩ 0x2010
        samples.two_names_header).map Prod.fst
      = .ok (documented_file_offset (documented_section_table samples.two_names) 0x2010) :=
  ⟨rfl, rfl, rfl, by decide, rfl, rfl, rfl, by decide, rfl, rfl, rfl, rfl, rfl⟩

/-- Claim C23 (defect in the code). In a build without `NDEBUG` the assertions of
`pe_info` fail on files: on `unmapped_exports`, whose export directory address 0x9000 lies
in no section, `symbols(fs)` and `symbols(fs, ".text")` stop at `assert(real_offset)` in
`exports`; on `ordinal_only`, whose `AddressOfNames` is 0, and on `no_exports`, whose
export directory address is 0, `symbols(fs, ".text")` stops at `assert(virtual_address)`
in `get_file_offset`, as does every call of `get_file_offset` with the address 0. Only a
build with `NDEBUG` goes on with the placeholder. -/
theorem asserts_fail_on_unmapped_addresses :
    field samples.unmapped_exports (64 + 24 + offsetof_DataDirectory .dword) 4 = 0x9000 ∧
    documented_file_offset (section_table samples.unmapped_exports 312 2) 0x9000 = 0 ∧
    (symbols samples.win64_debug .dword ⟨samples.unmapped_exports, 0⟩).map Prod.fst
      = .error .assertion_failure ∧
    (symbols_in samples.win64_debug .dword ⟨samples.unmapped_exports, 0⟩
        samples.dot_text).map Prod.fst = .error .assertion_failure ∧
    (exports_t.of_raw ((samples.ordinal_only.drop 408).take 40)).AddressOfNames = 0 ∧
    (symbols_in samples.win64_debug .dword ⟨samples.ordinal_only, 0⟩
        samples.dot_text).map Prod.fst = .error .assertion_failure ∧
    (symbols_in samples.win64_debug .dword ⟨samples.no_exports, 0⟩
        samples.dot_edata).map Prod.fst = .error .assertion_failure ∧
    (get_file_offset samples.win64_debug .dword ⟨samples.two_names, 0⟩ 0
        samples.two_names_header).map Prod.fst = .error .assertion_failure ∧
    (symbols samples.win64 .dword ⟨samples.unmapped_exports, 0⟩).map Prod.fst = .ok [] :=
  ⟨rfl, rfl, rfl, rfl, rfl, rfl, rfl, rfl, rfl⟩

/-- Claim C24 (defect in the code). The section table is read at
`e_lfanew + sizeof(header_t)`, whatever `SizeOfOptionalHeader` says. The PE32 file
`short_optional_header` has `SizeOfOptionalHeader = 208`; its section table, with the one
header ".text", starts at offset 64 + 4 + 20 + 208 = 296. `parsing_supported` accepts the
file, `sections` reads the name at offset 312 and returns the one-byte string 0x10, and
`symbols(fs, ".text")` finds no section ".text". -/
theorem section_table_offset_ignores_SizeOfOptionalHeader :
    (parsing_supported samples.win64 .dword ⟨samples.short_optional_header, 0⟩).map Prod.fst
      = .ok true ∧
    e_lfanew_of samples.win64 samples.short_optional_header = 64 ∧
    field samples.short_optional_header (64 + 4 + 16) 2 = 208 ∧
    c_str ((samples.short_optional_header.drop (64 + 4 + 20 + 208)).take
      IMAGE_SIZEOF_SHORT_NAME_) = samples.dot_text ∧
    (sections samples.win64 .dword ⟨samples.short_optional_header, 0⟩).map Prod.fst
      = .ok [[0x10]] ∧
    section_table_offset samples.win64 .dword
      (IMAGE_DOS_HEADER_.of_raw samples.win64 (samples.short_optional_header.take 64))
      = 64 + 4 + 20 + 224 ∧
    (symbols_in samples.win64 .dword ⟨samples.short_optional_header, 0⟩
        samples.dot_text).map Prod.fst = .ok [] :=
  ⟨rfl, rfl, rfl, rfl, rfl, rfl, rfl⟩

/-- Claim C25 (defect in the code). The type of `e_lfanew` is `long`: on a host whose
`long` has 8 bytes the reader takes a DOS header of 72 bytes and reads `e_lfanew` as the
8-byte value at the offsets 64..71. The file `two_names` stores 64 at the offsets 60..63
and is read on a host with a 4-byte `long`; on a host with an 8-byte `long` the value
taken for `e_lfanew` is 0x2014C00004550 and `parsing_supported` and `sections` raise. -/
theorem dos_header_layout_follows_host_long :
    sizeof_dos_t samples.lp64 = 72 ∧
    offsetof_e_lfanew samples.lp64 = 64 ∧
    field samples.two_names 60 4 = 64 ∧
    e_lfanew_of samples.lp64 samples.two_names = 0x2014C00004550 ∧
    (parsing_supported samples.win64 .dword ⟨samples.two_names, 0⟩).map Prod.fst
      = .ok true ∧
    (sections samples.win64 .dword ⟨samples.two_names, 0⟩).map Prod.fst
      = .ok [samples.dot_text, samples.dot_edata] ∧
    (parsing_supported samples.lp64 .dword ⟨samples.two_names, 0⟩).map Prod.fst
      = .error .ios_failure ∧
    (sections samples.lp64 .dword ⟨samples.two_names, 0⟩).map Prod.fst
      = .error .ios_failure :=
  ⟨rfl, rfl, rfl, rfl, rfl, rfl, rfl, rfl⟩

/-! ## Independence of the stream position -/

theorem eq_zero_of_testBit (x : Nat) (h : ∀ i, x.testBit i = false) : x = 0 :=
  Nat.eq_of_testBit_eq (fun i => by rw [h i, Nat.zero_testBit])

theorem clear_flag_eq_without (x f : Nat) (hx : x < 2 ^ 32) (hf : f < 2 ^ 32) :
    clear_flag x f = load_mode.without x f := by
  unfold clear_flag load_mode.without
  apply Nat.eq_of_testBit_eq
  intro i
  have h1 : 2 ^ 32 - 1 - f % 2 ^ 32 = 2 ^ 32 - (f + 1) := by
    rw [Nat.mod_eq_of_lt hf]; omega
  rw [h1, Nat.mod_eq_of_lt hx, Nat.testBit_and, Nat.testBit_xor, Nat.testBit_and,
    Nat.testBit_two_pow_sub_succ hf]
  by_cases hi : i < 32
  · simp only [hi, decide_True, Bool.true_and]
    cases x.testBit i <;> cases f.testBit i <;> rfl
  · have hxi : x.testBit i = false :=
      Nat.testBit_lt_two_pow (Nat.lt_of_lt_of_le hx (Nat.pow_le_pow_right (by decide) (by omega)))
    simp [hi, hxi]

theorem clear_flag_lt (x f : Nat) : clear_flag x f < 2 ^ 32 := by
  unfold clear_flag
  exact Nat.lt_of_le_of_lt Nat.and_le_left (Nat.mod_lt _ (by decide))

theorem without_of_and_eq_zero (x f : Nat) (h : x &&& f = 0) : load_mode.without x f = x := by
  unfold load_mode.without
  rw [h]
  simp

theorem without_comm (x f g : Nat) :
    load_mode.without (load_mode.without x f) g = load_mode.without (load_mode.without x g) f := by
  unfold load_mode.without
  apply Nat.eq_of_testBit_eq
  intro i
  simp only [Nat.testBit_xor, Nat.testBit_and]
  cases x.testBit i <;> cases f.testBit i <;> cases g.testBit i <;> rfl

theorem or_single_bit (m f : Nat) (hf : load_mode.single_bit f) (h : m &&& f ≠ 0) :
    m ||| f = m := by
  rcases hf with rfl | ⟨k, rfl⟩
  · simp
  · have hk : m.testBit k = true := by
      by_contra hc
      apply h
      apply eq_zero_of_testBit
      intro i
      rw [Nat.testBit_and, Nat.testBit_two_pow]
      by_cases hik : k = i
      · subst hik; simp [hc]
      · simp [hik]
    apply Nat.eq_of_testBit_eq
    intro i
    rw [Nat.testBit_or, Nat.testBit_two_pow]
    by_cases hik : k = i
    · subst hik; simp [hk]
    · simp [hik]

theorem or_and_eq_zero (a b c : Nat) (hb : b &&& c = 0) : (a ||| b) &&& c = 0 ↔ a &&& c = 0 := by
  have hbit : ∀ i, (b.testBit i && c.testBit i) = false := by
    intro i
    rw [← Nat.testBit_and, hb, Nat.zero_testBit]
  constructor
  · intro h
    apply eq_zero_of_testBit
    intro i
    have := congrArg (fun x => x.testBit i) h
    simp only [Nat.testBit_and, Nat.testBit_or, Nat.zero_testBit] at this
    rw [Nat.testBit_and]
    cases ha : a.testBit i <;> cases hc : c.testBit i <;> simp_all
  · intro h
    apply eq_zero_of_testBit
    intro i
    have := congrArg (fun x => x.testBit i) h
    have hb' := hbit i
    simp only [Nat.testBit_and, Nat.zero_testBit] at this
    rw [Nat.testBit_and, Nat.testBit_or]
    cases ha : a.testBit i <;> cases hc : c.testBit i <;> cases hbb : b.testBit i <;> simp_all

theorem and_ne_zero_of_or (a b c : Nat) (h : a &&& c ≠ 0) : (a ||| b) &&& c ≠ 0 := by
  intro h0
  apply h
  apply eq_zero_of_testBit
  intro i
  have := congrArg (fun x => x.testBit i) h0
  simp only [Nat.testBit_and, Nat.testBit_or, Nat.zero_testBit] at this
  rw [Nat.testBit_and]
  cases ha : a.testBit i <;> cases hc : c.testBit i <;> simp_all

theorem fix_modes_documented (dl : dlfcn) (mode : Nat)
    (hlazy : load_mode.single_bit dl.RTLD_LAZY) (hlocal : load_mode.single_bit dl.RTLD_LOCAL)
    (hdisj : dl.RTLD_LAZY &&& dl.RTLD_GLOBAL = 0) :
    fix_modes dl mode
      = mode ||| load_mode.added_lazy dl mode ||| load_mode.added_local dl mode := by
  unfold fix_modes load_mode.added_lazy load_mode.added_local load_mode.has
  dsimp only
  have h1 : (if mode &&& dl.RTLD_NOW = 0 then mode ||| dl.RTLD_LAZY else mode)
      = mode ||| (if (!(mode &&& dl.RTLD_NOW != 0) && !(mode &&& dl.RTLD_LAZY != 0)) = true
          then dl.RTLD_LAZY else 0) := by
    by_cases hn : mode &&& dl.RTLD_NOW = 0
    · by_cases hl : mode &&& dl.RTLD_LAZY = 0
      · simp [hn, hl]
      · simp [hn, hl, or_single_bit mode _ hlazy hl]
    · simp [hn]
  rw [h1]
  generalize hm1 : mode ||| (if (!(mode &&& dl.RTLD_NOW != 0) && !(mode &&& dl.RTLD_LAZY != 0))
      = true then dl.RTLD_LAZY else 0) = m1
  have hg : m1 &&& dl.RTLD_GLOBAL = 0 ↔ mode &&& dl.RTLD_GLOBAL = 0 := by
    rw [← hm1]
    apply or_and_eq_zero
    split
    · exact hdisj
    · simp
  by_cases hgl : mode &&& dl.RTLD_GLOBAL = 0
  · have hg1 := hg.2 hgl
    by_cases hl : mode &&& dl.RTLD_LOCAL = 0
    · simp [hgl, hg1, hl]
    · have hl1 : m1 &&& dl.RTLD_LOCAL ≠ 0 := by
        rw [← hm1]; exact and_ne_zero_of_or _ _ _ hl
      simp [hgl, hg1, hl, or_single_bit m1 _ hlocal hl1]
  · have hg1 : ¬ m1 &&& dl.RTLD_GLOBAL = 0 := fun h => hgl (hg.1 h)
    simp [hgl, hg1]

theorem dlopen_calls_mono (files files' : List (Option fs.path)) (mode : Nat)
    (new : List native_call) (hsub : ∀ f ∈ files, f ∈ files')
    (h : dlopen_calls files mode new) : dlopen_calls files' mode new := by
  intro c hc
  obtain ⟨file, r, he, hf⟩ := h c hc
  exact ⟨file, r, he, hsub file hf⟩

theorem dlopen_calls_append (files : List (Option fs.path)) (mode : Nat)
    (a b : List native_call) (ha : dlopen_calls files mode a) (hb : dlopen_calls files mode b) :
    dlopen_calls files mode (a ++ b) := by
  intro c hc
  rcases List.mem_append.1 hc with h | h
  · exact ha c h
  · exact hb c h

theorem calls_chain (files : List (Option fs.path)) (mode : Nat)
    (base mid fin : List native_call)
    (h1 : ∃ a, mid = base ++ a ∧ dlopen_calls files mode a)
    (h2 : ∃ b, fin = mid ++ b ∧ dlopen_calls files mode b) :
    ∃ new, fin = base ++ new ∧ dlopen_calls files mode new := by
  obtain ⟨a, ea, ha⟩ := h1
  obtain ⟨b, eb, hb⟩ := h2
  exact ⟨a ++ b, by rw [eb, ea, List.append_assoc], dlopen_calls_append _ _ _ _ ha hb⟩

theorem do_dlopen_calls {σ : Type} (L : platform_loader σ) (s : state σ)
    (files : List (Option fs.path)) (file : Option fs.path) (mode : Nat) (hf : file ∈ files) :
    ∃ a, (do_dlopen L s file mode).calls = s.calls ++ a ∧ dlopen_calls files mode a :=
  ⟨[.dlopen file mode (L.dlopen s.world file mode).1], rfl, by
    intro c hc
    simp only [List.mem_singleton] at hc
    exact ⟨file, _, hc, hf⟩⟩

theorem load_exact_calls {σ : Type} (L : platform_loader σ) (s : state σ) (sl : fs.path)
    (native_mode : Nat) (ec : fs.error_code) :
    ∃ new, (load_exact L s sl native_mode ec).self.calls = s.calls ++ new ∧
      dlopen_calls [some sl, none] native_mode new := by
  have one := do_dlopen_calls L s [some sl, none] (some sl) native_mode (by simp)
  unfold load_exact
  dsimp only
  split
  · exact one
  · split
    · exact one
    · split
      · split
        · exact calls_chain _ _ _ _ _ one (do_dlopen_calls L _ _ none native_mode (by simp))
        · exact calls_chain _ _ _ _ _ one (do_dlopen_calls L _ _ none native_mode (by simp))
      · exact one

theorem load_decorated_calls {σ : Type} (L : platform_loader σ) (plat : Platform)
    (s : state σ) (sl : fs.path) (native_mode : Nat) (ec : fs.error_code) :
    ∃ new, (load_decorated L plat s sl native_mode ec).self.calls = s.calls ++ new ∧
      dlopen_calls [some (decorate plat sl), some sl, none]
        (clear_flag native_mode load_mode.append_decorations) new := by
  have one := do_dlopen_calls L s [some (decorate plat sl), some sl, none]
    (some (decorate plat sl)) (clear_flag native_mode load_mode.append_decorations) (by simp)
  have rest : ∀ (s' : state σ),
      s'.calls = (do_dlopen L s (some (decorate plat sl))
        (clear_flag native_mode load_mode.append_decorations)).calls →
      ∃ new, (load_exact L s' sl (clear_flag native_mode load_mode.append_decorations)
          ec).self.calls = s.calls ++ new ∧
        dlopen_calls [some (decorate plat sl), some sl, none]
          (clear_flag native_mode load_mode.append_decorations) new := by
    intro s' hs'
    obtain ⟨new, hn, hd⟩ := load_exact_calls L s' sl
      (clear_flag native_mode load_mode.append_decorations) ec
    refine calls_chain _ _ _ _ _ one ⟨new, by rw [hn, hs'], ?_⟩
    exact dlopen_calls_mono _ _ _ _ (by simp) hd
  unfold load_decorated
  dsimp only
  split
  · exact one
  · split
    · exact one
    · exact rest _ rfl
    · split
      · exact one
      · exact rest _ rfl

theorem load_calls {σ : Type} (L : platform_loader σ) (plat : Platform) (dl : dlfcn)
    (s : state σ) (sl : fs.path) (mode : Nat) (ec : fs.error_code) :
    ∃ new, (load L plat dl s sl mode ec).self.calls = (unload L s).calls ++ new ∧
      dlopen_calls
        [some (decorate plat (fix_path L plat (unload L s) sl (fix_modes dl mode)).1),
         some (fix_path L plat (unload L s) sl (fix_modes dl mode)).1, none]
        (clear_flag (clear_flag (fix_modes dl mode) load_mode.search_system_folders)
          load_mode.append_decorations) new := by
  have hf := fix_path_handle L plat (unload L s) sl (fix_modes dl mode)
  unfold load
  dsimp only
  split
  · exact ⟨[], by simp [reset_dlerror], by intro c hc; simp at hc⟩
  · split
    · obtain ⟨new, hn, hd⟩ := load_decorated_calls L plat
        (fix_path L plat (unload L s) sl (fix_modes dl mode)).2
        (fix_path L plat (unload L s) sl (fix_modes dl mode)).1
        (clear_flag (fix_modes dl mode) load_mode.search_system_folders) ec
      exact ⟨new, by rw [hn, hf.2], hd⟩
    · rename_i hnd
      obtain ⟨new, hn, hd⟩ := load_exact_calls L
        (fix_path L plat (unload L s) sl (fix_modes dl mode)).2
        (fix_path L plat (unload L s) sl (fix_modes dl mode)).1
        (clear_flag (fix_modes dl mode) load_mode.search_system_folders) ec
      have hz : clear_flag (fix_modes dl mode) load_mode.search_system_folders
          &&& load_mode.append_decorations = 0 := by
        by_contra hc; exact hnd hc
      have hsame : clear_flag (clear_flag (fix_modes dl mode) load_mode.search_system_folders)
          load_mode.append_decorations
          = clear_flag (fix_modes dl mode) load_mode.search_system_folders := by
        rw [clear_flag_eq_without _ _ (clear_flag_lt _ _) (by decide),
          without_of_and_eq_zero _ _ hz]
      rw [hsame]
      exact ⟨new, by rw [hn, hf.2], dlopen_calls_mono _ _ _ _ (by simp) hd⟩

theorem added_lt (dl : dlfcn) (mode : Nat) (hlz : dl.RTLD_LAZY < 2 ^ 32)
    (hlc : dl.RTLD_LOCAL < 2 ^ 32) :
    load_mode.added_lazy dl mode < 2 ^ 32 ∧ load_mode.added_local dl mode < 2 ^ 32 := by
  unfold load_mode.added_lazy load_mode.added_local
  constructor <;> split <;> first | assumption | decide

/-- Claim C26. For flag values of 32 bits, with `RTLD_LAZY` and `RTLD_LOCAL` each zero
or a single bit and `RTLD_LAZY` not a bit of `RTLD_GLOBAL`: every call of `dlopen` that the
POSIX `load` makes is handed the documented flag word, which is the portable mode with
`rtld_lazy` added when neither `rtld_now` nor `rtld_lazy` is set, `rtld_local` added when
neither `rtld_global` nor `rtld_local` is set, the bits `append_decorations` and
`search_system_folders` removed and every other bit unchanged; a mode in which `rtld_now`
is set is not given `rtld_lazy`. -/
theorem load_passes_documented_mode {σ : Type} (L : platform_loader σ) (plat : Platform)
    (dl : dlfcn) (s : state σ) (sl : fs.path) (mode : Nat) (ec : fs.error_code)
    (hmode : mode < 2 ^ 32) (hlz : dl.RTLD_LAZY < 2 ^ 32) (hlc : dl.RTLD_LOCAL < 2 ^ 32)
    (hlazy : load_mode.single_bit dl.RTLD_LAZY) (hlocal : load_mode.single_bit dl.RTLD_LOCAL)
    (hdisj : dl.RTLD_LAZY &&& dl.RTLD_GLOBAL = 0) :
    (∃ new, (load L plat dl s sl mode ec).self.calls = (unload L s).calls ++ new ∧
      ∀ file m r, native_call.dlopen file m r ∈ new → m = documented_native_mode dl mode) ∧
    (∀ i, (documented_native_mode dl mode).testBit i
      = ((mode.testBit i || (load_mode.added_lazy dl mode).testBit i
            || (load_mode.added_local dl mode).testBit i)
          && !load_mode.append_decorations.testBit i
          && !load_mode.search_system_folders.testBit i)) ∧
    (load_mode.has mode dl.RTLD_NOW = true → load_mode.added_lazy dl mode = 0) := by
  refine ⟨?_, ?_, ?_⟩
  · obtain ⟨new, hn, hd⟩ := load_calls L plat dl s sl mode ec
    refine ⟨new, hn, ?_⟩
    intro file m r hmem
    obtain ⟨file', r', he, _⟩ := hd _ hmem
    simp only [native_call.dlopen.injEq] at he
    rw [he.2.1]
    have hfm : fix_modes dl mode < 2 ^ 32 := by
      rw [fix_modes_documented dl mode hlazy hlocal hdisj]
      exact Nat.or_lt_two_pow (Nat.or_lt_two_pow hmode (added_lt dl mode hlz hlc).1)
        (added_lt dl mode hlz hlc).2
    rw [clear_flag_eq_without _ _ (clear_flag_lt _ _) (by decide),
      clear_flag_eq_without _ _ hfm (by decide), without_comm,
      fix_modes_documented dl mode hlazy hlocal hdisj]
    rfl
  · intro i
    unfold documented_native_mode load_mode.without
    simp only [Nat.testBit_xor, Nat.testBit_and, Nat.testBit_or]
    cases mode.testBit i <;> cases (load_mode.added_lazy dl mode).testBit i <;>
      cases (load_mode.added_local dl mode).testBit i <;>
      cases load_mode.append_decorations.testBit i <;>
      cases load_mode.search_system_folders.testBit i <;> rfl
  · intro h
    unfold load_mode.added_lazy
    simp [h]

/-- Witness of C26 with the flag values of glibc: the mode `append_decorations` is
handed to `dlopen` as the word 1 (`RTLD_LAZY | RTLD_LOCAL`). -/
theorem load_passes_documented_mode_witness :
    documented_native_mode samples.glibc 0x00800000 = 1 ∧
    (∃ new, (load samples.demo_loader samples.linux_x86_64 samples.glibc
          (⟨0, (), []⟩ : state Unit) "demo".toList 0x00800000 none).self.calls
        = (unload samples.demo_loader (⟨0, (), []⟩ : state Unit)).calls ++ new ∧
      ∀ file m r, native_call.dlopen file m r ∈ new →
        m = documented_native_mode samples.glibc 0x00800000) :=
  ⟨rfl,
   (load_passes_documented_mode samples.demo_loader samples.linux_x86_64 samples.glibc
      ⟨0, (), []⟩ "demo".toList 0x00800000 none (by decide) (by decide) (by decide)
      (Or.inr ⟨0, rfl⟩) (Or.inl rfl) rfl).1⟩

/-! ## The file names handed to `dlopen` -/

theorem mem_of_dropWhile_ne_nil (l : List Char) (h : l.dropWhile (· ≠ '/') ≠ []) :
    '/' ∈ l := by
  induction l with
  | nil => simp at h
  | cons a t ih =>
    by_cases ha : a = '/'
    · simp [ha]
    · simp only [List.dropWhile_cons, ne_eq, ha, not_false_eq_true, decide_True, ↓reduceIte] at h
      exact List.mem_cons_of_mem _ (ih h)

theorem dropWhile_ne_nil_of_mem (l : List Char) (h : '/' ∈ l) :
    l.dropWhile (· ≠ '/') ≠ [] := by
  induction l with
  | nil => simp at h
  | cons a t ih =>
    by_cases ha : a = '/'
    · simp [ha]
    · simp only [List.mem_cons] at h
      rcases h with h | h
      · exact absurd h.symm ha
      · simp only [List.dropWhile_cons, ne_eq, ha, not_false_eq_true, decide_True, ↓reduceIte]
        exact ih h

theorem stem_eq (p : fs.path) :
    p.take (p.length - (fs.path.filename p).length)
      = (p.reverse.dropWhile (· ≠ '/')).reverse := by
  have hsplit : p = (p.reverse.dropWhile (· ≠ '/')).reverse
      ++ (p.reverse.takeWhile (· ≠ '/')).reverse := by
    have := List.takeWhile_append_dropWhile (· ≠ '/') p.reverse
    have h2 := congrArg List.reverse this
    rw [List.reverse_append, List.reverse_reverse] at h2
    exact h2.symm
  have hlen : p.length - (fs.path.filename p).length
      = ((p.reverse.dropWhile (· ≠ '/')).reverse).length := by
    have := congrArg List.length hsplit
    simp only [List.length_append, List.length_reverse] at this
    simp only [fs.path.filename, List.length_reverse]
    omega
  rw [hlen]
  exact (congrArg (List.take ((p.reverse.dropWhile (· ≠ '/')).reverse).length) hsplit).trans
    (List.take_left' rfl)

theorem has_parent_path_iff (p : fs.path) :
    fs.path.has_parent_path p = true ↔ '/' ∈ p := by
  unfold fs.path.has_parent_path fs.path.parent_path
  rw [stem_eq]
  by_cases hrel : fs.path.has_relative_path p = true
  · simp only [hrel, Bool.not_true, Bool.false_eq_true, ↓reduceIte]
    constructor
    · intro h
      by_contra hc
      have hd : p.reverse.dropWhile (· ≠ '/') = [] := by
        by_contra hne
        exact hc (List.mem_reverse.1 (mem_of_dropWhile_ne_nil _ hne))
      rw [hd] at h
      simp at h
    · intro h
      have hne := dropWhile_ne_nil_of_mem p.reverse (List.mem_reverse.2 h)
      have hne2 : (p.reverse.dropWhile (· ≠ '/')).reverse ≠ [] := by
        simpa using hne
      split
      · split
        · rename_i h2
          simp only [List.isEmpty_eq_true] at h2
          exact absurd h2 hne2
        · rfl
      · rename_i h1
        simpa using h1
  · simp only [hrel, Bool.not_false, ↓reduceIte]
    have hall : p.dropWhile (· == '/') = [] := by
      simpa [fs.path.has_relative_path] using hrel
    constructor
    · intro h
      cases p with
      | nil => simp at h
      | cons a t =>
        by_cases ha : a = '/'
        · simp [ha]
        · simp [List.dropWhile_cons, ha] at hall
    · intro h
      cases p with
      | nil => simp at h
      | cons a t => rfl

theorem mem_of_filename_nil (p : fs.path) (hp : p ≠ []) (hf : fs.path.filename p = []) :
    '/' ∈ p := by
  rw [← has_parent_path_iff]
  unfold fs.path.has_parent_path fs.path.parent_path
  by_cases hrel : fs.path.has_relative_path p = true
  · simp only [hrel, Bool.not_true, Bool.false_eq_true, ↓reduceIte, hf, List.length_nil,
      Nat.sub_zero, List.take_length]
    split
    · split
      · rename_i h2
        simp only [List.isEmpty_eq_true] at h2
        exact absurd h2 hp
      · rfl
    · rename_i h1
      simpa using h1
  · simp only [hrel, Bool.not_false, ↓reduceIte]
    cases p with
    | nil => exact absurd rfl hp
    | cons a t => rfl

theorem append_lib_has_separator (p : fs.path) (hp : p ≠ []) :
    '/' ∈ fs.path.append p "lib".toList := by
  unfold fs.path.append
  have h1 : fs.path.is_absolute "lib".toList = false := by decide
  rw [h1]
  simp only [Bool.false_eq_true, ↓reduceIte]
  by_cases hf : fs.path.has_filename p = true
  · simp [hf]
  · simp only [hf, Bool.false_eq_true, ↓reduceIte]
    have hfn : fs.path.filename p = [] := by
      simpa [fs.path.has_filename] using hf
    exact List.mem_append_left _ (mem_of_filename_nil p hp hfn)

theorem decorate_has_separator (plat : Platform) (sl : fs.path) (h : '/' ∈ sl) :
    '/' ∈ decorate plat sl := by
  have hpp : fs.path.has_parent_path sl = true := (has_parent_path_iff sl).2 h
  have hne : fs.path.parent_path sl ≠ [] := by
    simpa [fs.path.has_parent_path] using hpp
  unfold decorate
  dsimp only
  apply List.mem_append_left
  split
  · exact List.mem_append_left _ (append_lib_has_separator _ hne)
  · exact h

theorem dot_append (sl : fs.path) (h : '/' ∉ sl) :
    fs.path.append ".".toList sl = "./".toList ++ sl := by
  unfold fs.path.append
  have habs : fs.path.is_absolute sl = false := by
    cases sl with
    | nil => rfl
    | cons a t =>
      have : a ≠ '/' := fun e => h (by simp [e])
      simp [fs.path.is_absolute, this]
  have hfn : fs.path.has_filename ".".toList = true := by decide
  rw [habs, hfn]
  rfl

theorem fix_modes_and (dl : dlfcn) (mode flag : Nat)
    (hlazy : dl.RTLD_LAZY &&& flag = 0) (hlocal : dl.RTLD_LOCAL &&& flag = 0) :
    fix_modes dl mode &&& flag = 0 ↔ mode &&& flag = 0 := by
  unfold fix_modes
  dsimp only
  split
  · split
    · rw [or_and_eq_zero _ _ _ hlocal, or_and_eq_zero _ _ _ hlazy]
    · rw [or_and_eq_zero _ _ _ hlazy]
  · split
    · rw [or_and_eq_zero _ _ _ hlocal]
    · rfl

theorem fix_modes_and_ne (dl : dlfcn) (mode flag : Nat) (h : mode &&& flag ≠ 0) :
    fix_modes dl mode &&& flag ≠ 0 := by
  unfold fix_modes
  dsimp only
  split
  · split
    · exact and_ne_zero_of_or _ _ _ (and_ne_zero_of_or _ _ _ h)
    · exact and_ne_zero_of_or _ _ _ h
  · split
    · exact and_ne_zero_of_or _ _ _ h
    · exact h

/-- Claim C27. On Linux and Android, with flag values in which `RTLD_LAZY` and
`RTLD_LOCAL` do not hold the bit `search_system_folders`: when `search_system_folders` is
not set in the mode, every file name that `load` hands to `dlopen` has a parent path and
contains a separator; it is the path itself when that has a parent path and else "./"
followed by the path, or the decorated form of that. When `search_system_folders` is set,
the names handed over are the path as given and its decorated form. -/
theorem load_file_names_have_parent {σ : Type} (L : platform_loader σ) (plat : Platform)
    (dl : dlfcn) (s : state σ) (sl : fs.path) (mode : Nat) (ec : fs.error_code)
    (hlinux : (plat.MIDLL_OS_LINUX || plat.MIDLL_OS_ANDROID) = true)
    (hlazy : dl.RTLD_LAZY &&& load_mode.search_system_folders = 0)
    (hlocal : dl.RTLD_LOCAL &&& load_mode.search_system_folders = 0) :
    (mode &&& load_mode.search_system_folders = 0 →
      ∃ new, (load L plat dl s sl mode ec).self.calls = (unload L s).calls ++ new ∧
        ∀ p m r, native_call.dlopen (some p) m r ∈ new →
          fs.path.has_parent_path p = true ∧ '/' ∈ p ∧
          (p = (if fs.path.has_parent_path sl then sl else "./".toList ++ sl) ∨
           p = decorate plat
                 (if fs.path.has_parent_path sl then sl else "./".toList ++ sl))) ∧
    (mode &&& load_mode.search_system_folders ≠ 0 →
      ∃ new, (load L plat dl s sl mode ec).self.calls = (unload L s).calls ++ new ∧
        ∀ p m r, native_call.dlopen (some p) m r ∈ new →
          p = sl ∨ p = decorate plat sl) := by
  obtain ⟨new, hn, hd⟩ := load_calls L plat dl s sl mode ec
  have hfiles : ∀ p m r, native_call.dlopen (some p) m r ∈ new →
      p = (fix_path L plat (unload L s) sl (fix_modes dl mode)).1 ∨
      p = decorate plat (fix_path L plat (unload L s) sl (fix_modes dl mode)).1 := by
    intro p m r hmem
    obtain ⟨file, r', he, hf⟩ := hd _ hmem
    simp only [native_call.dlopen.injEq] at he
    rw [← he.1] at hf
    simp only [List.mem_cons, Option.some.injEq, List.mem_singleton, List.not_mem_nil,
      or_false] at hf
    rcases hf with hf | hf | hf
    · exact Or.inr hf
    · exact Or.inl hf
    · exact absurd hf (by simp)
  constructor
  · intro hssf
    have hfm := (fix_modes_and dl mode _ hlazy hlocal).2 hssf
    have hfix : (fix_path L plat (unload L s) sl (fix_modes dl mode)).1
        = (if fs.path.has_parent_path sl then sl else "./".toList ++ sl) := by
      unfold fix_path
      rw [if_pos hlinux]
      by_cases hp : fs.path.has_parent_path sl = true
      · simp [hp]
      · have hno : '/' ∉ sl := fun hc => hp ((has_parent_path_iff sl).2 hc)
        simp only [hp, Bool.not_false, Bool.true_and, hfm, decide_True, ↓reduceIte,
          Bool.false_eq_true]
        exact dot_append sl hno
    have hsep : '/' ∈ (if fs.path.has_parent_path sl then sl else "./".toList ++ sl) := by
      by_cases hp : fs.path.has_parent_path sl = true
      · simp only [hp, ↓reduceIte]
        exact (has_parent_path_iff sl).1 hp
      · simp [hp]
    refine ⟨new, hn, ?_⟩
    intro p m r hmem
    rw [hfix] at hfiles
    rcases hfiles p m r hmem with hp | hp
    · rw [hp]
      exact ⟨(has_parent_path_iff _).2 hsep, hsep, Or.inl rfl⟩
    · rw [hp]
      have := decorate_has_separator plat _ hsep
      exact ⟨(has_parent_path_iff _).2 this, this, Or.inr rfl⟩
  · intro hssf
    have hfm := fix_modes_and_ne dl mode _ hssf
    have hfix : (fix_path L plat (unload L s) sl (fix_modes dl mode)).1 = sl := by
      unfold fix_path
      rw [if_pos hlinux]
      simp [hfm]
    refine ⟨new, hn, ?_⟩
    intro p m r hmem
    rw [hfix] at hfiles
    exact hfiles p m r hmem

/-- Witness of C27: the bare name "demo" loaded with `append_decorations`. -/
theorem load_file_names_have_parent_witness :
    ∃ new, (load samples.demo_loader samples.linux_x86_64 samples.glibc
          (⟨0, (), []⟩ : state Unit) "demo".toList 0x00800000 none).self.calls
        = (unload samples.demo_loader (⟨0, (), []⟩ : state Unit)).calls ++ new ∧
      ∀ p m r, native_call.dlopen (some p) m r ∈ new →
        fs.path.has_parent_path p = true ∧ '/' ∈ p ∧
        (p = (if fs.path.has_parent_path "demo".toList then "demo".toList
              else "./".toList ++ "demo".toList) ∨
         p = decorate samples.linux_x86_64
               (if fs.path.has_parent_path "demo".toList then "demo".toList
                else "./".toList ++ "demo".toList)) :=
  (load_file_names_have_parent samples.demo_loader samples.linux_x86_64 samples.glibc
    ⟨0, (), []⟩ "demo".toList 0x00800000 none rfl rfl rfl).1 rfl

/-! ## Decorated candidates -/

/-- Claim C28, refuted as stated: the program is "/bin/app", the decorated candidate
"/bin/libapp.so" of the path "/bin/app" exists on disk and cannot be loaded; `load` with
`append_decorations` goes on to the undecorated path all the same, because the path is
the running program. -/
theorem load_retries_undecorated_program_path :
    (load samples.self_loader samples.linux_x86_64 samples.glibc (⟨0, (), []⟩ : state Unit)
        "/bin/app".toList load_mode.append_decorations none).self.calls
      = [.dlopen (some "/bin/libapp.so".toList) 1 0, .dlopen (some "/bin/app".toList) 1 0,
         .dlopen none 1 7] ∧
    (samples.self_loader.fs_exists () "/bin/libapp.so".toList).1 = some true ∧
    decorate samples.linux_x86_64 "/bin/app".toList = "/bin/libapp.so".toList :=
  ⟨rfl, rfl, rfl⟩

theorem load_exact_first_call {σ : Type} (L : platform_loader σ) (s : state σ) (sl : fs.path)
    (native_mode : Nat) (ec : fs.error_code) :
    ∃ r rest, (load_exact L s sl native_mode ec).self.calls
      = s.calls ++ .dlopen (some sl) native_mode r :: rest := by
  have again : ∀ s' : state σ, s'.calls = (do_dlopen L s (some sl) native_mode).calls →
      ∃ r rest, (do_dlopen L s' none native_mode).calls
        = s.calls ++ .dlopen (some sl) native_mode r :: rest := by
    intro s' hs'
    exact ⟨(L.dlopen s.world (some sl) native_mode).1,
      [.dlopen none native_mode (L.dlopen s'.world none native_mode).1], by
      simp [do_dlopen, hs']⟩
  unfold load_exact
  dsimp only
  split
  · exact ⟨_, [], rfl⟩
  · split
    · exact ⟨_, [], rfl⟩
    · split
      · split
        · exact again _ rfl
        · exact again _ rfl
      · exact ⟨_, [], rfl⟩

theorem windows_load_impl_on_disk {τ : Type} (L : windows.platform_loader τ)
    (s : windows.shared_library_impl.state τ) (file : fs.path) (m : Nat) (ec : fs.error_code)
    (h : (L.LoadLibraryExW s.world file m).1 = 0)
    (hex : (L.fs_exists (L.last_error_code (L.LoadLibraryExW s.world file m).2).2 file).1
      = some true) :
    windows.shared_library_impl.load_impl L s file m ec
      = ⟨true,
         { handle_ := 0
           world := (L.fs_exists (L.last_error_code (L.LoadLibraryExW s.world file m).2).2
             file).2
           calls := s.calls ++ [.LoadLibraryExW file m 0] },
         (L.last_error_code (L.LoadLibraryExW s.world file m).2).1, false⟩ := by
  unfold windows.shared_library_impl.load_impl
  simp [windows.shared_library_impl.do_load, h, hex]

theorem windows_load_impl_absent {τ : Type} (L : windows.platform_loader τ)
    (s : windows.shared_library_impl.state τ) (file : fs.path) (m : Nat) (ec : fs.error_code)
    (h : (L.LoadLibraryExW s.world file m).1 = 0)
    (hex : (L.fs_exists (L.last_error_code (L.LoadLibraryExW s.world file m).2).2 file).1
      = some false) :
    windows.shared_library_impl.load_impl L s file m ec
      = ⟨false,
         { handle_ := 0
           world := (L.fs_exists (L.last_error_code (L.LoadLibraryExW s.world file m).2).2
             file).2
           calls := s.calls ++ [.LoadLibraryExW file m 0] },
         none, false⟩ := by
  unfold windows.shared_library_impl.load_impl
  simp [windows.shared_library_impl.do_load, h, hex, fs.error_code.clear]

theorem windows_load_direct_call {τ : Type} (L : windows.platform_loader τ)
    (P : windows.path_ops) (s : windows.shared_library_impl.state τ) (sl : fs.path)
    (native_mode : Nat) (ec : fs.error_code) :
    ∃ file r, (windows.shared_library_impl.load_direct L P s sl native_mode ec).self.calls
        = s.calls ++ [.LoadLibraryExW file native_mode r] ∧
      (file = sl ∨ file = sl ++ ".".toList) := by
  unfold windows.shared_library_impl.load_direct
  dsimp only
  by_cases hext : P.has_extension sl = true
  · refine ⟨sl, (L.LoadLibraryExW s.world sl native_mode).1, ?_, Or.inl rfl⟩
    simp only [hext, ↓reduceIte]
    split <;> rfl
  · refine ⟨sl ++ ".".toList, (L.LoadLibraryExW s.world (sl ++ ".".toList) native_mode).1, ?_,
      Or.inr rfl⟩
    simp only [hext, Bool.false_eq_true, ↓reduceIte]
    split <;> rfl

/-- Claim C28, amended. `load` with a path that is not empty enters the block of the
decorated attempts when `append_decorations` is set and else opens the path as given. In
the POSIX block: a decorated candidate that loads ends the call; one that fails, exists on
disk and belongs to a path that is not the running program ends the call with
`executable_format_error`, a null handle and no further attempt; when `exists` raises the
call ends by that exception; the undecorated path is tried next exactly when the candidate
failed and either does not exist or the path is the running program. In the Windows
block: a candidate that fails and exists on disk ends the call with the error code read
after the failed `LoadLibraryExW`, a null handle and no further attempt, for the decorated
path and for the path with "lib" before the file name alike; the path as given (with "."
added when it has no extension) is tried only after both candidates failed and neither
exists. -/
theorem load_decorated_candidates {σ τ : Type} (L : platform_loader σ) (plat : Platform)
    (dl : dlfcn) (s : state σ) (sl : fs.path) (mode native_mode : Nat) (ec : fs.error_code)
    (LW : windows.platform_loader τ) (P : windows.path_ops)
    (sw : windows.shared_library_impl.state τ) (slw : fs.path) (modew native_modew : Nat)
    (ecw : fs.error_code) :
    (fs.path.empty sl = false →
      load L plat dl s sl mode ec
        = if clear_flag (fix_modes dl mode) load_mode.search_system_folders
              &&& load_mode.append_decorations ≠ 0 then
            load_decorated L plat (fix_path L plat (unload L s) sl (fix_modes dl mode)).2
              (fix_path L plat (unload L s) sl (fix_modes dl mode)).1
              (clear_flag (fix_modes dl mode) load_mode.search_system_folders) ec
          else
            load_exact L (fix_path L plat (unload L s) sl (fix_modes dl mode)).2
              (fix_path L plat (unload L s) sl (fix_modes dl mode)).1
              (clear_flag (fix_modes dl mode) load_mode.search_system_folders) ec) ∧
    (∃ r rest, (load_exact L s sl native_mode ec).self.calls
      = s.calls ++ .dlopen (some sl) native_mode r :: rest) ∧
    ((candidate L plat s sl native_mode).handle ≠ 0 →
      (load_decorated L plat s sl native_mode ec).self.handle_
        = (candidate L plat s sl native_mode).handle ∧
      (load_decorated L plat s sl native_mode ec).self.calls
        = s.calls ++ [.dlopen (some (candidate L plat s sl native_mode).file)
            (candidate L plat s sl native_mode).mode
            (candidate L plat s sl native_mode).handle]) ∧
    ((candidate L plat s sl native_mode).handle = 0 →
      (candidate L plat s sl native_mode).on_disk = some true →
      (candidate L plat s sl native_mode).is_program = false →
      (load_decorated L plat s sl native_mode ec).ec = some .executable_format_error ∧
      (load_decorated L plat s sl native_mode ec).raised = false ∧
      (load_decorated L plat s sl native_mode ec).self.handle_ = 0 ∧
      (load_decorated L plat s sl native_mode ec).self.calls
        = s.calls ++ [.dlopen (some (candidate L plat s sl native_mode).file)
            (candidate L plat s sl native_mode).mode 0]) ∧
    ((candidate L plat s sl native_mode).handle = 0 →
      (candidate L plat s sl native_mode).on_disk = none →
      (load_decorated L plat s sl native_mode ec).raised = true ∧
      (load_decorated L plat s sl native_mode ec).self.handle_ = 0 ∧
      (load_decorated L plat s sl native_mode ec).self.calls
        = s.calls ++ [.dlopen (some (candidate L plat s sl native_mode).file)
            (candidate L plat s sl native_mode).mode 0]) ∧
    ((candidate L plat s sl native_mode).handle = 0 →
      ((candidate L plat s sl native_mode).on_disk = some false ∨
        ((candidate L plat s sl native_mode).on_disk = some true ∧
          (candidate L plat s sl native_mode).is_program = true)) →
      ∃ r rest, (load_decorated L plat s sl native_mode ec).self.calls
        = s.calls ++ .dlopen (some (candidate L plat s sl native_mode).file)
            (candidate L plat s sl native_mode).mode 0
          :: .dlopen (some sl) (candidate L plat s sl native_mode).mode r :: rest) ∧
    (windows.shared_library_impl.load LW P sw slw modew ecw
      = if clear_flag (modew % 2 ^ 32) load_mode.search_system_folders
            &&& load_mode.append_decorations ≠ 0 then
          windows.shared_library_impl.load_decorated LW P
            (windows.shared_library_impl.fix_path LW P
              (windows.shared_library_impl.unload LW sw) slw (modew % 2 ^ 32)).2
            (windows.shared_library_impl.fix_path LW P
              (windows.shared_library_impl.unload LW sw) slw (modew % 2 ^ 32)).1
            (clear_flag (modew % 2 ^ 32) load_mode.search_system_folders) ecw
        else
          windows.shared_library_impl.load_direct LW P
            (windows.shared_library_impl.fix_path LW P
              (windows.shared_library_impl.unload LW sw) slw (modew % 2 ^ 32)).2
            (windows.shared_library_impl.fix_path LW P
              (windows.shared_library_impl.unload LW sw) slw (modew % 2 ^ 32)).1
            (clear_flag (modew % 2 ^ 32) load_mode.search_system_folders) ecw) ∧
    (∃ file r, (windows.shared_library_impl.load_direct LW P sw slw native_modew ecw).self.calls
        = sw.calls ++ [.LoadLibraryExW file native_modew r] ∧
      (file = slw ∨ file = slw ++ ".".toList)) ∧
    ((windows.shared_library_impl.candidates LW P sw slw native_modew).1.handle ≠ 0 →
      (windows.shared_library_impl.load_decorated LW P sw slw native_modew ecw).self.handle_
        = (windows.shared_library_impl.candidates LW P sw slw native_modew).1.handle ∧
      (windows.shared_library_impl.load_decorated LW P sw slw native_modew ecw).self.calls
        = sw.calls ++ [.LoadLibraryExW
            (windows.shared_library_impl.candidates LW P sw slw native_modew).1.file
            (clear_flag native_modew load_mode.append_decorations)
            (windows.shared_library_impl.candidates LW P sw slw native_modew).1.handle]) ∧
    ((windows.shared_library_impl.candidates LW P sw slw native_modew).1.handle = 0 →
      (windows.shared_library_impl.candidates LW P sw slw native_modew).1.on_disk
        = some true →
      (windows.shared_library_impl.load_decorated LW P sw slw native_modew ecw).ec
        = (windows.shared_library_impl.candidates LW P sw slw native_modew).1.error ∧
      (windows.shared_library_impl.load_decorated LW P sw slw native_modew ecw).raised
        = false ∧
      (windows.shared_library_impl.load_decorated LW P sw slw native_modew ecw).self.handle_
        = 0 ∧
      (windows.shared_library_impl.load_decorated LW P sw slw native_modew ecw).self.calls
        = sw.calls ++ [.LoadLibraryExW
            (windows.shared_library_impl.candidates LW P sw slw native_modew).1.file
            (clear_flag native_modew load_mode.append_decorations) 0]) ∧
    ((windows.shared_library_impl.candidates LW P sw slw native_modew).1.handle = 0 →
      (windows.shared_library_impl.candidates LW P sw slw native_modew).1.on_disk
        = some false →
      (windows.shared_library_impl.candidates LW P sw slw native_modew).2.handle = 0 →
      (windows.shared_library_impl.candidates LW P sw slw native_modew).2.on_disk
        = some true →
      (windows.shared_library_impl.load_decorated LW P sw slw native_modew ecw).ec
        = (windows.shared_library_impl.candidates LW P sw slw native_modew).2.error ∧
      (windows.shared_library_impl.load_decorated LW P sw slw native_modew ecw).raised
        = false ∧
      (windows.shared_library_impl.load_decorated LW P sw slw native_modew ecw).self.handle_
        = 0 ∧
      (windows.shared_library_impl.load_decorated LW P sw slw native_modew ecw).self.calls
        = sw.calls ++ [.LoadLibraryExW
            (windows.shared_library_impl.candidates LW P sw slw native_modew).1.file
            (clear_flag native_modew load_mode.append_decorations) 0,
          .LoadLibraryExW
            (windows.shared_library_impl.candidates LW P sw slw native_modew).2.file
            (clear_flag native_modew load_mode.append_decorations) 0]) ∧
    ((windows.shared_library_impl.candidates LW P sw slw native_modew).1.handle = 0 →
      (windows.shared_library_impl.candidates LW P sw slw native_modew).1.on_disk
        = some false →
      (windows.shared_library_impl.candidates LW P sw slw native_modew).2.handle = 0 →
      (windows.shared_library_impl.candidates LW P sw slw native_modew).2.on_disk
        = some false →
      ∃ file r,
        (windows.shared_library_impl.load_decorated LW P sw slw native_modew ecw).self.calls
          = sw.calls ++ [.LoadLibraryExW
              (windows.shared_library_impl.candidates LW P sw slw native_modew).1.file
              (clear_flag native_modew load_mode.append_decorations) 0,
            .LoadLibraryExW
              (windows.shared_library_impl.candidates LW P sw slw native_modew).2.file
              (clear_flag native_modew load_mode.append_decorations) 0,
            .LoadLibraryExW file (clear_flag native_modew load_mode.append_decorations) r] ∧
        (file = slw ∨ file = slw ++ ".".toList)) := by
  refine ⟨?_, load_exact_first_call L s sl native_mode ec, ?_, ?_, ?_, ?_, ?_, ?_, ?_, ?_,
    ?_, ?_⟩
  · intro hne
    unfold load
    simp only [hne, Bool.false_eq_true, ↓reduceIte]
  · intro h
    unfold candidate at h ⊢
    unfold load_decorated
    dsimp only at h ⊢
    rw [if_pos (by simpa [do_dlopen] using h)]
    exact ⟨rfl, rfl⟩
  · intro h hex heq
    unfold candidate at h hex heq ⊢
    unfold load_decorated
    dsimp only at h hex heq ⊢
    rw [if_neg (by simpa [do_dlopen] using h)]
    simp only [do_dlopen, hex, heq, h]
    simp
  · intro h hex
    unfold candidate at h hex ⊢
    unfold load_decorated
    dsimp only at h hex ⊢
    rw [if_neg (by simpa [do_dlopen] using h)]
    simp only [do_dlopen, hex, h]
    simp
  · intro h hex
    unfold candidate at h hex ⊢
    unfold load_decorated
    dsimp only at h hex ⊢
    rw [if_neg (by simpa [do_dlopen] using h)]
    have key : ∀ s' : state σ, s'.calls = s.calls ++
        [.dlopen (some (decorate plat sl))
          (clear_flag native_mode load_mode.append_decorations) 0] →
        ∃ r rest, (load_exact L s' sl (clear_flag native_mode load_mode.append_decorations)
            ec).self.calls
          = s.calls ++ .dlopen (some (decorate plat sl))
              (clear_flag native_mode load_mode.append_decorations) 0
            :: .dlopen (some sl) (clear_flag native_mode load_mode.append_decorations) r
            :: rest := by
      intro s' hs'
      obtain ⟨r, rest, hr⟩ := load_exact_first_call L s' sl
        (clear_flag native_mode load_mode.append_decorations) ec
      exact ⟨r, rest, by rw [hr, hs']; simp⟩
    rcases hex with hex | ⟨hex, heq⟩
    · simp only [do_dlopen, hex]
      exact key _ (by simp [h])
    · simp only [do_dlopen, hex, heq]
      exact key _ (by simp [h])
  · rfl
  · exact windows_load_direct_call LW P sw slw native_modew ecw
  · intro h
    unfold windows.shared_library_impl.candidates at h ⊢
    unfold windows.shared_library_impl.load_decorated windows.shared_library_impl.load_impl
    dsimp only at h ⊢
    simp [windows.shared_library_impl.do_load, h]
  · intro h hex
    unfold windows.shared_library_impl.candidates at h hex ⊢
    unfold windows.shared_library_impl.load_decorated windows.shared_library_impl.load_impl
    dsimp only at h hex ⊢
    simp [windows.shared_library_impl.do_load, h, hex]
  · intro h hex h2 hex2
    unfold windows.shared_library_impl.candidates at h hex h2 hex2 ⊢
    unfold windows.shared_library_impl.load_decorated
    dsimp only at h hex h2 hex2 ⊢
    generalize (if P.has_parent_path slw = true then P.append (P.parent_path slw) "lib".toList
      else "lib".toList) ++ P.filename slw ++ windows.shared_library_impl.suffix = file2
      at h2 hex2 ⊢
    rw [windows_load_impl_absent LW sw _ _ ecw h hex]
    simp only [Bool.false_eq_true, ↓reduceIte]
    rw [windows_load_impl_on_disk LW _ file2 _ _ h2 hex2]
    simp
  · intro h hex h2 hex2
    unfold windows.shared_library_impl.candidates at h hex h2 hex2 ⊢
    unfold windows.shared_library_impl.load_decorated
    dsimp only at h hex h2 hex2 ⊢
    generalize (if P.has_parent_path slw = true then P.append (P.parent_path slw) "lib".toList
      else "lib".toList) ++ P.filename slw ++ windows.shared_library_impl.suffix = file2
      at h2 hex2 ⊢
    rw [windows_load_impl_absent LW sw _ _ ecw h hex]
    simp only [Bool.false_eq_true, ↓reduceIte]
    rw [windows_load_impl_absent LW _ file2 _ _ h2 hex2]
    simp only [Bool.false_eq_true, ↓reduceIte]
    obtain ⟨file, r, hc, hf⟩ := windows_load_direct_call LW P
      { handle_ := 0
        world := (LW.fs_exists (LW.last_error_code (LW.LoadLibraryExW
          (LW.fs_exists (LW.last_error_code (LW.LoadLibraryExW sw.world
            (windows.shared_library_impl.decorate slw)
            (clear_flag native_modew load_mode.append_decorations)).2).2
            (windows.shared_library_impl.decorate slw)).2
          file2 (clear_flag native_modew load_mode.append_decorations)).2).2 file2).2
        calls := sw.calls ++ [.LoadLibraryExW (windows.shared_library_impl.decorate slw)
            (clear_flag native_modew load_mode.append_decorations) 0]
          ++ [.LoadLibraryExW file2
            (clear_flag native_modew load_mode.append_decorations) 0] }
      slw (clear_flag native_modew load_mode.append_decorations) none
    exact ⟨file, r, by rw [hc]; simp, hf⟩

/-- Witness of C28: the decorated candidate "/bin/libtool.so" of "/bin/tool" exists and
cannot be loaded, and on Windows the candidate "C:\\work\\demo.dll" of "demo". -/
theorem load_decorated_candidates_witness :
    ((load_decorated samples.self_loader samples.linux_x86_64 (⟨0, (), []⟩ : state Unit)
          "/bin/tool".toList 0x00800001 none).ec = some .executable_format_error ∧
      (load_decorated samples.self_loader samples.linux_x86_64 (⟨0, (), []⟩ : state Unit)
          "/bin/tool".toList 0x00800001 none).raised = false ∧
      (load_decorated samples.self_loader samples.linux_x86_64 (⟨0, (), []⟩ : state Unit)
          "/bin/tool".toList 0x00800001 none).self.handle_ = 0 ∧
      (load_decorated samples.self_loader samples.linux_x86_64 (⟨0, (), []⟩ : state Unit)
          "/bin/tool".toList 0x00800001 none).self.calls
        = [] ++ [.dlopen (some "/bin/libtool.so".toList) 1 0]) ∧
    (load samples.self_loader samples.linux_x86_64 samples.glibc (⟨0, (), []⟩ : state Unit)
        "/bin/tool".toList load_mode.append_decorations none).ec
      = some .executable_format_error ∧
    (windows.shared_library_impl.load samples.windows_broken_loader samples.windows_paths
        ⟨0, (), []⟩ "demo".toList load_mode.append_decorations none).ec
      = some (.other 193) ∧
    (windows.shared_library_impl.load samples.windows_broken_loader samples.windows_paths
        ⟨0, (), []⟩ "demo".toList load_mode.append_decorations none).self.calls
      = [.LoadLibraryExW "C:\\work\\demo.dll".toList 0 0] :=
  ⟨(load_decorated_candidates samples.self_loader samples.linux_x86_64 samples.glibc
      ⟨0, (), []⟩ "/bin/tool".toList 0 0x00800001 none samples.windows_broken_loader
      samples.windows_paths ⟨0, (), []⟩ "demo".toList 0 0 none).2.2.2.1 rfl rfl rfl,
   rfl, rfl, rfl⟩

end midll
